import Mathlib

/-!
# Expense-Tracker: the Dashboard's analytics, forecast and budget computations

A shallow embedding of the three `useMemo` computations of `src/Dashboard.js`
(`analytics`, `prediction`, `budgetAnalysis`), of the control flow of `renderTabContent`,
and theorems about them.

Modelling conventions.

* JS numbers are exact rationals (`ℚ`); `1.2` is `6/5`, `1.1` is `11/10`, `0.6` is `3/5`,
  `0.4` is `2/5`, `0.8` is `4/5`.  A quotient whose divisor is `0` is `0` in `ℚ`, whereas JS
  yields `NaN` or `±Infinity`; statements that depend on such a quotient say so.
* The totals and the budget report are embedded a second time in binary64 arithmetic (`F64`,
  round to nearest, ties to even; `budgetAnalysisF64`), where sums and products are rounded.
* `parseFloat(exp.amount)` is the field `Expense.amount`; the adding-up of `analytics` is
  embedded a second time with `NaN` for amounts that do not parse (`analyticsNaN`).
* `new Date(exp.date)` and `new Date()` are values of `JSDate`: the instant in milliseconds
  (what `>=` compares) together with the local calendar fields the code reads
  (`getMonth()`, `getDate()`, and the year and month formatted by `toLocaleDateString`) and
  the instant that `setDate(getDate() - 7)` moves the date to.  The wall clock is the explicit
  argument `now`.
* A plain JS object used as a dictionary is an association list of its own properties in the
  order of their creation (`Obj`); `entries` gives the order in which `Object.entries` lists
  them (array-index keys first), which `topCategory` depends on.  Reads of `Obj` see own
  properties only; the grouping reducers are embedded a second time on an object with its
  prototype (`categoryDataJS`, `monthlyDataJS`), which agrees with `Obj` as long as no key is
  the name of a member of `Object.prototype`.
* `Array.prototype.sort` is a stable sort; `Math.sqrt` is the argument `sqrt`.
-/

namespace Dashboard

/-! ## Host values -/

/-- A JS `Date` as the Dashboard observes it. -/
structure JSDate where
  /-- The result of `getTime()`: milliseconds since the epoch. -/
  time : Int
  /-- The local calendar year. -/
  year : Nat
  /-- The result of `getMonth()`: 0 is January, 11 is December. -/
  month : Fin 12
  /-- The result of `getDate()`: day of the month. -/
  day : Nat
  /-- The result of `getTime()` after `setDate(getDate() - 7)` on a copy of the date: the
  instant at the same local time of day seven calendar days earlier.  It is `time - 604800000`
  unless the local clock was changed (daylight saving) within those seven days. -/
  weekEarlier : Int
deriving DecidableEq

/-- An expense record as the Dashboard reads it. -/
structure Expense where
  /-- The value of `parseFloat(exp.amount)`. -/
  amount : ℚ
  /-- The field `exp.category`. -/
  category : String
  /-- The value of `new Date(exp.date)`. -/
  date : JSDate
deriving DecidableEq

/-- The `en-US` short month names, indexed by `getMonth()`. -/
def monthShort (m : Fin 12) : String :=
  ["Jan", "Feb", "Mar", "Apr", "May", "Jun", "Jul", "Aug", "Sep", "Oct", "Nov", "Dec"].getD m.val ""

/-- The string `d.toLocaleDateString("en-US", { year: "numeric", month: "short" })`,
for instance `Jan 2024`. -/
def monthKey (d : JSDate) : String :=
  monthShort d.month ++ " " ++ toString d.year

/-- The date `sevenDaysAgo`: `new Date()` after `setDate(getDate() - 7)`, the same local time
of day seven calendar days earlier.  Only its instant is used. -/
def sevenDaysAgo (now : JSDate) : Int :=
  now.weekEarlier

/-- Number of days of the month `month` (0-based) of `year`:
`new Date(year, month + 1, 0).getDate()`. -/
def daysInMonth (year : Nat) (month : Fin 12) : Nat :=
  if month.val = 1 then
    (if (year % 4 = 0 ∧ year % 100 ≠ 0) ∨ year % 400 = 0 then 29 else 28)
  else if month.val = 3 ∨ month.val = 5 ∨ month.val = 8 ∨ month.val = 10 then 30
  else 31

/-! ## JS objects used as dictionaries -/

/-- A JS object with string keys and numeric values, in property order. -/
abbrev Obj := List (String × ℚ)

/-- Property read `acc[k]`; `none` is `undefined`. -/
def getProp : Obj → String → Option ℚ
  | [], _ => none
  | (k', v) :: rest, k => if k' = k then some v else getProp rest k

/-- Property write `acc[k] = v`: an existing key keeps its place, a new key goes last. -/
def setProp : Obj → String → ℚ → Obj
  | [], k, v => [(k, v)]
  | (k', v') :: rest, k, v =>
    if k' = k then (k, v) :: rest else (k', v') :: setProp rest k v

/-- The expression `x || 0` for `x` a number or `undefined`. -/
def orZero : Option ℚ → ℚ
  | none => 0
  | some v => if v = 0 then 0 else v

/-- The array `Object.keys(o)`. -/
def keys (o : Obj) : List String := o.map Prod.fst

/-- The values of `o` in property order. -/
def vals (o : Obj) : List ℚ := o.map Prod.snd

/-- The call `xs.sort(cmp)`: stable, `a` stays before `b` unless `cmp(a, b) > 0`. -/
def sortBy {α : Type} (cmp : α → α → ℚ) (xs : List α) : List α :=
  xs.insertionSort (fun a b => cmp a b ≤ 0)

/-- The call `xs.sort()` on an array of strings: ascending in the lexicographic order of the
characters, which for the ASCII month labels sorted here is the order of their code units. -/
def sortStrings (xs : List String) : List String :=
  xs.insertionSort (fun a b => a ≤ b)

/-! ## `analytics` -/

/-- The reducer body shared by the two grouping folds of `analytics`:
`acc[key] = (acc[key] || 0) + parseFloat(exp.amount); return acc`. -/
def groupStep (key : Expense → String) (acc : Obj) (exp : Expense) : Obj :=
  setProp acc (key exp) (orZero (getProp acc (key exp)) + exp.amount)

/-- The record returned by `analytics`. -/
structure Analytics where
  totalSpent : ℚ
  categoryData : Obj
  monthlyData : Obj
  recentTotal : ℚ
  avgTransaction : ℚ
  /-- First entry of the sorted entries; `none` is `undefined`. -/
  topCategory : Option (String × ℚ)
  transactionCount : Nat
deriving DecidableEq

/-- Total spent: `expenses.reduce((sum, exp) => sum + parseFloat(exp.amount), 0)`. -/
def totalSpent (expenses : List Expense) : ℚ :=
  expenses.foldl (fun sum exp => sum + exp.amount) 0

/-- Category breakdown: the reduce into `acc[exp.category]`. -/
def categoryData (expenses : List Expense) : Obj :=
  expenses.foldl
    (fun acc exp => setProp acc exp.category (orZero (getProp acc exp.category) + exp.amount)) []

/-- Monthly spending: the reduce into `acc[month]`. -/
def monthlyData (expenses : List Expense) : Obj :=
  expenses.foldl
    (fun acc exp =>
      let month := monthKey exp.date
      setProp acc month (orZero (getProp acc month) + exp.amount)) []

/-- The filter `new Date(exp.date) >= sevenDaysAgo`. -/
def recentExpenses (now : JSDate) (expenses : List Expense) : List Expense :=
  expenses.filter (fun exp => decide (sevenDaysAgo now ≤ exp.date.time))

/-- Recent total: the reduce over `recentExpenses`. -/
def recentTotal (now : JSDate) (expenses : List Expense) : ℚ :=
  (recentExpenses now expenses).foldl (fun sum exp => sum + exp.amount) 0

/-- Reads a list of decimal digit characters back as a number, continuing from `acc`. -/
def decodeDigits (acc : Nat) (cs : List Char) : Nat :=
  cs.foldl (fun a c => 10 * a + (c.toNat - 48)) acc

/-- Whether the property key `s` is an array index: the canonical decimal numeral of an
integer from 0 to 2^32 - 2, such as `0`, `2` or `10` (but not `02` or `1.5`). -/
def isArrayIndex (s : String) : Bool :=
  decide (toString (decodeDigits 0 s.data) = s ∧ decodeDigits 0 s.data < 4294967295)

/-- The order in which `Object.entries(o)` lists the properties of `o`: the array-index keys
first, in ascending numeric order, then the other keys in the order in which they were
created. -/
def entries (o : Obj) : Obj :=
  (o.filter (fun p => isArrayIndex p.1)).insertionSort
      (fun a b => decodeDigits 0 a.1.data ≤ decodeDigits 0 b.1.data) ++
    o.filter (fun p => !isArrayIndex p.1)

/-- Top spending category: `Object.entries(categoryData).sort(([, a], [, b]) => b - a)[0]`. -/
def topCategory (categoryData : Obj) : Option (String × ℚ) :=
  (sortBy (fun a b => b.2 - a.2) (entries categoryData)).head?

/-- The memo `analytics`; `none` is `null`. -/
def analytics (now : JSDate) (expenses : List Expense) : Option Analytics :=
  if expenses.length = 0 then none
  else
    some
      { totalSpent := totalSpent expenses
        categoryData := categoryData expenses
        monthlyData := monthlyData expenses
        recentTotal := recentTotal now expenses
        avgTransaction := totalSpent expenses / expenses.length
        topCategory := topCategory (categoryData expenses)
        transactionCount := expenses.length }

/-! ## `prediction` -/

/-- An element of `categoryPredictions`. -/
structure CategoryPrediction where
  category : String
  predicted : ℚ
  percentage : ℚ
deriving DecidableEq

/-- The record returned by `prediction`. -/
structure Prediction where
  nextMonth : ℚ
  linear : ℚ
  movingAverage : ℚ
  trend : String
  confidence : ℚ
  volatility : ℚ
  categoryPredictions : List CategoryPrediction
  seasonalFactor : ℚ
deriving DecidableEq

/-- The conditional `seasonalMultiplier` on `currentMonth = new Date().getMonth()`. -/
def seasonalMultiplier (currentMonth : Fin 12) : ℚ :=
  if currentMonth.val = 11 ∨ currentMonth.val = 0 then 6 / 5
  else if 5 ≤ currentMonth.val ∧ currentMonth.val ≤ 7 then 11 / 10
  else 1

/-- The array `months = Object.keys(analytics.monthlyData).sort()`. -/
def months (a : Analytics) : List String :=
  sortStrings (keys a.monthlyData)

/-- The array `values = months.map((month) => analytics.monthlyData[month])`; every `month` is
a key of `monthlyData`, so the read is defined. -/
def values (a : Analytics) : List ℚ :=
  (months a).map (fun month => (getProp a.monthlyData month).getD 0)

/-- The `categoryPredictions` of either branch, for the prediction `p` being shared out. -/
def categoryPredictions (a : Analytics) (p : ℚ) : List CategoryPrediction :=
  sortBy (fun x y => y.predicted - x.predicted)
    (a.categoryData.map (fun entry =>
      let categoryPercentage := entry.2 / a.totalSpent
      { category := entry.1
        predicted := p * categoryPercentage
        percentage := categoryPercentage * 100 }))

/-- Sum of the indices: `values.reduce((sum, _, i) => sum + i, 0)`. -/
def sumX (values : List ℚ) : ℚ :=
  values.enum.foldl (fun sum iv => sum + (iv.1 : ℚ)) 0

/-- Sum of the values: `values.reduce((sum, val) => sum + val, 0)`. -/
def sumY (values : List ℚ) : ℚ :=
  values.foldl (fun sum val => sum + val) 0

/-- Sum of index times value: `values.reduce((sum, val, i) => sum + i * val, 0)`. -/
def sumXY (values : List ℚ) : ℚ :=
  values.enum.foldl (fun sum iv => sum + (iv.1 : ℚ) * iv.2) 0

/-- Sum of squared indices: `values.reduce((sum, _, i) => sum + i * i, 0)`. -/
def sumX2 (values : List ℚ) : ℚ :=
  values.enum.foldl (fun sum iv => sum + (iv.1 : ℚ) * (iv.1 : ℚ)) 0

/-- The regression `slope`. -/
def slope (values : List ℚ) : ℚ :=
  let n : ℚ := values.length
  (n * sumXY values - sumX values * sumY values) / (n * sumX2 values - sumX values * sumX values)

/-- The regression `intercept`. -/
def intercept (values : List ℚ) : ℚ :=
  let n : ℚ := values.length
  (sumY values - slope values * sumX values) / n

/-- The extrapolation `nextMonthLinear = slope * n + intercept`. -/
def nextMonthLinear (values : List ℚ) : ℚ :=
  slope values * (values.length : ℚ) + intercept values

/-- The array `recentValues = values.slice(-3)`. -/
def recentValues (values : List ℚ) : List ℚ :=
  values.drop (values.length - 3)

/-- The moving average over `recentValues`. -/
def movingAverage (values : List ℚ) : ℚ :=
  (recentValues values).foldl (fun sum val => sum + val) 0 / ((recentValues values).length : ℚ)

/-- The blend `weightedPrediction`. -/
def weightedPrediction (now : JSDate) (values : List ℚ) : ℚ :=
  (nextMonthLinear values * (3 / 5) + movingAverage values * (2 / 5)) * seasonalMultiplier now.month

/-- The label `trend`. -/
def trend (values : List ℚ) : String :=
  if slope values > 5 then "increasing" else if slope values < -5 then "decreasing" else "stable"

/-- The local `volatility`: mean of the squared residuals against the fitted line. -/
def volatility (values : List ℚ) : ℚ :=
  values.enum.foldl
    (fun sum iv =>
      let expected := intercept values + slope values * (iv.1 : ℚ)
      sum + (iv.2 - expected) ^ 2) 0 / (values.length : ℚ)

/-- The memo `prediction`; `none` is `null`. -/
def prediction (now : JSDate) (sqrt : ℚ → ℚ) (analytics : Option Analytics) : Option Prediction :=
  match analytics with
  | none => none
  | some a =>
    if (keys a.monthlyData).length < 1 then none
    else if (values a).length = 1 then
      let currentSpending := (values a).headD 0
      let basePrediction := currentSpending * seasonalMultiplier now.month
      some
        { nextMonth := max 0 basePrediction
          linear := basePrediction
          movingAverage := currentSpending
          trend := "stable"
          confidence := 70
          volatility := 0
          categoryPredictions := categoryPredictions a basePrediction
          seasonalFactor := seasonalMultiplier now.month }
    else
      some
        { nextMonth := max 0 (weightedPrediction now (values a))
          linear := max 0 (nextMonthLinear (values a))
          movingAverage := movingAverage (values a)
          trend := trend (values a)
          confidence := min 95 (max 50 (100 - sqrt (volatility (values a))))
          volatility := sqrt (volatility (values a))
          categoryPredictions := categoryPredictions a (weightedPrediction now (values a))
          seasonalFactor := seasonalMultiplier now.month }

/-! ## `budgetAnalysis` -/

/-- An element of `categoryBudgets`. -/
structure CategoryBudget where
  category : String
  suggested : ℚ
  current : ℚ
  percentage : ℚ
  status : String
deriving DecidableEq

/-- The record returned by `budgetAnalysis`. -/
structure BudgetAnalysis where
  totalSuggested : ℚ
  totalCurrent : ℚ
  totalPercentage : ℚ
  categoryBudgets : List CategoryBudget
  daysInMonth : Nat
  currentDay : Nat
deriving DecidableEq

/-- The per-category spend of the current month: the filter and reduce over `expenses`. -/
def currentCategorySpending (currentMonth : String) (expenses : List Expense) (category : String) :
    ℚ :=
  (expenses.filter
    (fun exp => decide (exp.category = category) && decide (monthKey exp.date = currentMonth))).foldl
    (fun sum exp => sum + exp.amount) 0

/-- The array `categoryBudgets`. -/
def categoryBudgets (now : JSDate) (a : Analytics) (expenses : List Expense) : List CategoryBudget :=
  a.categoryData.map (fun entry =>
    let avgCategorySpending := entry.2 / ((keys a.monthlyData).length : ℚ)
    let suggestedCategoryBudget := avgCategorySpending * (11 / 10)
    let current := currentCategorySpending (monthKey now) expenses entry.1
    { category := entry.1
      suggested := suggestedCategoryBudget
      current := current
      percentage := current / suggestedCategoryBudget * 100
      status :=
        if current > suggestedCategoryBudget then "over"
        else if current > suggestedCategoryBudget * (4 / 5) then "warning"
        else "good" })

/-- The memo `budgetAnalysis`; `none` is `null`. -/
def budgetAnalysis (now : JSDate) (analytics : Option Analytics) (expenses : List Expense) :
    Option BudgetAnalysis :=
  match analytics with
  | none => none
  | some a =>
    let avgMonthly := a.totalSpent / ((keys a.monthlyData).length : ℚ)
    let suggestedBudget := avgMonthly * (11 / 10)
    let currentMonthSpending := orZero (getProp a.monthlyData (monthKey now))
    some
      { totalSuggested := suggestedBudget
        totalCurrent := currentMonthSpending
        totalPercentage := currentMonthSpending / suggestedBudget * 100
        categoryBudgets := categoryBudgets now a expenses
        daysInMonth := daysInMonth now.year now.month
        currentDay := now.day }

/-! ## Concrete inputs -/

/-- The date 2024-01-05 (midnight UTC, read in a UTC locale). -/
def jan5 : JSDate := ⟨1704412800000, 2024, 0, 5, 1703808000000⟩

/-- The date 2024-02-10. -/
def feb10 : JSDate := ⟨1707523200000, 2024, 1, 10, 1706918400000⟩

/-- The date 2024-02-15. -/
def feb15 : JSDate := ⟨1707955200000, 2024, 1, 15, 1707350400000⟩

/-- An evaluation instant: 2024-03-01, midnight. -/
def mar1 : JSDate := ⟨1709251200000, 2024, 2, 1, 1708646400000⟩

/-- Scenario A of the specification. -/
def scenarioA : List Expense :=
  [⟨100, "Food", jan5⟩, ⟨50, "Food", feb10⟩, ⟨200, "Transportation", feb15⟩]

/-- Scenario B of the specification, evaluated on 2024-03-01: one expense dated today. -/
def scenarioB : List Expense := [⟨75, "Bills", mar1⟩]

/-- A single refund: one record with a negative amount, dated 2024-03-01. -/
def refundOnly : List Expense := [⟨-75, "Bills", mar1⟩]

/-- An evaluation instant in May: 2024-05-15. -/
def may15 : JSDate := ⟨1715731200000, 2024, 4, 15, 1715126400000⟩

/-- An evaluation instant in August: 2024-08-15. -/
def aug15 : JSDate := ⟨1723680000000, 2024, 7, 15, 1723075200000⟩

/-- An evaluation instant: 2024-03-01 at noon. -/
def mar1Noon : JSDate := ⟨1709294400000, 2024, 2, 1, 1708689600000⟩

/-- The date 2024-03-02, the day after `mar1Noon`. -/
def mar2 : JSDate := ⟨1709337600000, 2024, 2, 2, 1708732800000⟩

/-- The date 2024-02-23, seven calendar days before 2024-03-01. -/
def feb23 : JSDate := ⟨1708646400000, 2024, 1, 23, 1708041600000⟩

/-- One record dated tomorrow and one dated exactly seven calendar days ago. -/
def windowEdge : List Expense := [⟨40, "Food", mar2⟩, ⟨10, "Food", feb23⟩]

/-- One record dated exactly seven calendar days before 2024-03-01. -/
def weekOld : List Expense := [⟨10, "Food", feb23⟩]

/-- An evaluation instant in New York: 2024-03-13 at noon local time (16:00 UTC), three days
after the clocks went forward by one hour; seven calendar days earlier at noon local time is
2024-03-06 at 17:00 UTC. -/
def mar13NewYork : JSDate := ⟨1710345600000, 2024, 2, 13, 1709744400000⟩

/-- The date 2024-03-06 at 11:30 in New York (16:30 UTC). -/
def mar6Before : JSDate := ⟨1709742600000, 2024, 2, 6, 1709137800000⟩

/-- The date 2024-03-06 at 12:30 in New York (17:30 UTC). -/
def mar6After : JSDate := ⟨1709746200000, 2024, 2, 6, 1709141400000⟩

/-- One record half an hour before and one half an hour after noon of 2024-03-06 in New York. -/
def clockChange : List Expense := [⟨3, "Food", mar6Before⟩, ⟨5, "Food", mar6After⟩]

/-- All spending of January 2024 is 100 and all spending of February 2024 is 200. -/
def janFeb : List Expense := [⟨100, "Food", jan5⟩, ⟨200, "Food", feb10⟩]

/-- Number of the calendar day (UTC) on which `d` falls, counted from the epoch. -/
def dayNumber (d : JSDate) : Int := d.time / 86400000

/-- The recent-window total as the specification words it: the amounts of the records whose
calendar day lies within the 7 days ending at the evaluation day, from `today - 7` up to and
including today. -/
def specRecentWindowTotal (now : JSDate) (expenses : List Expense) : ℚ :=
  ((expenses.filter (fun exp =>
    decide (dayNumber now - 7 ≤ dayNumber exp.date ∧ dayNumber exp.date ≤ dayNumber now))).map
    Expense.amount).sum

/-! ## Auxiliary definitions for the proofs -/

/-- The date 2024-04-10. -/
def apr10 : JSDate := ⟨1712707200000, 2024, 3, 10, 1712102400000⟩

/-- An evaluation instant in December: 2024-12-15. -/
def dec15 : JSDate := ⟨1734220800000, 2024, 11, 15, 1733616000000⟩

/-- The date 2025-02-10. -/
def feb10of2025 : JSDate := ⟨1739145600000, 2025, 1, 10, 1738540800000⟩

/-- An evaluation instant: 2025-03-01, midnight. -/
def mar1of2025 : JSDate := ⟨1740787200000, 2025, 2, 1, 1740182400000⟩

/-- April 2024 with 200 spent and May 2024 with 50 spent; the labels of the two months are in
the same order as strings and as calendar months. -/
def aprMay : List Expense := [⟨200, "Food", apr10⟩, ⟨50, "Food", may15⟩]

/-- Four months of spending: 12 in April, 8 in August, 8 in December 2024 and 12 in February
2025; the labels of the four months are in the same order as strings and as calendar
months. -/
def fourMonths : List Expense :=
  [⟨12, "Food", apr10⟩, ⟨8, "Food", aug15⟩, ⟨8, "Food", dec15⟩, ⟨12, "Food", feb10of2025⟩]

/-- The least-squares objective of the line `y = a + b * i` on `values`: the sum over the
indices `i` of `(values[i] - (a + b * i)) ^ 2`. -/
def squaredError (values : List ℚ) (a b : ℚ) : ℚ :=
  ∑ i ∈ Finset.range values.length, (values.getD i 0 - (a + b * (i : ℚ))) ^ 2

/-- The mean squared residual of `values` against the fitted line:
`(1 / n) * Σ (values[i] - (intercept + slope * i)) ^ 2`. -/
def meanSquaredResidual (values : List ℚ) : ℚ :=
  squaredError values (intercept values) (slope values) / (values.length : ℚ)

/-- The prediction before the floor at 0: `basePrediction` in the single-month branch of
`prediction`, `weightedPrediction` in the multi-month branch. -/
def unflooredPrediction (now : JSDate) (a : Analytics) : ℚ :=
  if (values a).length = 1 then (values a).headD 0 * seasonalMultiplier now.month
  else weightedPrediction now (values a)

/-- Scenario B of the specification evaluated on 2024-12-15: one expense dated today. -/
def decBill : List Expense := [⟨75, "Bills", dec15⟩]

/-- Food spending of 56 in April 2024 and 44 in May 2024: evaluated in May, the suggested
budget is 55 and the current spend is 44, exactly 80% of it. -/
def eightyPercent : List Expense := [⟨56, "Food", apr10⟩, ⟨44, "Food", may15⟩]

/-! ## `renderTabContent` -/

/-- The alternatives `renderTabContent` can return, one per `return` of the function; the
markup inside each is not modelled. -/
inductive View
  /-- The block headed `No Data Available`. -/
  | noDataAvailable
  | overview
  | analyticsTab
  | categories
  /-- The predictions tab with a forecast. -/
  | predictions
  /-- The predictions tab showing `Need More Data`. -/
  | needMoreData
  | insights
  /-- The budget tab with a report. -/
  | budget
  /-- The budget tab showing `Add some expenses to see budget analysis!`. -/
  | budgetEmpty
  | reports
deriving DecidableEq

/-- The control flow of `renderTabContent`; `none` is the `null` of the `default` case. -/
def renderTabContent (activeTab : String) (analytics : Option Analytics)
    (prediction : Option Prediction) (budgetAnalysis : Option BudgetAnalysis) : Option View :=
  match analytics with
  | none => some View.noDataAvailable
  | some _ =>
    if activeTab = "overview" then some View.overview
    else if activeTab = "analytics" then some View.analyticsTab
    else if activeTab = "categories" then some View.categories
    else if activeTab = "predictions" then
      (match prediction with
      | some _ => some View.predictions
      | none => some View.needMoreData)
    else if activeTab = "insights" then some View.insights
    else if activeTab = "budget" then
      (match budgetAnalysis with
      | some _ => some View.budget
      | none => some View.budgetEmpty)
    else if activeTab = "reports" then some View.reports
    else none

/-- A single record with amount 0, dated 2024-03-01. -/
def zeroOnly : List Expense := [⟨0, "Food", mar1⟩]

/-! ## `analytics` on amounts that need not parse

The part of `analytics` that adds up amounts, embedded once more with `parseFloat` allowed to
return `NaN`.  `topCategory` is left out: its comparator returns `NaN` on a `NaN` total and the
resulting order is left to the engine. -/

/-- A JS number that may be `NaN`; `none` is `NaN`. -/
abbrev JSNumber := Option ℚ

/-- The sum `x + y` of JS numbers: `NaN` as soon as one of them is `NaN`. -/
def jsAdd : JSNumber → JSNumber → JSNumber
  | some x, some y => some (x + y)
  | _, _ => none

/-- An expense record as `analytics` reads it when the amount need not be a number. -/
structure RawExpense where
  /-- The value of `parseFloat(exp.amount)`, `NaN` when the text does not parse. -/
  amount : JSNumber
  /-- The field `exp.category`. -/
  category : String
  /-- The value of `new Date(exp.date)`. -/
  date : JSDate
deriving DecidableEq

/-- A JS object with string keys whose values are numbers or `NaN`. -/
abbrev NumObj := List (String × JSNumber)

/-- Property read `acc[k]` on a `NumObj`; `none` is `undefined`. -/
def getNumProp : NumObj → String → Option JSNumber
  | [], _ => none
  | (k', v) :: rest, k => if k' = k then some v else getNumProp rest k

/-- Property write `acc[k] = v` on a `NumObj`. -/
def setNumProp : NumObj → String → JSNumber → NumObj
  | [], k, v => [(k, v)]
  | (k', v') :: rest, k, v =>
    if k' = k then (k, v) :: rest else (k', v') :: setNumProp rest k v

/-- The expression `x || 0` for `x` a number, `NaN` or `undefined`: `undefined`, `NaN` and 0
are falsy and give 0. -/
def orZeroNum : Option JSNumber → JSNumber
  | some (some v) => if v = 0 then some 0 else some v
  | _ => some 0

/-- The reducer body of the grouping folds, with `NaN`. -/
def groupStepNaN (key : RawExpense → String) (acc : NumObj) (exp : RawExpense) : NumObj :=
  setNumProp acc (key exp) (jsAdd (orZeroNum (getNumProp acc (key exp))) exp.amount)

/-- Total spent, with `NaN`. -/
def totalSpentNaN (expenses : List RawExpense) : JSNumber :=
  expenses.foldl (fun sum exp => jsAdd sum exp.amount) (some 0)

/-- Category breakdown, with `NaN`. -/
def categoryDataNaN (expenses : List RawExpense) : NumObj :=
  expenses.foldl (groupStepNaN RawExpense.category) []

/-- Monthly spending, with `NaN`. -/
def monthlyDataNaN (expenses : List RawExpense) : NumObj :=
  expenses.foldl (groupStepNaN (fun exp => monthKey exp.date)) []

/-- Recent total, with `NaN`. -/
def recentTotalNaN (now : JSDate) (expenses : List RawExpense) : JSNumber :=
  (expenses.filter (fun exp => decide (sevenDaysAgo now ≤ exp.date.time))).foldl
    (fun sum exp => jsAdd sum exp.amount) (some 0)

/-- The record returned by `analytics`, without `topCategory`, with `NaN`. -/
structure AnalyticsNaN where
  totalSpent : JSNumber
  categoryData : NumObj
  monthlyData : NumObj
  recentTotal : JSNumber
  avgTransaction : JSNumber
  transactionCount : Nat
deriving DecidableEq

/-- The memo `analytics` with `NaN`; `none` is `null`.  The function has no other outcome:
nothing in it throws or returns an error. -/
def analyticsNaN (now : JSDate) (expenses : List RawExpense) : Option AnalyticsNaN :=
  if expenses.length = 0 then none
  else
    some
      { totalSpent := totalSpentNaN expenses
        categoryData := categoryDataNaN expenses
        monthlyData := monthlyDataNaN expenses
        recentTotal := recentTotalNaN now expenses
        avgTransaction := (totalSpentNaN expenses).map (fun t => t / (expenses.length : ℚ))
        transactionCount := expenses.length }

/-- An expense whose amount parsed, as a `RawExpense`. -/
def Expense.toRaw (e : Expense) : RawExpense :=
  { amount := some e.amount, category := e.category, date := e.date }

/-- An object of numbers as a `NumObj`. -/
def liftObj (o : Obj) : NumObj := o.map (fun entry => (entry.1, some entry.2))

/-- Three Food records dated 2024-03-01 with amounts 10, an unparseable text, and 5. -/
def badAmount : List RawExpense :=
  [⟨some 10, "Food", mar1⟩, ⟨none, "Food", mar1⟩, ⟨some 5, "Food", mar1⟩]

/-! ## The grouping reducers on a JS object with its prototype -/

/-- The names of the members of `Object.prototype`.  Reading such a key from an object that
has no own property of that name yields the inherited member. -/
def prototypeNames : List String :=
  ["constructor", "toString", "toLocaleString", "valueOf", "hasOwnProperty", "isPrototypeOf",
    "propertyIsEnumerable", "__proto__", "__defineGetter__", "__defineSetter__",
    "__lookupGetter__", "__lookupSetter__"]

/-- What the grouping reducer finds in, or stores into, a property: a number, a member
inherited from `Object.prototype` (a function, or the prototype object for `__proto__`), or
the string that `+` builds when its left operand is not a number. -/
inductive JSValue where
  | number (q : ℚ)
  | inherited
  | text
deriving DecidableEq

/-- A JS object with own properties of any of these values, in the order of their creation. -/
abbrev JSObj := List (String × JSValue)

/-- The own property `k` of `o`, if there is one. -/
def getOwn : JSObj → String → Option JSValue
  | [], _ => none
  | (k', v) :: rest, k => if k' = k then some v else getOwn rest k

/-- The read `o[k]`: the own property, else the member inherited from `Object.prototype`, else
`undefined` (`none`). -/
def getJS (o : JSObj) (k : String) : Option JSValue :=
  match getOwn o k with
  | some v => some v
  | none => if k ∈ prototypeNames then some JSValue.inherited else none

/-- Creates or overwrites the own property `k` of `o`. -/
def setOwn : JSObj → String → JSValue → JSObj
  | [], k, v => [(k, v)]
  | (k', v') :: rest, k, v => if k' = k then (k, v) :: rest else (k', v') :: setOwn rest k v

/-- The write `o[k] = v` of a number or a string.  The key `__proto__` is an accessor of
`Object.prototype` whose setter ignores a value that is not an object: no own property is
created. -/
def setJS (o : JSObj) (k : String) (v : JSValue) : JSObj :=
  if k = "__proto__" then o else setOwn o k v

/-- The expression `x || 0`: `undefined` and the number `0` are falsy, an inherited member and
a string built by `+` (never empty) are truthy. -/
def orZeroJS : Option JSValue → JSValue
  | none => JSValue.number 0
  | some (JSValue.number v) => if v = 0 then JSValue.number 0 else JSValue.number v
  | some v => v

/-- The expression `x + amount` for a number `amount`: the sum of two numbers, and otherwise
the string that joins the text of `x` and the digits of `amount`. -/
def addJS : JSValue → ℚ → JSValue
  | JSValue.number v, amount => JSValue.number (v + amount)
  | _, _ => JSValue.text

/-- One step of a grouping reduce on a JS object:
`acc[k] = (acc[k] || 0) + parseFloat(exp.amount)`. -/
def groupStepJS (key : Expense → String) (acc : JSObj) (exp : Expense) : JSObj :=
  setJS acc (key exp) (addJS (orZeroJS (getJS acc (key exp))) exp.amount)

/-- The reduce into `acc[exp.category]`, on a JS object with its prototype. -/
def categoryDataJS (expenses : List Expense) : JSObj :=
  expenses.foldl (groupStepJS Expense.category) []

/-- The reduce into `acc[month]`, on a JS object with its prototype. -/
def monthlyDataJS (expenses : List Expense) : JSObj :=
  expenses.foldl (groupStepJS (fun exp => monthKey exp.date)) []

/-- An object of numbers as a JS object. -/
def numbersJS (o : Obj) : JSObj :=
  o.map (fun p => (p.1, JSValue.number p.2))

/-- A single record of 100 in a category named `constructor`. -/
def constructorOnly : List Expense := [⟨100, "constructor", jan5⟩]

/-- A single record of 100 in a category named `__proto__`. -/
def protoOnly : List Expense := [⟨100, "__proto__", jan5⟩]

/-- Three records: 5 for Food, then 7 for a category named `10`, then 7 for a category
named `2`. -/
def numberedCategories : List Expense := [⟨5, "Food", jan5⟩, ⟨7, "10", jan5⟩, ⟨7, "2", jan5⟩]

/-! ## Binary64 arithmetic -/

/-- A finite binary64 number (a JS number) with the value `mantissa * 2 ^ exponent`; the
mantissa is odd, or both fields are 0.  The sign of zero and the limits of the exponent
(overflow to `Infinity`, subnormal numbers) are not modelled. -/
structure F64 where
  mantissa : Int
  exponent : Int
deriving DecidableEq

namespace F64

/-- The number `0`. -/
def zero : F64 := ⟨0, 0⟩

/-- The exact value of a binary64 number. -/
def toRat (x : F64) : ℚ := x.mantissa * (2 : ℚ) ^ x.exponent

/-- Numerator of the value over the denominator `den`. -/
def num (x : F64) : Int :=
  if 0 ≤ x.exponent then x.mantissa * (2 ^ x.exponent.toNat : Nat) else x.mantissa

/-- A power of two over which the value is the integer `num`. -/
def den (x : F64) : Nat :=
  if 0 ≤ x.exponent then 1 else 2 ^ (-x.exponent).toNat

/-- Doubles `n` (lowering the exponent `e`) until `n / d` is at least `2 ^ 52`. -/
def scaleUp : Nat → Nat → Nat → Int → Nat × Int
  | 0, n, _, e => (n, e)
  | fuel + 1, n, d, e => if n < d * 2 ^ 52 then scaleUp fuel (2 * n) d (e - 1) else (n, e)

/-- Doubles `d` (raising the exponent `e`) until `n / d` is below `2 ^ 53`. -/
def scaleDown : Nat → Nat → Nat → Int → Nat × Int
  | 0, _, d, e => (d, e)
  | fuel + 1, n, d, e => if d * 2 ^ 53 ≤ n then scaleDown fuel n (2 * d) (e + 1) else (d, e)

/-- Removes the factors 2 of a mantissa, raising the exponent. -/
def stripTwos : Nat → Nat → Int → Nat × Int
  | 0, m, e => (m, e)
  | fuel + 1, m, e => if m % 2 = 0 ∧ m ≠ 0 then stripTwos fuel (m / 2) (e + 1) else (m, e)

/-- The binary64 number nearest to `n / d` for positive `n` and `d`, as a mantissa of at most
53 bits and an exponent; a tie goes to the even mantissa (round to nearest, ties to even). -/
def roundPos (n d : Nat) : Nat × Int :=
  let up := scaleUp (d + 53) n d 0
  let down := scaleDown n up.1 d up.2
  let q := up.1 / down.1
  let r := up.1 % down.1
  let q' := if 2 * r < down.1 then q else if down.1 < 2 * r then q + 1
    else if q % 2 = 0 then q else q + 1
  stripTwos 64 q' down.2

/-- The binary64 number nearest to the rational `n / d` (with `d` positive). -/
def round (n : Int) (d : Nat) : F64 :=
  if n = 0 ∨ d = 0 then zero
  else
    let r := roundPos n.natAbs d
    ⟨if n < 0 then -(r.1 : Int) else (r.1 : Int), r.2⟩

/-- The number that a decimal literal or `parseFloat` yields for the decimal `n / d`, such as
`ofDecimal 11 10` for `1.1`. -/
def ofDecimal (n : Int) (d : Nat) : F64 := round n d

/-- A natural number (an array length) as a JS number. -/
def ofNat (n : Nat) : F64 := round n 1

/-- The JS operator `+` on numbers. -/
def add (x y : F64) : F64 := round (x.num * y.den + y.num * x.den) (x.den * y.den)

/-- The JS operator `*` on numbers. -/
def mul (x y : F64) : F64 := round (x.num * y.num) (x.den * y.den)

/-- The JS operator `/` on numbers, for a divisor other than 0 (a quotient by 0 is `NaN` or
an infinity in JS, and is given as 0 here). -/
def div (x y : F64) : F64 :=
  round (if y.num < 0 then -(x.num * y.den) else x.num * y.den) (x.den * y.num.natAbs)

/-- The JS operator `>` on numbers. -/
def gt (x y : F64) : Bool := decide (y.num * x.den < x.num * y.den)

end F64
/-! ## The totals and the budget in binary64 arithmetic

The same reduces and the same budget report as above, with every `+`, `*` and `/` rounded to
binary64.  The category names of the inputs used below are ordinary names, so the order of
`Object.entries` is the order of creation. -/

/-- An expense record whose amount is the binary64 number that `parseFloat(exp.amount)`
yields. -/
structure ExpenseF64 where
  amount : F64
  category : String
  date : JSDate
deriving DecidableEq

/-- A JS object whose values are binary64 numbers, in the order in which the keys were
created. -/
abbrev ObjF64 := List (String × F64)

/-- The read `o[k]` of an own property. -/
def getPropF64 : ObjF64 → String → Option F64
  | [], _ => none
  | (k', v) :: rest, k => if k' = k then some v else getPropF64 rest k

/-- The write `o[k] = v`. -/
def setPropF64 : ObjF64 → String → F64 → ObjF64
  | [], k, v => [(k, v)]
  | (k', v') :: rest, k, v =>
    if k' = k then (k, v) :: rest else (k', v') :: setPropF64 rest k v

/-- The expression `x || 0` on a number or `undefined`. -/
def orZeroF64 : Option F64 → F64
  | none => F64.zero
  | some v => v

/-- Total spent, added up in binary64. -/
def totalSpentF64 (expenses : List ExpenseF64) : F64 :=
  expenses.foldl (fun sum exp => F64.add sum exp.amount) F64.zero

/-- One step of a grouping reduce in binary64. -/
def groupStepF64 (key : ExpenseF64 → String) (acc : ObjF64) (exp : ExpenseF64) : ObjF64 :=
  setPropF64 acc (key exp) (F64.add (orZeroF64 (getPropF64 acc (key exp))) exp.amount)

/-- Category breakdown in binary64. -/
def categoryDataF64 (expenses : List ExpenseF64) : ObjF64 :=
  expenses.foldl (groupStepF64 ExpenseF64.category) []

/-- Monthly spending in binary64. -/
def monthlyDataF64 (expenses : List ExpenseF64) : ObjF64 :=
  expenses.foldl (groupStepF64 (fun exp => monthKey exp.date)) []

/-- An element of `categoryBudgets`, in binary64. -/
structure CategoryBudgetF64 where
  category : String
  suggested : F64
  current : F64
  percentage : F64
  status : String
deriving DecidableEq

/-- The totals and the category entries of the record returned by `budgetAnalysis`, in
binary64. -/
structure BudgetAnalysisF64 where
  totalSuggested : F64
  totalCurrent : F64
  totalPercentage : F64
  categoryBudgets : List CategoryBudgetF64
deriving DecidableEq

/-- The per-category spend of the current month, added up in binary64. -/
def currentCategorySpendingF64 (currentMonth : String) (expenses : List ExpenseF64)
    (category : String) : F64 :=
  (expenses.filter
    (fun exp => decide (exp.category = category) && decide (monthKey exp.date = currentMonth))).foldl
    (fun sum exp => F64.add sum exp.amount) F64.zero

/-- The array `categoryBudgets` in binary64; `monthsLength` is `months.length`. -/
def categoryBudgetsF64 (now : JSDate) (monthsLength : F64) (expenses : List ExpenseF64) :
    List CategoryBudgetF64 :=
  (categoryDataF64 expenses).map (fun entry =>
    let avgCategorySpending := F64.div entry.2 monthsLength
    let suggestedCategoryBudget := F64.mul avgCategorySpending (F64.ofDecimal 11 10)
    let current := currentCategorySpendingF64 (monthKey now) expenses entry.1
    { category := entry.1
      suggested := suggestedCategoryBudget
      current := current
      percentage := F64.mul (F64.div current suggestedCategoryBudget) (F64.ofNat 100)
      status :=
        if F64.gt current suggestedCategoryBudget then "over"
        else if F64.gt current (F64.mul suggestedCategoryBudget (F64.ofDecimal 8 10)) then
          "warning"
        else "good" })

/-- The memo `budgetAnalysis` in binary64, on the aggregate of a non-empty list; `none` is
`null`. -/
def budgetAnalysisF64 (now : JSDate) (expenses : List ExpenseF64) : Option BudgetAnalysisF64 :=
  if expenses.length = 0 then none
  else
    let monthsLength := F64.ofNat ((monthlyDataF64 expenses).map Prod.fst).length
    let avgMonthly := F64.div (totalSpentF64 expenses) monthsLength
    let suggestedBudget := F64.mul avgMonthly (F64.ofDecimal 11 10)
    let currentMonthSpending := orZeroF64 (getPropF64 (monthlyDataF64 expenses) (monthKey now))
    some
      { totalSuggested := suggestedBudget
        totalCurrent := currentMonthSpending
        totalPercentage := F64.mul (F64.div currentMonthSpending suggestedBudget) (F64.ofNat 100)
        categoryBudgets := categoryBudgetsF64 now monthsLength expenses }

/-- The amounts of an exact expense list read as binary64 numbers: each amount `n / d` becomes
the binary64 number nearest to it. -/
def Expense.toF64 (exp : Expense) : ExpenseF64 :=
  ⟨F64.round exp.amount.num exp.amount.den, exp.category, exp.date⟩

/-- Scenario A of the specification with binary64 amounts. -/
def scenarioAF64 : List ExpenseF64 :=
  [⟨F64.ofNat 100, "Food", jan5⟩, ⟨F64.ofNat 50, "Food", feb10⟩,
    ⟨F64.ofNat 200, "Transportation", feb15⟩]

/-- Four records of March 2024: 14.87 and 10.81 for Food, 15.65 and 19.24 for Bills. -/
def marchCentsF64 : List ExpenseF64 :=
  [⟨F64.ofDecimal 1487 100, "Food", mar1⟩, ⟨F64.ofDecimal 1081 100, "Food", mar1⟩,
    ⟨F64.ofDecimal 1565 100, "Bills", mar1⟩, ⟨F64.ofDecimal 1924 100, "Bills", mar1⟩]

/-- Three records of 0.1, 0.2 and 0.3. -/
def tenthsF64 : List ExpenseF64 :=
  [⟨F64.ofDecimal 1 10, "Food", mar1⟩, ⟨F64.ofDecimal 2 10, "Food", mar1⟩,
    ⟨F64.ofDecimal 3 10, "Food", mar1⟩]

/-- The date 2024-06-15. -/
def jun15 : JSDate := ⟨1718409600000, 2024, 5, 15, 1717804800000⟩

/-- The date 2024-07-15. -/
def jul15 : JSDate := ⟨1721001600000, 2024, 6, 15, 1720396800000⟩

/-- The date 2024-09-15. -/
def sep15 : JSDate := ⟨1726358400000, 2024, 8, 15, 1725753600000⟩

/-- The date 2024-10-15. -/
def oct15 : JSDate := ⟨1728950400000, 2024, 9, 15, 1728345600000⟩

/-- An evaluation instant in November: 2024-11-15. -/
def nov15 : JSDate := ⟨1731628800000, 2024, 10, 15, 1731024000000⟩

/-- Eleven months of records, January to November 2024: 92.69 for Food in January, 1 for
Bills in each month from February to October, and 8.06 for Food in November. -/
def elevenMonthsF64 : List ExpenseF64 :=
  [⟨F64.ofDecimal 9269 100, "Food", jan5⟩, ⟨F64.ofNat 1, "Bills", feb10⟩,
    ⟨F64.ofNat 1, "Bills", mar1⟩, ⟨F64.ofNat 1, "Bills", apr10⟩, ⟨F64.ofNat 1, "Bills", may15⟩,
    ⟨F64.ofNat 1, "Bills", jun15⟩, ⟨F64.ofNat 1, "Bills", jul15⟩, ⟨F64.ofNat 1, "Bills", aug15⟩,
    ⟨F64.ofNat 1, "Bills", sep15⟩, ⟨F64.ofNat 1, "Bills", oct15⟩,
    ⟨F64.ofDecimal 806 100, "Food", nov15⟩]

/-! ## Lemmas on objects and folds -/

theorem foldl_add_eq_sum {α : Type} (f : α → ℚ) (l : List α) (init : ℚ) :
    l.foldl (fun sum x => sum + f x) init = init + (l.map f).sum := by
  induction l generalizing init with
  | nil => simp
  | cons a t ih => simp [ih, add_assoc]

theorem orZero_eq (o : Option ℚ) : orZero o = o.getD 0 := by
  cases o with
  | none => rfl
  | some v =>
    by_cases h : v = 0 <;> simp [orZero, h]

theorem getProp_setProp_self (o : Obj) (k : String) (v : ℚ) :
    getProp (setProp o k v) k = some v := by
  induction o with
  | nil => simp [setProp, getProp]
  | cons p t ih =>
    obtain ⟨k', v'⟩ := p
    by_cases h : k' = k <;> simp [setProp, getProp, h, ih]

theorem getProp_setProp_of_ne (o : Obj) {k k' : String} (v : ℚ) (h : k' ≠ k) :
    getProp (setProp o k v) k' = getProp o k' := by
  induction o with
  | nil => simp [setProp, getProp, Ne.symm h]
  | cons p t ih =>
    obtain ⟨k₀, v₀⟩ := p
    by_cases h₀ : k₀ = k
    · subst h₀
      simp [setProp, getProp, Ne.symm h]
    · by_cases h₁ : k₀ = k'
      · subst h₁
        simp [setProp, getProp, h₀]
      · simp [setProp, getProp, h₀, h₁, ih]

theorem keys_setProp (o : Obj) (k : String) (v : ℚ) :
    keys (setProp o k v) = if k ∈ keys o then keys o else keys o ++ [k] := by
  induction o with
  | nil => simp [setProp, keys]
  | cons p t ih =>
    obtain ⟨k₀, v₀⟩ := p
    by_cases h₀ : k₀ = k
    · subst h₀
      simp [setProp, keys]
    · have h₁ : ¬ k = k₀ := fun h => h₀ h.symm
      simp only [keys] at ih
      simp only [setProp, keys, h₀, if_false, List.map_cons, List.mem_cons, h₁, false_or, ih]
      split <;> simp

theorem sum_vals_setProp (o : Obj) (k : String) (v : ℚ) :
    (vals (setProp o k v)).sum = (vals o).sum - (getProp o k).getD 0 + v := by
  induction o with
  | nil => simp [setProp, getProp, vals]
  | cons p t ih =>
    obtain ⟨k₀, v₀⟩ := p
    by_cases h₀ : k₀ = k
    · subst h₀
      simp [setProp, getProp, vals]
      ring
    · simp only [vals] at ih
      simp [setProp, getProp, vals, h₀, ih]
      ring

theorem getProp_isSome_iff (o : Obj) (k : String) :
    (getProp o k).isSome ↔ k ∈ keys o := by
  induction o with
  | nil => simp [getProp, keys]
  | cons p t ih =>
    obtain ⟨k₀, v₀⟩ := p
    by_cases h₀ : k₀ = k
    · subst h₀
      simp [getProp, keys]
    · have h₁ : ¬ k = k₀ := fun h => h₀ h.symm
      simp only [keys] at ih
      simp [getProp, keys, h₀, h₁, ih]

theorem categoryData_eq_foldl (es : List Expense) :
    categoryData es = es.foldl (groupStep Expense.category) [] := rfl

theorem monthlyData_eq_foldl (es : List Expense) :
    monthlyData es = es.foldl (groupStep (fun e => monthKey e.date)) [] := rfl

theorem sum_vals_foldl_groupStep (key : Expense → String) (es : List Expense) (acc : Obj) :
    (vals (es.foldl (groupStep key) acc)).sum = (vals acc).sum + (es.map Expense.amount).sum := by
  induction es generalizing acc with
  | nil => simp
  | cons e t ih =>
    simp only [List.foldl_cons, ih, groupStep, sum_vals_setProp, orZero_eq, List.map_cons,
      List.sum_cons]
    ring

theorem mem_keys_foldl_groupStep (key : Expense → String) (es : List Expense) (acc : Obj)
    (k : String) :
    k ∈ keys (es.foldl (groupStep key) acc) ↔ k ∈ keys acc ∨ ∃ e ∈ es, key e = k := by
  induction es generalizing acc with
  | nil => simp
  | cons e t ih =>
    simp only [List.foldl_cons, ih, groupStep, keys_setProp, List.mem_cons, exists_eq_or_imp]
    by_cases h : key e ∈ keys acc
    · simp only [h, if_true]
      constructor
      · rintro (h' | h')
        · exact Or.inl h'
        · exact Or.inr (Or.inr h')
      · rintro (h' | h' | h')
        · exact Or.inl h'
        · exact Or.inl (h' ▸ h)
        · exact Or.inr h'
    · simp only [h, if_false, List.mem_append, List.mem_singleton]
      constructor
      · rintro ((h' | h') | h')
        · exact Or.inl h'
        · exact Or.inr (Or.inl h'.symm)
        · exact Or.inr (Or.inr h')
      · rintro (h' | h' | h')
        · exact Or.inl (Or.inl h')
        · exact Or.inl (Or.inr h'.symm)
        · exact Or.inr h'

theorem nodup_keys_setProp (o : Obj) (k : String) (v : ℚ) (h : (keys o).Nodup) :
    (keys (setProp o k v)).Nodup := by
  rw [keys_setProp]
  split
  · exact h
  · rename_i hk
    exact List.Nodup.append h (List.nodup_singleton k) (by simpa using hk)

theorem nodup_keys_foldl_groupStep (key : Expense → String) (es : List Expense) (acc : Obj)
    (h : (keys acc).Nodup) : (keys (es.foldl (groupStep key) acc)).Nodup := by
  induction es generalizing acc with
  | nil => simpa using h
  | cons e t ih =>
    simp only [List.foldl_cons]
    exact ih _ (nodup_keys_setProp _ _ _ h)

theorem getProp_foldl_groupStep (key : Expense → String) (es : List Expense) (acc : Obj)
    (k : String) :
    (getProp (es.foldl (groupStep key) acc) k).getD 0 =
      (getProp acc k).getD 0 +
        ((es.filter (fun e => decide (key e = k))).map Expense.amount).sum := by
  induction es generalizing acc with
  | nil => simp
  | cons e t ih =>
    simp only [List.foldl_cons, ih, groupStep]
    by_cases h : key e = k
    · subst h
      simp [getProp_setProp_self, orZero_eq, add_assoc]
    · have h' : k ≠ key e := fun h₁ => h h₁.symm
      simp [getProp_setProp_of_ne _ _ h', h]

/-- The value stored under a key of a grouping fold is the sum of the amounts of the records
with that key. -/
theorem getProp_group_eq_some (key : Expense → String) (es : List Expense) (k : String)
    (hk : k ∈ keys (es.foldl (groupStep key) [])) :
    getProp (es.foldl (groupStep key) []) k =
      some ((es.filter (fun e => decide (key e = k))).map Expense.amount).sum := by
  have h₁ := getProp_foldl_groupStep key es [] k
  have h₂ := (getProp_isSome_iff (es.foldl (groupStep key) []) k).mpr hk
  obtain ⟨v, hv⟩ := Option.isSome_iff_exists.mp h₂
  rw [hv] at h₁ ⊢
  simpa [getProp] using h₁

theorem totalSpent_eq_sum (es : List Expense) : totalSpent es = (es.map Expense.amount).sum := by
  simp [totalSpent, foldl_add_eq_sum]

theorem analytics_of_ne_nil (now : JSDate) (es : List Expense) (hne : es ≠ []) :
    analytics now es = some
      { totalSpent := totalSpent es
        categoryData := categoryData es
        monthlyData := monthlyData es
        recentTotal := recentTotal now es
        avgTransaction := totalSpent es / es.length
        topCategory := topCategory (categoryData es)
        transactionCount := es.length } := by
  have h : es.length ≠ 0 := fun h => hne (List.length_eq_zero.mp h)
  simp [analytics, h]

theorem monthKey_jan5 : monthKey jan5 = "Jan 2024" := by decide

theorem monthKey_feb10 : monthKey feb10 = "Feb 2024" := by decide

theorem monthKey_feb15 : monthKey feb15 = "Feb 2024" := by decide

theorem categoryData_scenarioA :
    categoryData scenarioA = [("Food", 150), ("Transportation", 200)] := by
  simp [categoryData, scenarioA, setProp, getProp, orZero]
  norm_num

theorem monthlyData_scenarioA :
    monthlyData scenarioA = [("Jan 2024", 100), ("Feb 2024", 250)] := by
  simp [monthlyData, scenarioA, setProp, getProp, orZero, monthKey_jan5, monthKey_feb10,
    monthKey_feb15]
  norm_num

theorem totalSpent_scenarioA : totalSpent scenarioA = 350 := by
  simp [totalSpent, scenarioA]
  norm_num

/-! ## Month labels determine the calendar month -/

theorem digitChar_toNat (k : Nat) (hk : k < 10) : (Nat.digitChar k).toNat - 48 = k := by
  interval_cases k <;> rfl

theorem decodeDigits_toDigitsCore (fuel n : Nat) (ds : List Char) (h : n < fuel) :
    decodeDigits 0 (Nat.toDigitsCore 10 fuel n ds) = decodeDigits n ds := by
  induction fuel generalizing n ds with
  | zero => omega
  | succ fuel ih =>
    unfold Nat.toDigitsCore
    simp only
    split
    · rename_i h0
      have hn : n < 10 := by
        by_contra hc
        have : 1 ≤ n / 10 := Nat.div_pos (by omega) (by norm_num)
        omega
      simp [decodeDigits, Nat.mod_eq_of_lt hn, digitChar_toNat n hn]
    · rename_i h0
      have hlt : n / 10 < fuel := by
        have : n / 10 < n := Nat.div_lt_self (by
          by_contra hc
          have : n = 0 := by omega
          subst this
          simp at h0) (by norm_num)
        omega
      rw [ih _ _ hlt]
      simp only [decodeDigits, List.foldl_cons, digitChar_toNat _ (Nat.mod_lt n (by norm_num))]
      congr 1
      omega

theorem toString_nat_injective (a b : Nat) (h : toString a = toString b) : a = b := by
  have h' : Nat.toDigits 10 a = Nat.toDigits 10 b := by
    have : (Nat.repr a) = (Nat.repr b) := h
    simp only [Nat.repr, List.asString] at this
    exact congrArg String.data this
  have ha := decodeDigits_toDigitsCore (a + 1) a [] (by omega)
  have hb := decodeDigits_toDigitsCore (b + 1) b [] (by omega)
  simp only [Nat.toDigits] at h'
  rw [h'] at ha
  rw [ha] at hb
  simpa [decodeDigits] using hb

theorem monthShort_injective (m m' : Fin 12) (h : monthShort m = monthShort m') : m = m' := by
  revert m m'
  decide

theorem monthShort_length (m : Fin 12) : (monthShort m).data.length = 3 := by
  fin_cases m <;> rfl

theorem monthKey_eq_iff (d d' : JSDate) :
    monthKey d = monthKey d' ↔ d.year = d'.year ∧ d.month = d'.month := by
  constructor
  · intro h
    have h' : (monthKey d).data = (monthKey d').data := by rw [h]
    simp only [monthKey, String.data_append] at h'
    have hlen : (monthShort d.month).data.length = (monthShort d'.month).data.length := by
      rw [monthShort_length, monthShort_length]
    have h₁ := List.append_inj h' (by simp [hlen])
    have h₂ := List.append_inj h₁.1 hlen
    refine ⟨toString_nat_injective _ _ (String.ext h₁.2), ?_⟩
    exact monthShort_injective _ _ (String.ext h₂.1)
  · rintro ⟨h₁, h₂⟩
    simp [monthKey, h₁, h₂]

/-! ## The aggregate -/

/-- C1: for every non-empty expense list the aggregate exists, and the sum of the values of
`categoryData`, the sum of the values of `monthlyData` and `totalSpent` are one and the same
number. -/
theorem analytics_sums_agree (now : JSDate) (es : List Expense) (hne : es ≠ []) :
    ∃ a, analytics now es = some a ∧
      (vals a.categoryData).sum = (vals a.monthlyData).sum ∧
      (vals a.categoryData).sum = a.totalSpent ∧
      (vals a.monthlyData).sum = a.totalSpent := by
  refine ⟨_, analytics_of_ne_nil now es hne, ?_, ?_, ?_⟩ <;>
    simp only [categoryData_eq_foldl, monthlyData_eq_foldl, sum_vals_foldl_groupStep,
      totalSpent_eq_sum] <;>
    simp [vals]

/-- Scenario A instance of C1: the three sums are all 350. -/
theorem analytics_sums_agree_witness :
    scenarioA ≠ [] ∧
      (∃ a, analytics mar1 scenarioA = some a ∧
        (vals a.categoryData).sum = (vals a.monthlyData).sum ∧
        (vals a.categoryData).sum = a.totalSpent ∧
        (vals a.monthlyData).sum = a.totalSpent) ∧
      totalSpent scenarioA = 350 :=
  ⟨List.cons_ne_nil _ _, analytics_sums_agree mar1 scenarioA (List.cons_ne_nil _ _),
    totalSpent_scenarioA⟩

/-- C6: on the empty expense list the aggregate, the forecast and the budget report are all
`null`; no record, zero-filled or otherwise, is produced. -/
theorem empty_list_all_absent (now : JSDate) (sqrt : ℚ → ℚ) :
    analytics now [] = none ∧
      prediction now sqrt (analytics now []) = none ∧
      budgetAnalysis now (analytics now []) [] = none := by
  simp [analytics, prediction, budgetAnalysis]

/-! ## The JS object and the association list -/

theorem getOwn_numbersJS (o : Obj) (k : String) :
    getOwn (numbersJS o) k = (getProp o k).map JSValue.number := by
  induction o with
  | nil => rfl
  | cons p t ih =>
    obtain ⟨k', v⟩ := p
    simp only [numbersJS] at ih
    by_cases h : k' = k <;> simp [numbersJS, getOwn, getProp, h, ih]

theorem setOwn_numbersJS (o : Obj) (k : String) (v : ℚ) :
    setOwn (numbersJS o) k (JSValue.number v) = numbersJS (setProp o k v) := by
  induction o with
  | nil => rfl
  | cons p t ih =>
    obtain ⟨k', v'⟩ := p
    simp only [numbersJS] at ih
    by_cases h : k' = k <;> simp [numbersJS, setOwn, setProp, h, ih]

theorem getJS_numbersJS (o : Obj) (k : String) (hk : k ∉ prototypeNames) :
    getJS (numbersJS o) k = (getProp o k).map JSValue.number := by
  rw [getJS, getOwn_numbersJS]
  cases getProp o k with
  | none => simp [hk]
  | some v => rfl

theorem orZeroJS_map_number (o : Option ℚ) :
    orZeroJS (o.map JSValue.number) = JSValue.number (orZero o) := by
  cases o with
  | none => rfl
  | some v => by_cases h : v = 0 <;> simp [orZeroJS, orZero, h]

theorem proto_mem_prototypeNames : "__proto__" ∈ prototypeNames := by decide

/-- While no key is a name of `Object.prototype`, the reduce on the JS object builds the
numbers of the reduce on the association list. -/
theorem foldl_groupStepJS (key : Expense → String) (es : List Expense)
    (hkey : ∀ e ∈ es, key e ∉ prototypeNames) (acc : Obj) :
    es.foldl (groupStepJS key) (numbersJS acc) = numbersJS (es.foldl (groupStep key) acc) := by
  induction es generalizing acc with
  | nil => rfl
  | cons e t ih =>
    simp only [List.foldl_cons]
    have he : key e ∉ prototypeNames := hkey e (List.mem_cons_self _ _)
    have hne : key e ≠ "__proto__" := fun h => he (h ▸ proto_mem_prototypeNames)
    have hstep : groupStepJS key (numbersJS acc) e = numbersJS (groupStep key acc e) := by
      simp only [groupStepJS, groupStep, getJS_numbersJS _ _ he, orZeroJS_map_number, addJS,
        setJS, hne, if_false]
      exact setOwn_numbersJS _ _ _
    rw [hstep]
    exact ih (fun x hx => hkey x (List.mem_cons_of_mem _ hx)) _

theorem categoryDataJS_eq (es : List Expense) (h : ∀ e ∈ es, e.category ∉ prototypeNames) :
    categoryDataJS es = numbersJS (categoryData es) := by
  rw [categoryData_eq_foldl]
  exact foldl_groupStepJS Expense.category es h []

theorem space_mem_monthKey (d : JSDate) : ' ' ∈ (monthKey d).data := by
  simp [monthKey, String.data_append]

theorem monthKey_not_mem_prototypeNames (d : JSDate) : monthKey d ∉ prototypeNames := by
  intro h
  have hs := space_mem_monthKey d
  have hall : ∀ n ∈ prototypeNames, ' ' ∉ n.data := by decide
  exact hall _ h hs

theorem monthlyDataJS_eq (es : List Expense) :
    monthlyDataJS es = numbersJS (monthlyData es) := by
  rw [monthlyData_eq_foldl]
  exact foldl_groupStepJS (fun e => monthKey e.date) es
    (fun e _ => monthKey_not_mem_prototypeNames e.date) []

theorem entries_eq_self (o : Obj) (h : ∀ p ∈ o, isArrayIndex p.1 = false) : entries o = o := by
  have h1 : o.filter (fun p => isArrayIndex p.1) = [] := by
    rw [List.filter_eq_nil_iff]
    intro p hp
    simp [h p hp]
  have h2 : o.filter (fun p => !isArrayIndex p.1) = o := by
    rw [List.filter_eq_self]
    intro p hp
    simp [h p hp]
  rw [entries, h1, h2]
  rfl

theorem isArrayIndex_Food : isArrayIndex "Food" = false := by decide

theorem isArrayIndex_Transportation : isArrayIndex "Transportation" = false := by decide

theorem isArrayIndex_ten : isArrayIndex "10" = true := by decide

theorem isArrayIndex_two : isArrayIndex "2" = true := by decide

theorem prototypeNames_scenarioA : ∀ e ∈ scenarioA, e.category ∉ prototypeNames := by
  decide

theorem isArrayIndex_scenarioA : ∀ e ∈ scenarioA, isArrayIndex e.category = false := by
  decide

/-! ## Grouped totals -/

/-- C7 (amended): for every non-empty expense list in which no category string is the name of
a member of `Object.prototype` (`constructor`, `toString`, `__proto__` and the like), the
objects that the two reducers build hold the numbers of `categoryData` and `monthlyData`; the
keys of `categoryData` are pairwise distinct and are exactly the category strings occurring in
the list, each key holds the sum of the amounts of the records with that very category string;
likewise the keys of `monthlyData` are pairwise distinct and are exactly the month labels of
the records, and the label of a record's month holds the sum of the amounts of the records
dated in the same calendar month (same year, same month). -/
theorem grouped_totals_exact (now : JSDate) (es : List Expense) (hne : es ≠ [])
    (hnames : ∀ e ∈ es, e.category ∉ prototypeNames) :
    ∃ a, analytics now es = some a ∧
      categoryDataJS es = numbersJS a.categoryData ∧
      monthlyDataJS es = numbersJS a.monthlyData ∧
      (keys a.categoryData).Nodup ∧
      (∀ c, c ∈ keys a.categoryData ↔ ∃ e ∈ es, e.category = c) ∧
      (∀ c ∈ keys a.categoryData,
        getProp a.categoryData c =
          some ((es.filter (fun e => decide (e.category = c))).map Expense.amount).sum) ∧
      (keys a.monthlyData).Nodup ∧
      (∀ m, m ∈ keys a.monthlyData ↔ ∃ e ∈ es, monthKey e.date = m) ∧
      (∀ e ∈ es,
        getProp a.monthlyData (monthKey e.date) =
          some ((es.filter (fun x =>
            decide (x.date.year = e.date.year ∧ x.date.month = e.date.month))).map
              Expense.amount).sum) := by
  refine ⟨_, analytics_of_ne_nil now es hne, categoryDataJS_eq es hnames, monthlyDataJS_eq es,
    ?_, ?_, ?_, ?_, ?_, ?_⟩
  · exact nodup_keys_foldl_groupStep _ es [] (by simp [keys])
  · intro c
    simpa [keys] using mem_keys_foldl_groupStep Expense.category es [] c
  · intro c hc
    exact getProp_group_eq_some Expense.category es c hc
  · exact nodup_keys_foldl_groupStep _ es [] (by simp [keys])
  · intro m
    simpa [keys] using mem_keys_foldl_groupStep (fun e => monthKey e.date) es [] m
  · intro e he
    have hmem : monthKey e.date ∈ keys (es.foldl (groupStep (fun e => monthKey e.date)) []) :=
      (mem_keys_foldl_groupStep _ es [] _).mpr (Or.inr ⟨e, he, rfl⟩)
    have h := getProp_group_eq_some (fun e => monthKey e.date) es _ hmem
    have hfilter : es.filter (fun x => decide (monthKey x.date = monthKey e.date)) =
        es.filter (fun x =>
          decide (x.date.year = e.date.year ∧ x.date.month = e.date.month)) :=
      List.filter_congr (fun x _ => decide_eq_decide.mpr (monthKey_eq_iff x.date e.date))
    rw [← hfilter]
    exact h

/-- Scenario A instance of C7 (amended): total 350, categories Food 150 and Transportation 200,
months Jan 2024 100 and Feb 2024 250. -/
theorem grouped_totals_exact_witness :
    scenarioA ≠ [] ∧ (∀ e ∈ scenarioA, e.category ∉ prototypeNames) ∧
      (∃ a, analytics mar1 scenarioA = some a ∧
        categoryDataJS scenarioA = numbersJS a.categoryData ∧
        monthlyDataJS scenarioA = numbersJS a.monthlyData ∧
        (keys a.categoryData).Nodup ∧
        (∀ c, c ∈ keys a.categoryData ↔ ∃ e ∈ scenarioA, e.category = c) ∧
        (∀ c ∈ keys a.categoryData,
          getProp a.categoryData c =
            some ((scenarioA.filter (fun e => decide (e.category = c))).map
              Expense.amount).sum) ∧
        (keys a.monthlyData).Nodup ∧
        (∀ m, m ∈ keys a.monthlyData ↔ ∃ e ∈ scenarioA, monthKey e.date = m) ∧
        (∀ e ∈ scenarioA,
          getProp a.monthlyData (monthKey e.date) =
            some ((scenarioA.filter (fun x =>
              decide (x.date.year = e.date.year ∧ x.date.month = e.date.month))).map
                Expense.amount).sum)) ∧
      totalSpent scenarioA = 350 ∧
      categoryData scenarioA = [("Food", 150), ("Transportation", 200)] ∧
      monthlyData scenarioA = [("Jan 2024", 100), ("Feb 2024", 250)] :=
  ⟨List.cons_ne_nil _ _, prototypeNames_scenarioA,
    grouped_totals_exact mar1 scenarioA (List.cons_ne_nil _ _) prototypeNames_scenarioA,
    totalSpent_scenarioA, categoryData_scenarioA, monthlyData_scenarioA⟩

/-- C7 fails as stated: for a single record of 100 whose category string is `constructor`, the
read `acc[exp.category]` finds the function inherited from `Object.prototype`, `|| 0` keeps it
and `+` joins it with the amount into a string, so the key `constructor` holds a string and not
the sum 100; for a single record whose category string is `__proto__` the write is ignored and
the object has no key at all. -/
theorem grouped_totals_constructor :
    categoryDataJS constructorOnly = [("constructor", JSValue.text)] ∧
      ((constructorOnly.filter (fun e => decide (e.category = "constructor"))).map
        Expense.amount).sum = 100 ∧
      getOwn (categoryDataJS constructorOnly) "constructor" ≠ some (JSValue.number 100) ∧
      categoryDataJS protoOnly = [] ∧
      "__proto__" ∉ (categoryDataJS protoOnly).map Prod.fst := by
  have h1 : categoryDataJS constructorOnly = [("constructor", JSValue.text)] := by
    simp [categoryDataJS, constructorOnly, groupStepJS, getJS, getOwn, prototypeNames, orZeroJS,
      addJS, setJS, setOwn]
  have h2 : categoryDataJS protoOnly = [] := by
    simp [categoryDataJS, protoOnly, groupStepJS, setJS]
  refine ⟨h1, by simp [constructorOnly], ?_, h2, ?_⟩
  · rw [h1]
    simp [getOwn]
  · rw [h2]
    simp

/-- C9: for every non-empty expense list `transactionCount` is the length of the list and
`avgTransaction` is `totalSpent / transactionCount`, so that
`avgTransaction * transactionCount = totalSpent`. -/
theorem count_and_average (now : JSDate) (es : List Expense) (hne : es ≠ []) :
    ∃ a, analytics now es = some a ∧
      a.transactionCount = es.length ∧
      a.avgTransaction = a.totalSpent / (a.transactionCount : ℚ) ∧
      a.avgTransaction * (a.transactionCount : ℚ) = a.totalSpent := by
  refine ⟨_, analytics_of_ne_nil now es hne, rfl, rfl, ?_⟩
  have h : (es.length : ℚ) ≠ 0 := by
    simpa using fun h => hne (List.length_eq_zero.mp h)
  simp [div_mul_cancel₀ _ h]

/-- Scenario A instance of C9: three transactions. -/
theorem count_and_average_witness :
    scenarioA ≠ [] ∧
      ∃ a, analytics mar1 scenarioA = some a ∧
        a.transactionCount = scenarioA.length ∧
        a.avgTransaction = a.totalSpent / (a.transactionCount : ℚ) ∧
        a.avgTransaction * (a.transactionCount : ℚ) = a.totalSpent :=
  ⟨List.cons_ne_nil _ _, count_and_average mar1 scenarioA (List.cons_ne_nil _ _)⟩

/-! ## Order of keys and the top category -/

/-- Keys of a grouping fold appear in the order in which they first occur in the list. -/
theorem pairwise_indexOf_keys_group (key : Expense → String) (es : List Expense) :
    (keys (es.foldl (groupStep key) [])).Pairwise
      (fun a b => (es.map key).indexOf a < (es.map key).indexOf b) := by
  induction es using List.reverseRecOn with
  | nil => simp [keys]
  | append_singleton es e ih =>
    have hmem : ∀ k, k ∈ keys (es.foldl (groupStep key) []) ↔ k ∈ es.map key := by
      intro k
      simpa [keys] using mem_keys_foldl_groupStep key es [] k
    have hold : (keys (es.foldl (groupStep key) [])).Pairwise
        (fun a b =>
          (List.map key (es ++ [e])).indexOf a < (List.map key (es ++ [e])).indexOf b) := by
      refine ih.imp_of_mem ?_
      intro a b ha hb hab
      rw [List.map_append, List.indexOf_append_of_mem ((hmem a).mp ha),
        List.indexOf_append_of_mem ((hmem b).mp hb)]
      exact hab
    simp only [List.foldl_append, List.foldl_cons, List.foldl_nil]
    rw [groupStep, keys_setProp]
    split
    · exact hold
    · rename_i hk
      rw [List.pairwise_append]
      refine ⟨hold, List.pairwise_singleton _ _, ?_⟩
      intro a ha b hb
      rw [List.mem_singleton] at hb
      subst hb
      have hk' : key e ∉ es.map key := fun h => hk ((hmem _).mpr h)
      rw [List.map_append, List.indexOf_append_of_mem ((hmem a).mp ha),
        List.indexOf_append_of_not_mem hk']
      have := List.indexOf_lt_length.mpr ((hmem a).mp ha)
      simp at this ⊢
      omega

/-- The first entry of a stable descending sort is the first entry with the largest value. -/
theorem head_sortBy_desc (l : Obj) (hne : l ≠ []) :
    ∃ pre x post, l = pre ++ x :: post ∧
      (sortBy (fun a b => b.2 - a.2) l).head? = some x ∧
      (∀ y ∈ pre, y.2 < x.2) ∧ (∀ y ∈ post, y.2 ≤ x.2) := by
  induction l with
  | nil => exact absurd rfl hne
  | cons a t ih =>
    by_cases ht : t = []
    · subst ht
      exact ⟨[], a, [], rfl, by simp [sortBy], by simp, by simp⟩
    · obtain ⟨pre, x, post, hl, hhead, hpre, hpost⟩ := ih ht
      have hle : ∀ y ∈ t, y.2 ≤ x.2 := by
        intro y hy
        rw [hl] at hy
        rcases List.mem_append.mp hy with h | h
        · exact le_of_lt (hpre y h)
        · rcases List.mem_cons.mp h with h | h
          · rw [h]
          · exact hpost y h
      simp only [sortBy] at hhead ⊢
      simp only [List.insertionSort]
      cases hs : List.insertionSort (fun a b : String × ℚ => b.2 - a.2 ≤ 0) t with
      | nil => rw [hs] at hhead; simp at hhead
      | cons s rest =>
        rw [hs] at hhead
        simp only [List.head?_cons, Option.some.injEq] at hhead
        subst hhead
        by_cases hr : s.2 - a.2 ≤ 0
        · refine ⟨[], a, t, rfl, by simp [List.orderedInsert, hr], by simp, ?_⟩
          intro y hy
          have := hle y hy
          linarith
        · refine ⟨a :: pre, s, post, by simp [hl], by simp [List.orderedInsert, hr], ?_, hpost⟩
          intro y hy
          rcases List.mem_cons.mp hy with h | h
          · rw [h]; linarith
          · exact hpre y h

theorem keys_group_ne_nil (key : Expense → String) (es : List Expense) (hne : es ≠ []) :
    keys (es.foldl (groupStep key) []) ≠ [] := by
  obtain ⟨e, he⟩ := List.exists_mem_of_ne_nil es hne
  have h := (mem_keys_foldl_groupStep key es [] (key e)).mpr (Or.inr ⟨e, he, rfl⟩)
  exact List.ne_nil_of_mem h

theorem entries_categoryData (es : List Expense)
    (hindex : ∀ e ∈ es, isArrayIndex e.category = false) :
    entries (categoryData es) = categoryData es := by
  apply entries_eq_self
  intro p hp
  have hk : p.1 ∈ keys (categoryData es) := List.mem_map_of_mem Prod.fst hp
  rw [categoryData_eq_foldl, mem_keys_foldl_groupStep] at hk
  rcases hk with hk | ⟨e, he, hk⟩
  · simp [keys] at hk
  · rw [← hk]
    exact hindex e he

theorem topCategory_scenarioA :
    topCategory (categoryData scenarioA) = some ("Transportation", 200) := by
  rw [topCategory, entries_categoryData scenarioA isArrayIndex_scenarioA,
    categoryData_scenarioA]
  simp [sortBy, List.insertionSort, List.orderedInsert]
  norm_num

theorem categoryData_numberedCategories :
    categoryData numberedCategories = [("Food", 5), ("10", 7), ("2", 7)] := by
  simp [categoryData, numberedCategories, setProp, getProp, orZero]

theorem entries_numberedCategories :
    entries [("Food", 5), ("10", 7), ("2", 7)] = [("2", 7), ("10", 7), ("Food", 5)] := by
  have h : ¬ decodeDigits 0 ['1', '0'] ≤ decodeDigits 0 ['2'] := by decide
  simp [entries, List.filter, isArrayIndex_Food, isArrayIndex_ten, isArrayIndex_two,
    List.insertionSort, List.orderedInsert, h]

theorem topCategory_numberedCategories :
    topCategory (categoryData numberedCategories) = some ("2", 7) := by
  rw [categoryData_numberedCategories, topCategory, entries_numberedCategories]
  simp [sortBy, List.insertionSort, List.orderedInsert]

/-- C8 (amended): for every non-empty expense list in which no category string is an array
index (a numeral such as `2` or `10`, which `Object.entries` lists first) or the name of a
member of `Object.prototype`, the object that the reducer builds holds the numbers of
`categoryData`, `topCategory` is an entry `(c, t)` of `categoryData`, no category has a larger
total than `t`, and every other category with the same total `t` was first encountered in the
expense list later than `c`. -/
theorem topCategory_first_maximum (now : JSDate) (es : List Expense) (hne : es ≠ [])
    (hindex : ∀ e ∈ es, isArrayIndex e.category = false)
    (hnames : ∀ e ∈ es, e.category ∉ prototypeNames) :
    ∃ a c t, analytics now es = some a ∧
      categoryDataJS es = numbersJS a.categoryData ∧
      a.topCategory = some (c, t) ∧
      (c, t) ∈ a.categoryData ∧
      (∀ c' t', (c', t') ∈ a.categoryData → t' ≤ t) ∧
      (∀ c', c' ≠ c → (c', t) ∈ a.categoryData →
        (es.map Expense.category).indexOf c < (es.map Expense.category).indexOf c') := by
  have hnil : categoryData es ≠ [] := by
    intro h
    have := keys_group_ne_nil Expense.category es hne
    rw [← categoryData_eq_foldl, h] at this
    exact this rfl
  obtain ⟨pre, ⟨c, t⟩, post, hl, hhead, hpre, hpost⟩ := head_sortBy_desc (categoryData es) hnil
  have htop : topCategory (categoryData es) = some (c, t) := by
    rw [topCategory, entries_categoryData es hindex]
    exact hhead
  have hpw := pairwise_indexOf_keys_group Expense.category es
  rw [← categoryData_eq_foldl, hl] at hpw
  simp only [keys, List.map_append, List.map_cons, List.pairwise_append, List.pairwise_cons,
    List.mem_map, List.mem_cons] at hpw
  refine ⟨_, c, t, analytics_of_ne_nil now es hne, categoryDataJS_eq es hnames, htop,
    ?_, ?_, ?_⟩
  · show (c, t) ∈ categoryData es
    rw [hl]
    simp
  · intro c' t' hmem
    have hmem' : (c', t') ∈ categoryData es := hmem
    rw [hl] at hmem'
    rcases List.mem_append.mp hmem' with h | h
    · exact le_of_lt (hpre _ h)
    · rcases List.mem_cons.mp h with h | h
      · rw [Prod.mk.injEq] at h
        rw [h.2]
      · exact hpost _ h
  · intro c' hc' hmem
    have hmem' : (c', t) ∈ categoryData es := hmem
    rw [hl] at hmem'
    rcases List.mem_append.mp hmem' with h | h
    · exact absurd (hpre _ h) (lt_irrefl _)
    · rcases List.mem_cons.mp h with h | h
      · rw [Prod.mk.injEq] at h
        exact absurd h.1 hc'
      · exact hpw.2.1.1 c' ⟨(c', t), h, rfl⟩

/-- Scenario A instance of C8 (amended): the top category is Transportation with 200. -/
theorem topCategory_first_maximum_witness :
    scenarioA ≠ [] ∧ (∀ e ∈ scenarioA, isArrayIndex e.category = false) ∧
      (∀ e ∈ scenarioA, e.category ∉ prototypeNames) ∧
      (∃ a c t, analytics mar1 scenarioA = some a ∧
        categoryDataJS scenarioA = numbersJS a.categoryData ∧
        a.topCategory = some (c, t) ∧
        (c, t) ∈ a.categoryData ∧
        (∀ c' t', (c', t') ∈ a.categoryData → t' ≤ t) ∧
        (∀ c', c' ≠ c → (c', t) ∈ a.categoryData →
          (scenarioA.map Expense.category).indexOf c <
            (scenarioA.map Expense.category).indexOf c')) ∧
      topCategory (categoryData scenarioA) = some ("Transportation", 200) :=
  ⟨List.cons_ne_nil _ _, isArrayIndex_scenarioA, prototypeNames_scenarioA,
    topCategory_first_maximum mar1 scenarioA (List.cons_ne_nil _ _) isArrayIndex_scenarioA
      prototypeNames_scenarioA,
    topCategory_scenarioA⟩

/-- C8 fails as stated: with 5 for Food, then 7 for a category named `10`, then 7 for a
category named `2`, the categories `10` and `2` share the largest total and `10` was
encountered first, but `Object.entries` lists the array-index keys in ascending numeric order,
`2` before `10`, and `topCategory` is `2`.  And for a single record of 100 in a category named
`constructor` the only entry of the object holds a string and no total. -/
theorem topCategory_numbered_names :
    (∃ a, analytics jan5 numberedCategories = some a ∧
      a.topCategory = some ("2", 7) ∧
      ("10", 7) ∈ a.categoryData ∧
      (numberedCategories.map Expense.category).indexOf "10" <
        (numberedCategories.map Expense.category).indexOf "2") ∧
      categoryDataJS [⟨100, "constructor", jan5⟩] = [("constructor", JSValue.text)] := by
  refine ⟨⟨_, analytics_of_ne_nil jan5 numberedCategories (List.cons_ne_nil _ _),
    topCategory_numberedCategories, ?_, ?_⟩, ?_⟩
  · show ("10", (7 : ℚ)) ∈ categoryData numberedCategories
    rw [categoryData_numberedCategories]
    simp
  · decide
  · simp [categoryDataJS, groupStepJS, getJS, getOwn, prototypeNames, orZeroJS, addJS, setJS,
      setOwn]

/-! ## The forecast with a single month of data -/

theorem foldl_groupStep_single_key (key : Expense → String) (k : String) (es : List Expense)
    (v : ℚ) (hk : ∀ e ∈ es, key e = k) :
    es.foldl (groupStep key) [(k, v)] = [(k, v + (es.map Expense.amount).sum)] := by
  induction es generalizing v with
  | nil => simp
  | cons e t ih =>
    have he : key e = k := hk e (List.mem_cons_self _ _)
    have ht : ∀ x ∈ t, key x = k := fun x hx => hk x (List.mem_cons_of_mem _ hx)
    have hstep : groupStep key [(k, v)] e = [(k, v + e.amount)] := by
      simp [groupStep, he, setProp, getProp, orZero_eq]
    simp only [List.foldl_cons, hstep, ih _ ht, List.map_cons, List.sum_cons, add_assoc]

theorem group_single_key (key : Expense → String) (k : String) (es : List Expense)
    (hne : es ≠ []) (hk : ∀ e ∈ es, key e = k) :
    es.foldl (groupStep key) [] = [(k, (es.map Expense.amount).sum)] := by
  cases es with
  | nil => exact absurd rfl hne
  | cons e t =>
    have he : key e = k := hk e (List.mem_cons_self _ _)
    have ht : ∀ x ∈ t, key x = k := fun x hx => hk x (List.mem_cons_of_mem _ hx)
    have hstep : groupStep key [] e = [(k, e.amount)] := by
      simp [groupStep, he, setProp, getProp, orZero]
    simp only [List.foldl_cons, hstep, foldl_groupStep_single_key key k t _ ht, List.map_cons,
      List.sum_cons]

theorem seasonalMultiplier_pos (m : Fin 12) : 0 < seasonalMultiplier m := by
  unfold seasonalMultiplier
  split
  · norm_num
  · split <;> norm_num

/-- The forecast when `monthlyData` has exactly one entry. -/
theorem prediction_single_entry (now : JSDate) (sqrt : ℚ → ℚ) (a : Analytics) (k : String)
    (v : ℚ) (hm : a.monthlyData = [(k, v)]) :
    prediction now sqrt (some a) = some
      { nextMonth := max 0 (v * seasonalMultiplier now.month)
        linear := v * seasonalMultiplier now.month
        movingAverage := v
        trend := "stable"
        confidence := 70
        volatility := 0
        categoryPredictions := categoryPredictions a (v * seasonalMultiplier now.month)
        seasonalFactor := seasonalMultiplier now.month } := by
  simp [prediction, values, months, sortStrings, keys, hm, getProp]

/-- C10 (amended): when all records of a non-empty expense list fall in one calendar month,
`monthlyData` has that month as its only key with `totalSpent` as its total, and the forecast
has trend `stable`, confidence 70, volatility 0 and
`nextMonth = max 0 (total * seasonalFactor)`, which is `total * seasonalFactor` whenever the
total is not negative. -/
theorem single_month_forecast (now : JSDate) (sqrt : ℚ → ℚ) (es : List Expense) (y : Nat)
    (m : Fin 12) (hne : es ≠ []) (hmonth : ∀ e ∈ es, e.date.year = y ∧ e.date.month = m) :
    ∃ a p, analytics now es = some a ∧
      prediction now sqrt (analytics now es) = some p ∧
      a.monthlyData = [(monthShort m ++ " " ++ toString y, a.totalSpent)] ∧
      p.trend = "stable" ∧ p.confidence = 70 ∧ p.volatility = 0 ∧
      p.seasonalFactor = seasonalMultiplier now.month ∧
      p.nextMonth = max 0 (a.totalSpent * p.seasonalFactor) ∧
      (0 ≤ a.totalSpent → p.nextMonth = a.totalSpent * p.seasonalFactor) := by
  have hk : ∀ e ∈ es, (fun e : Expense => monthKey e.date) e =
      monthShort m ++ " " ++ toString y := by
    intro e he
    obtain ⟨h₁, h₂⟩ := hmonth e he
    simp [monthKey, h₁, h₂]
  have hmd : monthlyData es = [(monthShort m ++ " " ++ toString y, totalSpent es)] := by
    rw [monthlyData_eq_foldl, group_single_key _ _ es hne hk, totalSpent_eq_sum]
  obtain ⟨a, ha, hmda, hts⟩ : ∃ a, analytics now es = some a ∧
      a.monthlyData = monthlyData es ∧ a.totalSpent = totalSpent es :=
    ⟨_, analytics_of_ne_nil now es hne, rfl, rfl⟩
  have hp := prediction_single_entry now sqrt a _ _ (hmda.trans hmd)
  rw [← ha] at hp
  refine ⟨a, _, ha, hp, by rw [hmda, hmd, hts], rfl, rfl, rfl, rfl, by rw [hts], ?_⟩
  intro hnonneg
  rw [hts] at hnonneg ⊢
  exact max_eq_right (mul_nonneg hnonneg (le_of_lt (seasonalMultiplier_pos _)))

/-- Scenario B instance of C10: a single expense of 75 dated today (March) is forecast as
75 times the seasonal factor, here 75. -/
theorem single_month_forecast_witness :
    scenarioB ≠ [] ∧ (∀ e ∈ scenarioB, e.date.year = 2024 ∧ e.date.month = 2) ∧
      (∃ a p, analytics mar1 scenarioB = some a ∧
        prediction mar1 Rat.sqrt (analytics mar1 scenarioB) = some p ∧
        a.monthlyData = [(monthShort 2 ++ " " ++ toString 2024, a.totalSpent)] ∧
        p.trend = "stable" ∧ p.confidence = 70 ∧ p.volatility = 0 ∧
        p.seasonalFactor = seasonalMultiplier mar1.month ∧
        p.nextMonth = max 0 (a.totalSpent * p.seasonalFactor) ∧
        (0 ≤ a.totalSpent → p.nextMonth = a.totalSpent * p.seasonalFactor)) ∧
      totalSpent scenarioB = 75 ∧ seasonalMultiplier mar1.month = 1 :=
  ⟨List.cons_ne_nil _ _, by simp [scenarioB, mar1],
    single_month_forecast mar1 Rat.sqrt scenarioB 2024 2 (List.cons_ne_nil _ _)
      (by simp [scenarioB, mar1]),
    by simp [totalSpent, scenarioB], by simp [seasonalMultiplier, mar1]⟩

/-- C10 fails as stated: for a single record of amount -75 dated in the evaluation month the
month total is -75 and the seasonal factor is 1, yet `nextMonth` is 0, not -75. -/
theorem single_month_forecast_refund :
    (∀ e ∈ refundOnly, e.date.year = 2024 ∧ e.date.month = 2) ∧
      ∃ p, prediction mar1 Rat.sqrt (analytics mar1 refundOnly) = some p ∧
        monthlyData refundOnly = [("Mar 2024", -75)] ∧
        p.seasonalFactor = 1 ∧ p.nextMonth = 0 ∧ p.nextMonth ≠ -75 * p.seasonalFactor := by
  have hk : monthKey mar1 = "Mar 2024" := by decide
  have hmd : monthlyData refundOnly = [("Mar 2024", -75)] := by
    simp [monthlyData, refundOnly, setProp, getProp, orZero, hk]
  obtain ⟨a, ha, hmda⟩ : ∃ a, analytics mar1 refundOnly = some a ∧
      a.monthlyData = monthlyData refundOnly :=
    ⟨_, analytics_of_ne_nil mar1 refundOnly (List.cons_ne_nil _ _), rfl⟩
  have hp := prediction_single_entry mar1 Rat.sqrt a _ _ (hmda.trans hmd)
  rw [← ha] at hp
  refine ⟨by simp [refundOnly, mar1], _, hp, hmd, ?_, ?_, ?_⟩
  · simp [seasonalMultiplier, mar1]
  · simp [seasonalMultiplier, mar1]
  · simp [seasonalMultiplier, mar1]

/-! ## The seasonal factor -/

/-- A non-empty expense list always yields a forecast, and in either branch its
`seasonalFactor` is `seasonalMultiplier` of the evaluation month. -/
theorem prediction_seasonalFactor (now : JSDate) (sqrt : ℚ → ℚ) (es : List Expense)
    (hne : es ≠ []) :
    ∃ p, prediction now sqrt (analytics now es) = some p ∧
      p.seasonalFactor = seasonalMultiplier now.month := by
  have hkeys : ¬ (keys (monthlyData es)).length < 1 := by
    have h := keys_group_ne_nil (fun e => monthKey e.date) es hne
    rw [← monthlyData_eq_foldl] at h
    have := List.length_pos.mpr h
    omega
  rw [analytics_of_ne_nil now es hne]
  simp only [prediction, hkeys, if_false]
  split
  · exact ⟨_, rfl, rfl⟩
  · exact ⟨_, rfl, rfl⟩

theorem seasonalMultiplier_by_name (m : Fin 12) :
    (monthShort m = "Dec" ∨ monthShort m = "Jan" → seasonalMultiplier m = 6 / 5) ∧
      (monthShort m = "Jun" ∨ monthShort m = "Jul" ∨ monthShort m = "Aug" →
        seasonalMultiplier m = 11 / 10) ∧
      (¬ (monthShort m = "Dec" ∨ monthShort m = "Jan" ∨ monthShort m = "Jun" ∨
          monthShort m = "Jul" ∨ monthShort m = "Aug") → seasonalMultiplier m = 1) := by
  fin_cases m <;> simp [monthShort, seasonalMultiplier]

/-- C4 (amended): for every evaluation month and every non-empty expense list the forecast
exists and its `seasonalFactor` is 1.2 if the month is December or January, 1.1 if the month
is June, July or August, and 1.0 in every other month, May included; this holds in the
single-month and in the multi-month branch alike. -/
theorem seasonalFactor_by_month (now : JSDate) (sqrt : ℚ → ℚ) (es : List Expense)
    (hne : es ≠ []) :
    ∃ p, prediction now sqrt (analytics now es) = some p ∧
      (monthShort now.month = "Dec" ∨ monthShort now.month = "Jan" →
        p.seasonalFactor = 6 / 5) ∧
      (monthShort now.month = "Jun" ∨ monthShort now.month = "Jul" ∨
        monthShort now.month = "Aug" → p.seasonalFactor = 11 / 10) ∧
      (¬ (monthShort now.month = "Dec" ∨ monthShort now.month = "Jan" ∨
          monthShort now.month = "Jun" ∨ monthShort now.month = "Jul" ∨
          monthShort now.month = "Aug") → p.seasonalFactor = 1) := by
  obtain ⟨p, hp, hs⟩ := prediction_seasonalFactor now sqrt es hne
  refine ⟨p, hp, ?_⟩
  rw [hs]
  exact seasonalMultiplier_by_name now.month

/-- Scenario A evaluated in August, an instance of C4 (amended) in the multi-month branch. -/
theorem seasonalFactor_by_month_witness :
    scenarioA ≠ [] ∧
      ∃ p, prediction aug15 Rat.sqrt (analytics aug15 scenarioA) = some p ∧
        (monthShort aug15.month = "Dec" ∨ monthShort aug15.month = "Jan" →
          p.seasonalFactor = 6 / 5) ∧
        (monthShort aug15.month = "Jun" ∨ monthShort aug15.month = "Jul" ∨
          monthShort aug15.month = "Aug" → p.seasonalFactor = 11 / 10) ∧
        (¬ (monthShort aug15.month = "Dec" ∨ monthShort aug15.month = "Jan" ∨
            monthShort aug15.month = "Jun" ∨ monthShort aug15.month = "Jul" ∨
            monthShort aug15.month = "Aug") → p.seasonalFactor = 1) :=
  ⟨List.cons_ne_nil _ _, seasonalFactor_by_month aug15 Rat.sqrt scenarioA (List.cons_ne_nil _ _)⟩

theorem seasonalMultiplier_may15 : seasonalMultiplier may15.month = 1 := by
  have h : (may15.month).val = 4 := rfl
  simp [seasonalMultiplier, h]

theorem seasonalMultiplier_aug15 : seasonalMultiplier aug15.month = 11 / 10 := by
  have h : (aug15.month).val = 7 := rfl
  simp [seasonalMultiplier, h]

/-- C4 fails as stated: evaluated in May the forecast of Scenario B has seasonal factor 1.0,
not 1.1, and evaluated in August the forecast of Scenario A has seasonal factor 1.1, not
1.0. -/
theorem seasonalFactor_may_august :
    monthShort may15.month = "May" ∧ monthShort aug15.month = "Aug" ∧
      (∃ p, prediction may15 Rat.sqrt (analytics may15 scenarioB) = some p ∧
        p.seasonalFactor = 1 ∧ p.seasonalFactor ≠ 11 / 10) ∧
      (∃ p, prediction aug15 Rat.sqrt (analytics aug15 scenarioA) = some p ∧
        p.seasonalFactor = 11 / 10 ∧ p.seasonalFactor ≠ 1) := by
  refine ⟨by decide, by decide, ?_, ?_⟩
  · obtain ⟨p, hp, hs⟩ :=
      prediction_seasonalFactor may15 Rat.sqrt scenarioB (List.cons_ne_nil _ _)
    refine ⟨p, hp, ?_, ?_⟩ <;> rw [hs, seasonalMultiplier_may15]
    norm_num
  · obtain ⟨p, hp, hs⟩ :=
      prediction_seasonalFactor aug15 Rat.sqrt scenarioA (List.cons_ne_nil _ _)
    refine ⟨p, hp, ?_, ?_⟩ <;> rw [hs, seasonalMultiplier_aug15]
    norm_num

/-! ## The recent window -/

theorem recentTotal_eq_filter_sum (now : JSDate) (es : List Expense) :
    recentTotal now es =
      ((es.filter (fun e => decide (sevenDaysAgo now ≤ e.date.time))).map Expense.amount).sum := by
  simp [recentTotal, recentExpenses, foldl_add_eq_sum]

/-- C5 (amended): for every non-empty expense list none of whose records is dated after the
evaluation instant, `recentTotal` is the sum of the amounts of exactly those records whose
date, as an instant, lies between `sevenDaysAgo` (the evaluation date moved back seven
calendar days, same local time of day) and the evaluation instant, both ends included. -/
theorem recentTotal_eq_sum_since (now : JSDate) (es : List Expense) (hne : es ≠ [])
    (hpast : ∀ e ∈ es, e.date.time ≤ now.time) :
    ∃ a, analytics now es = some a ∧
      a.recentTotal =
        ((es.filter (fun e =>
          decide (now.weekEarlier ≤ e.date.time ∧ e.date.time ≤ now.time))).map
          Expense.amount).sum := by
  refine ⟨_, analytics_of_ne_nil now es hne, ?_⟩
  show recentTotal now es = _
  rw [recentTotal_eq_filter_sum]
  congr 2
  apply List.filter_congr
  intro e he
  have h := hpast e he
  simp [sevenDaysAgo, h]

/-- An instance of C5 (amended): evaluated in New York on 2024-03-13 at noon, three days after
the clocks went forward, the window starts on 2024-03-06 at noon local time, which is seven
days less one hour earlier; a record half an hour before that is left out and a record half an
hour after it is counted, so the recent total is 5. -/
theorem recentTotal_eq_sum_since_witness :
    clockChange ≠ [] ∧ (∀ e ∈ clockChange, e.date.time ≤ mar13NewYork.time) ∧
      (∃ a, analytics mar13NewYork clockChange = some a ∧
        a.recentTotal =
          ((clockChange.filter (fun e =>
            decide (mar13NewYork.weekEarlier ≤ e.date.time ∧
              e.date.time ≤ mar13NewYork.time))).map Expense.amount).sum) ∧
      mar13NewYork.weekEarlier = mar13NewYork.time - 604800000 + 3600000 ∧
      ((clockChange.filter (fun e =>
        decide (mar13NewYork.weekEarlier ≤ e.date.time ∧
          e.date.time ≤ mar13NewYork.time))).map Expense.amount).sum = 5 :=
  ⟨List.cons_ne_nil _ _, by simp [clockChange, mar13NewYork, mar6Before, mar6After],
    recentTotal_eq_sum_since mar13NewYork clockChange (List.cons_ne_nil _ _)
      (by simp [clockChange, mar13NewYork, mar6Before, mar6After]),
    by simp [mar13NewYork],
    by simp [clockChange, mar13NewYork, mar6Before, mar6After, List.filter]⟩

/-- C5 fails as stated: evaluated on 2024-03-01 at noon, a single record of 10 dated 2024-02-23
lies on the day `today - 7` and so in the window of the claim (total 10), while `recentTotal`
is 0: the filter compares instants, and midnight of 2024-02-23 is earlier than noon of that
day.  With a second record of 40 dated 2024-03-02 the window of the claim still totals 10
while `recentTotal` is 40: the filter has no upper end, whereas the comment on it reads
`Recent spending (last 7 days)`. -/
theorem recentTotal_window_edges :
    dayNumber feb23 = dayNumber mar1Noon - 7 ∧
      specRecentWindowTotal mar1Noon weekOld = 10 ∧
      (∃ a, analytics mar1Noon weekOld = some a ∧ a.recentTotal = 0 ∧
        a.recentTotal ≠ specRecentWindowTotal mar1Noon weekOld) ∧
      mar1Noon.time < mar2.time ∧
      specRecentWindowTotal mar1Noon windowEdge = 10 ∧
      ∃ a, analytics mar1Noon windowEdge = some a ∧ a.recentTotal = 40 ∧
        a.recentTotal ≠ specRecentWindowTotal mar1Noon windowEdge := by
  have hspec0 : specRecentWindowTotal mar1Noon weekOld = 10 := by
    simp [specRecentWindowTotal, weekOld, dayNumber, mar1Noon, feb23, List.filter]
  have hrec0 : recentTotal mar1Noon weekOld = 0 := by
    simp [recentTotal, recentExpenses, sevenDaysAgo, weekOld, mar1Noon, feb23, List.filter]
  have hspec : specRecentWindowTotal mar1Noon windowEdge = 10 := by
    simp [specRecentWindowTotal, windowEdge, dayNumber, mar1Noon, mar2, feb23, List.filter]
  have hrec : recentTotal mar1Noon windowEdge = 40 := by
    simp [recentTotal, recentExpenses, sevenDaysAgo, windowEdge, mar1Noon, mar2,
      feb23, List.filter]
  refine ⟨by simp [dayNumber, mar1Noon, feb23], hspec0,
    ⟨_, analytics_of_ne_nil mar1Noon weekOld (List.cons_ne_nil _ _), hrec0, ?_⟩,
    by simp [mar1Noon, mar2], hspec,
    _, analytics_of_ne_nil mar1Noon windowEdge (List.cons_ne_nil _ _), hrec, ?_⟩
  · show recentTotal mar1Noon weekOld ≠ _
    rw [hrec0, hspec0]
    norm_num
  · show recentTotal mar1Noon windowEdge ≠ _
    rw [hrec, hspec]
    norm_num

/-! ## The order of the monthly totals -/

theorem monthlyData_janFeb : monthlyData janFeb = [("Jan 2024", 100), ("Feb 2024", 200)] := by
  simp [monthlyData, janFeb, setProp, getProp, orZero, monthKey_jan5, monthKey_feb10]

/-- The months and values the forecaster takes from the object of `janFeb`. -/
theorem months_values_janFeb (a : Analytics)
    (h : a.monthlyData = [("Jan 2024", 100), ("Feb 2024", 200)]) :
    months a = ["Feb 2024", "Jan 2024"] ∧ values a = [200, 100] := by
  have hm : months a = ["Feb 2024", "Jan 2024"] := by
    simp [months, sortStrings, keys, h, List.insertionSort, List.orderedInsert]
    decide
  refine ⟨hm, ?_⟩
  simp [values, hm, h, getProp]

/-- The forecast in the multi-month branch. -/
theorem prediction_multi (now : JSDate) (sqrt : ℚ → ℚ) (a : Analytics)
    (hk : 1 ≤ (keys a.monthlyData).length) (hv : (values a).length ≠ 1) :
    prediction now sqrt (some a) = some
      { nextMonth := max 0 (weightedPrediction now (values a))
        linear := max 0 (nextMonthLinear (values a))
        movingAverage := movingAverage (values a)
        trend := trend (values a)
        confidence := min 95 (max 50 (100 - sqrt (volatility (values a))))
        volatility := sqrt (volatility (values a))
        categoryPredictions := categoryPredictions a (weightedPrediction now (values a))
        seasonalFactor := seasonalMultiplier now.month } := by
  have hk' : ¬ (keys a.monthlyData).length < 1 := by omega
  simp [prediction, hk', hv]

theorem slope_two (v₀ v₁ : ℚ) : slope [v₀, v₁] = v₁ - v₀ := by
  simp [slope, sumX, sumY, sumXY, sumX2, List.enum, List.enumFrom]
  ring

/-- C2, the code at the claim's own witness: with 100 spent in January 2024 and 200 in
February 2024, `monthlyData` is built in calendar order, but `Object.keys(...).sort()` orders
the labels as strings, so `months` is Feb 2024 then Jan 2024 and `values` is the February
total followed by the January total. -/
theorem months_sorted_by_label_janFeb :
    monthKey jan5 = "Jan 2024" ∧ monthKey feb10 = "Feb 2024" ∧
      jan5.year = feb10.year ∧ jan5.month < feb10.month ∧
      ∃ a, analytics mar1 janFeb = some a ∧
        a.monthlyData = [("Jan 2024", 100), ("Feb 2024", 200)] ∧
        months a = ["Feb 2024", "Jan 2024"] ∧ values a = [200, 100] := by
  obtain ⟨a, ha, hmd⟩ : ∃ a, analytics mar1 janFeb = some a ∧
      a.monthlyData = monthlyData janFeb :=
    ⟨_, analytics_of_ne_nil mar1 janFeb (List.cons_ne_nil _ _), rfl⟩
  rw [monthlyData_janFeb] at hmd
  obtain ⟨hm, hv⟩ := months_values_janFeb a hmd
  exact ⟨monthKey_jan5, monthKey_feb10, rfl, by decide, a, ha, hmd, hm, hv⟩

/-- C3, the code at the claim's own witness: with 100 spent in January 2024 and 200 in
February 2024 the totals in calendar order have slope 100, but the forecaster works on the
label-sorted values, whose slope is -100, and reports the trend `decreasing`. -/
theorem trend_decreasing_janFeb :
    slope [100, 200] = 100 ∧
      ∃ a p, analytics mar1 janFeb = some a ∧
        prediction mar1 Rat.sqrt (analytics mar1 janFeb) = some p ∧
        values a = [200, 100] ∧ slope (values a) = -100 ∧ p.trend = "decreasing" := by
  obtain ⟨a, ha, hmd⟩ : ∃ a, analytics mar1 janFeb = some a ∧
      a.monthlyData = monthlyData janFeb :=
    ⟨_, analytics_of_ne_nil mar1 janFeb (List.cons_ne_nil _ _), rfl⟩
  rw [monthlyData_janFeb] at hmd
  obtain ⟨_, hv⟩ := months_values_janFeb a hmd
  have hs : slope (values a) = -100 := by
    rw [hv, slope_two]
    norm_num
  have hp := prediction_multi mar1 Rat.sqrt a (by simp [keys, hmd]) (by simp [hv])
  rw [← ha] at hp
  refine ⟨by rw [slope_two]; norm_num, a, _, ha, hp, hv, hs, ?_⟩
  show trend (values a) = "decreasing"
  simp [trend, hs]
  norm_num

/-! ## The regression of the multi-month branch -/

theorem foldl_enum_eq_sum (g : ℕ → ℚ → ℚ) (vs : List ℚ) :
    vs.enum.foldl (fun s iv => s + g iv.1 iv.2) 0 =
      ∑ i ∈ Finset.range vs.length, g i (vs.getD i 0) := by
  induction vs using List.reverseRecOn with
  | nil => simp
  | append_singleton vs x ih =>
    rw [List.enum_append, List.foldl_append, ih]
    simp only [List.enumFrom_singleton, List.foldl_cons, List.foldl_nil, List.length_append,
      List.length_singleton, Finset.sum_range_succ]
    congr 1
    · refine Finset.sum_congr rfl ?_
      intro i hi
      rw [List.getD_append _ _ _ _ (Finset.mem_range.mp hi)]
    · rw [List.getD_append_right _ _ _ _ (le_refl _)]
      simp

theorem foldl_eq_sum_range (vs : List ℚ) :
    vs.foldl (fun s v => s + v) 0 = ∑ i ∈ Finset.range vs.length, vs.getD i 0 := by
  induction vs using List.reverseRecOn with
  | nil => simp
  | append_singleton vs x ih =>
    rw [List.foldl_append, ih]
    simp only [List.foldl_cons, List.foldl_nil, List.length_append,
      List.length_singleton, Finset.sum_range_succ]
    congr 1
    · refine Finset.sum_congr rfl ?_
      intro i hi
      rw [List.getD_append _ _ _ _ (Finset.mem_range.mp hi)]
    · rw [List.getD_append_right _ _ _ _ (le_refl _)]
      simp

theorem sumX_eq (vs : List ℚ) : sumX vs = ∑ i ∈ Finset.range vs.length, (i : ℚ) :=
  foldl_enum_eq_sum (fun i _ => (i : ℚ)) vs

theorem sumX2_eq (vs : List ℚ) : sumX2 vs = ∑ i ∈ Finset.range vs.length, (i : ℚ) * (i : ℚ) :=
  foldl_enum_eq_sum (fun i _ => (i : ℚ) * (i : ℚ)) vs

theorem sumXY_eq (vs : List ℚ) :
    sumXY vs = ∑ i ∈ Finset.range vs.length, (i : ℚ) * vs.getD i 0 :=
  foldl_enum_eq_sum (fun i v => (i : ℚ) * v) vs

theorem sumY_eq (vs : List ℚ) : sumY vs = ∑ i ∈ Finset.range vs.length, vs.getD i 0 :=
  foldl_eq_sum_range vs

theorem sum_range_id (n : ℕ) : ∑ i ∈ Finset.range n, (i : ℚ) = (n : ℚ) * ((n : ℚ) - 1) / 2 := by
  induction n with
  | zero => simp
  | succ n ih =>
    rw [Finset.sum_range_succ, ih]
    push_cast
    ring

theorem sum_range_sq (n : ℕ) :
    ∑ i ∈ Finset.range n, (i : ℚ) * (i : ℚ) =
      ((n : ℚ) - 1) * (n : ℚ) * (2 * (n : ℚ) - 1) / 6 := by
  induction n with
  | zero => simp
  | succ n ih =>
    rw [Finset.sum_range_succ, ih]
    push_cast
    ring

/-- The regression denominator in closed form. -/
theorem regression_denominator (vs : List ℚ) :
    (vs.length : ℚ) * sumX2 vs - sumX vs * sumX vs =
      (vs.length : ℚ) ^ 2 * ((vs.length : ℚ) ^ 2 - 1) / 12 := by
  rw [sumX_eq, sumX2_eq, sum_range_id, sum_range_sq]
  ring

theorem regression_denominator_pos (vs : List ℚ) (hn : 2 ≤ vs.length) :
    0 < (vs.length : ℚ) * sumX2 vs - sumX vs * sumX vs := by
  rw [regression_denominator]
  have h : (2 : ℚ) ≤ (vs.length : ℚ) := by exact_mod_cast hn
  have h1 : 0 < (vs.length : ℚ) ^ 2 - 1 := by nlinarith
  have h2 : 0 < (vs.length : ℚ) ^ 2 := by positivity
  positivity

/-- The first normal equation of the fit: `n * intercept + slope * sumX = sumY`. -/
theorem normal_equation_one (vs : List ℚ) (hn : 2 ≤ vs.length) :
    (vs.length : ℚ) * intercept vs + slope vs * sumX vs = sumY vs := by
  have h : (vs.length : ℚ) ≠ 0 := by
    have : (2 : ℚ) ≤ (vs.length : ℚ) := by exact_mod_cast hn
    linarith
  simp only [intercept]
  field_simp

/-- The second normal equation of the fit: `intercept * sumX + slope * sumX2 = sumXY`. -/
theorem normal_equation_two (vs : List ℚ) (hn : 2 ≤ vs.length) :
    intercept vs * sumX vs + slope vs * sumX2 vs = sumXY vs := by
  have h : (vs.length : ℚ) ≠ 0 := by
    have : (2 : ℚ) ≤ (vs.length : ℚ) := by exact_mod_cast hn
    linarith
  have hd := ne_of_gt (regression_denominator_pos vs hn)
  have hs : slope vs * ((vs.length : ℚ) * sumX2 vs - sumX vs * sumX vs) =
      (vs.length : ℚ) * sumXY vs - sumX vs * sumY vs := by
    simp only [slope]
    field_simp
  have h1 := normal_equation_one vs hn
  have : (vs.length : ℚ) * (intercept vs * sumX vs + slope vs * sumX2 vs) =
      (vs.length : ℚ) * sumXY vs := by
    linear_combination sumX vs * h1 + hs
  exact mul_left_cancel₀ h this

/-- The objective written out in the moments of the data. -/
theorem squaredError_expand (vs : List ℚ) (a b : ℚ) :
    squaredError vs a b =
      (∑ i ∈ Finset.range vs.length, vs.getD i 0 ^ 2) - 2 * a * sumY vs - 2 * b * sumXY vs +
        (vs.length : ℚ) * a ^ 2 + 2 * a * b * sumX vs + b ^ 2 * sumX2 vs := by
  rw [sumX_eq, sumX2_eq, sumXY_eq, sumY_eq, squaredError]
  have hterm : ∀ i ∈ Finset.range vs.length,
      (vs.getD i 0 - (a + b * (i : ℚ))) ^ 2 =
        vs.getD i 0 ^ 2 - 2 * a * vs.getD i 0 - 2 * b * ((i : ℚ) * vs.getD i 0) + a ^ 2 +
          2 * a * b * (i : ℚ) + b ^ 2 * ((i : ℚ) * (i : ℚ)) := by
    intro i _
    ring
  rw [Finset.sum_congr rfl hterm]
  simp only [Finset.sum_add_distrib, Finset.sum_sub_distrib, ← Finset.mul_sum,
    Finset.sum_const, Finset.card_range, nsmul_eq_mul]

/-- The gap between the objective at any line and at the fitted line is a sum of squares. -/
theorem squaredError_gap (vs : List ℚ) (hn : 2 ≤ vs.length) (a b : ℚ) :
    squaredError vs a b =
      squaredError vs (intercept vs) (slope vs) +
        ∑ i ∈ Finset.range vs.length,
          ((a - intercept vs) + (b - slope vs) * (i : ℚ)) ^ 2 := by
  have h1 := normal_equation_one vs hn
  have h2 := normal_equation_two vs hn
  have hsq : ∑ i ∈ Finset.range vs.length,
      ((a - intercept vs) + (b - slope vs) * (i : ℚ)) ^ 2 =
        (vs.length : ℚ) * (a - intercept vs) ^ 2 +
          2 * (a - intercept vs) * (b - slope vs) * sumX vs +
          (b - slope vs) ^ 2 * sumX2 vs := by
    rw [sumX_eq, sumX2_eq]
    have hterm : ∀ i ∈ Finset.range vs.length,
        ((a - intercept vs) + (b - slope vs) * (i : ℚ)) ^ 2 =
          (a - intercept vs) ^ 2 + 2 * (a - intercept vs) * (b - slope vs) * (i : ℚ) +
            (b - slope vs) ^ 2 * ((i : ℚ) * (i : ℚ)) := by
      intro i _
      ring
    rw [Finset.sum_congr rfl hterm]
    simp only [Finset.sum_add_distrib, ← Finset.mul_sum, Finset.sum_const, Finset.card_range,
      nsmul_eq_mul]
  rw [hsq, squaredError_expand, squaredError_expand]
  linear_combination (2 * (a - intercept vs)) * h1 + (2 * (b - slope vs)) * h2

/-- C12: for every sequence of at least two monthly totals the forecaster's `intercept` and
`slope` are the ordinary least-squares fit of `values[i]` against the index `i`: no line
`y = a + b * i` has a smaller sum of squared deviations, and a line with the same sum is the
fitted line. -/
theorem slope_intercept_least_squares (vs : List ℚ) (hn : 2 ≤ vs.length) (a b : ℚ) :
    squaredError vs (intercept vs) (slope vs) ≤ squaredError vs a b ∧
      (squaredError vs a b = squaredError vs (intercept vs) (slope vs) →
        a = intercept vs ∧ b = slope vs) := by
  have hgap := squaredError_gap vs hn a b
  have hnonneg : ∀ i ∈ Finset.range vs.length,
      0 ≤ ((a - intercept vs) + (b - slope vs) * (i : ℚ)) ^ 2 := fun i _ => sq_nonneg _
  constructor
  · rw [hgap]
    linarith [Finset.sum_nonneg hnonneg]
  · intro heq
    have hzero : ∑ i ∈ Finset.range vs.length,
        ((a - intercept vs) + (b - slope vs) * (i : ℚ)) ^ 2 = 0 := by linarith
    have hall := (Finset.sum_eq_zero_iff_of_nonneg hnonneg).mp hzero
    have h0 := hall 0 (Finset.mem_range.mpr (by omega))
    have h1 := hall 1 (Finset.mem_range.mpr (by omega))
    simp only [Nat.cast_zero, mul_zero, add_zero, Nat.cast_one, mul_one] at h0 h1
    have ha : a - intercept vs = 0 := pow_eq_zero_iff (by norm_num) |>.mp h0
    have hb : a - intercept vs + (b - slope vs) = 0 := pow_eq_zero_iff (by norm_num) |>.mp h1
    constructor <;> linarith

/-- An instance of C12: on the totals 100, 200 the fitted line does at least as well as the
constant line 0. -/
theorem slope_intercept_least_squares_witness :
    2 ≤ ([100, 200] : List ℚ).length ∧
      squaredError [100, 200] (intercept [100, 200]) (slope [100, 200]) ≤
        squaredError [100, 200] 0 0 ∧
      (squaredError [100, 200] 0 0 =
          squaredError [100, 200] (intercept [100, 200]) (slope [100, 200]) →
        (0 : ℚ) = intercept [100, 200] ∧ (0 : ℚ) = slope [100, 200]) :=
  ⟨by simp, slope_intercept_least_squares [100, 200] (by simp) 0 0⟩

/-! ## The forecast with several months of data -/

theorem length_values (a : Analytics) : (values a).length = (keys a.monthlyData).length := by
  simp [values, months, sortStrings, List.length_insertionSort]

/-- With at least two month keys the aggregate exists and the forecast is the record of the
multi-month branch. -/
theorem multi_month_forecast (now : JSDate) (sqrt : ℚ → ℚ) (es : List Expense)
    (hm : 2 ≤ (keys (monthlyData es)).length) :
    ∃ a, analytics now es = some a ∧ a.monthlyData = monthlyData es ∧
      a.categoryData = categoryData es ∧ a.totalSpent = totalSpent es ∧
      2 ≤ (values a).length ∧
      prediction now sqrt (analytics now es) = some
        { nextMonth := max 0 (weightedPrediction now (values a))
          linear := max 0 (nextMonthLinear (values a))
          movingAverage := movingAverage (values a)
          trend := trend (values a)
          confidence := min 95 (max 50 (100 - sqrt (volatility (values a))))
          volatility := sqrt (volatility (values a))
          categoryPredictions := categoryPredictions a (weightedPrediction now (values a))
          seasonalFactor := seasonalMultiplier now.month } := by
  have hne : es ≠ [] := by
    intro h
    subst h
    simp [monthlyData, keys] at hm
  obtain ⟨a, ha, hmd, hcd, hts⟩ : ∃ a, analytics now es = some a ∧
      a.monthlyData = monthlyData es ∧ a.categoryData = categoryData es ∧
      a.totalSpent = totalSpent es :=
    ⟨_, analytics_of_ne_nil now es hne, rfl, rfl, rfl⟩
  have hlen : 2 ≤ (values a).length := by
    rw [length_values, hmd]
    exact hm
  have hp := prediction_multi now sqrt a (by rw [hmd]; omega) (by omega)
  rw [← ha] at hp
  exact ⟨a, ha, hmd, hcd, hts, hlen, hp⟩

theorem volatility_eq_meanSquaredResidual (vs : List ℚ) :
    volatility vs = meanSquaredResidual vs := by
  simp only [volatility, meanSquaredResidual, squaredError]
  rw [foldl_enum_eq_sum (fun i v => (v - (intercept vs + slope vs * (i : ℚ))) ^ 2) vs]

theorem length_recentValues (vs : List ℚ) :
    (recentValues vs).length = min 3 vs.length := by
  simp only [recentValues, List.length_drop]
  omega

theorem movingAverage_eq_mean_last (vs : List ℚ) :
    movingAverage vs =
      (vs.drop (vs.length - min 3 vs.length)).sum / ((min 3 vs.length : ℕ) : ℚ) := by
  have hdrop : vs.length - min 3 vs.length = vs.length - 3 := by omega
  rw [movingAverage, length_recentValues, foldl_add_eq_sum (fun v => v), recentValues, hdrop]
  simp

theorem monthKey_apr10 : monthKey apr10 = "Apr 2024" := by decide

theorem monthKey_may15 : monthKey may15 = "May 2024" := by decide

theorem monthlyData_aprMay : monthlyData aprMay = [("Apr 2024", 200), ("May 2024", 50)] := by
  simp [monthlyData, aprMay, setProp, getProp, orZero, monthKey_apr10, monthKey_may15]

theorem values_aprMay (a : Analytics) (h : a.monthlyData = monthlyData aprMay) :
    values a = [200, 50] := by
  rw [monthlyData_aprMay] at h
  have hm : months a = ["Apr 2024", "May 2024"] := by
    simp [months, sortStrings, keys, h, List.insertionSort, List.orderedInsert]
    decide
  simp [values, hm, h, getProp]

theorem keys_monthlyData_aprMay : keys (monthlyData aprMay) = ["Apr 2024", "May 2024"] := by
  simp [monthlyData_aprMay, keys]

theorem intercept_two (v₀ v₁ : ℚ) : intercept [v₀, v₁] = v₀ := by
  simp [intercept, slope_two, sumX, sumY, List.enum, List.enumFrom]
  ring

/-- C13 (amended): in the multi-month case the returned `linear` is
`max 0 (slope * n + intercept)`, the one-step-ahead extrapolation floored at 0; it equals
`slope * n + intercept` whenever the extrapolation is not negative. -/
theorem linear_is_floored_extrapolation (now : JSDate) (sqrt : ℚ → ℚ) (es : List Expense)
    (hm : 2 ≤ (keys (monthlyData es)).length) :
    ∃ a p, analytics now es = some a ∧ prediction now sqrt (analytics now es) = some p ∧
      p.linear =
        max 0 (slope (values a) * ((values a).length : ℚ) + intercept (values a)) ∧
      (0 ≤ slope (values a) * ((values a).length : ℚ) + intercept (values a) →
        p.linear = slope (values a) * ((values a).length : ℚ) + intercept (values a)) := by
  obtain ⟨a, ha, -, -, -, -, hp⟩ := multi_month_forecast now sqrt es hm
  exact ⟨a, _, ha, hp, rfl, fun h => max_eq_right h⟩

/-- An instance of C13 (amended): 100 in January and 200 in February 2024. -/
theorem linear_is_floored_extrapolation_witness :
    2 ≤ (keys (monthlyData janFeb)).length ∧
      ∃ a p, analytics mar1 janFeb = some a ∧
        prediction mar1 Rat.sqrt (analytics mar1 janFeb) = some p ∧
        p.linear =
          max 0 (slope (values a) * ((values a).length : ℚ) + intercept (values a)) ∧
        (0 ≤ slope (values a) * ((values a).length : ℚ) + intercept (values a) →
          p.linear = slope (values a) * ((values a).length : ℚ) + intercept (values a)) :=
  ⟨by simp [monthlyData_janFeb, keys],
    linear_is_floored_extrapolation mar1 Rat.sqrt janFeb (by simp [monthlyData_janFeb, keys])⟩

/-- C13 fails as stated: with 200 spent in April and 50 in May 2024 the forecaster's values
are 200, 50, the extrapolation `slope * n + intercept` is -100, and the returned `linear`
is 0. -/
theorem linear_floored_aprMay :
    ∃ a p, analytics may15 aprMay = some a ∧
      prediction may15 Rat.sqrt (analytics may15 aprMay) = some p ∧
      values a = [200, 50] ∧
      slope (values a) * ((values a).length : ℚ) + intercept (values a) = -100 ∧
      p.linear = 0 ∧
      p.linear ≠ slope (values a) * ((values a).length : ℚ) + intercept (values a) := by
  obtain ⟨a, ha, hmd, -, -, -, hp⟩ := multi_month_forecast may15 Rat.sqrt aprMay
    (by simp [keys_monthlyData_aprMay])
  have hv := values_aprMay a hmd
  have hext : slope (values a) * ((values a).length : ℚ) + intercept (values a) = -100 := by
    rw [hv, slope_two, intercept_two]
    norm_num
  refine ⟨a, _, ha, hp, hv, hext, ?_, ?_⟩
  · show max 0 (nextMonthLinear (values a)) = 0
    rw [nextMonthLinear, hext]
    norm_num
  · show max 0 (nextMonthLinear (values a)) ≠ _
    rw [nextMonthLinear, hext]
    norm_num

/-- C14: in the multi-month case `nextMonth` is `max 0 ((L * 0.6 + M * 0.4) * seasonalFactor)`
with `L = slope * n + intercept` and `M` the mean of the last `min 3 n` monthly totals; hence
it is never negative. -/
theorem nextMonth_weighted_floor (now : JSDate) (sqrt : ℚ → ℚ) (es : List Expense)
    (hm : 2 ≤ (keys (monthlyData es)).length) :
    ∃ a p, analytics now es = some a ∧ prediction now sqrt (analytics now es) = some p ∧
      p.nextMonth =
        max 0
          ((((slope (values a) * ((values a).length : ℚ) + intercept (values a)) * (3 / 5) +
            ((values a).drop ((values a).length - min 3 (values a).length)).sum /
              ((min 3 (values a).length : ℕ) : ℚ) * (2 / 5))) * p.seasonalFactor) ∧
      0 ≤ p.nextMonth := by
  obtain ⟨a, ha, -, -, -, -, hp⟩ := multi_month_forecast now sqrt es hm
  refine ⟨a, _, ha, hp, ?_, le_max_left _ _⟩
  show max 0 (weightedPrediction now (values a)) = _
  rw [weightedPrediction, nextMonthLinear, movingAverage_eq_mean_last]

/-- An instance of C14: 100 in January and 200 in February 2024. -/
theorem nextMonth_weighted_floor_witness :
    2 ≤ (keys (monthlyData janFeb)).length ∧
      ∃ a p, analytics mar1 janFeb = some a ∧
        prediction mar1 Rat.sqrt (analytics mar1 janFeb) = some p ∧
        p.nextMonth =
          max 0
            ((((slope (values a) * ((values a).length : ℚ) + intercept (values a)) * (3 / 5) +
              ((values a).drop ((values a).length - min 3 (values a).length)).sum /
                ((min 3 (values a).length : ℕ) : ℚ) * (2 / 5))) * p.seasonalFactor) ∧
        0 ≤ p.nextMonth :=
  ⟨by simp [monthlyData_janFeb, keys],
    nextMonth_weighted_floor mar1 Rat.sqrt janFeb (by simp [monthlyData_janFeb, keys])⟩

/-- C15: in the multi-month case the trend label is decided by the fitted slope alone:
`increasing` exactly when the slope exceeds 5, `decreasing` exactly when it is below -5, and
`stable` exactly when it lies between -5 and 5, both included. -/
theorem trend_by_slope (now : JSDate) (sqrt : ℚ → ℚ) (es : List Expense)
    (hm : 2 ≤ (keys (monthlyData es)).length) :
    ∃ a p, analytics now es = some a ∧ prediction now sqrt (analytics now es) = some p ∧
      (p.trend = "increasing" ↔ slope (values a) > 5) ∧
      (p.trend = "decreasing" ↔ slope (values a) < -5) ∧
      (p.trend = "stable" ↔ -5 ≤ slope (values a) ∧ slope (values a) ≤ 5) := by
  obtain ⟨a, ha, -, -, -, -, hp⟩ := multi_month_forecast now sqrt es hm
  refine ⟨a, _, ha, hp, ?_, ?_, ?_⟩
  · show trend (values a) = "increasing" ↔ _
    unfold trend
    by_cases h₁ : slope (values a) > 5
    · simp [h₁]
    · by_cases h₂ : slope (values a) < -5 <;> simp [h₁, h₂]
  · show trend (values a) = "decreasing" ↔ _
    unfold trend
    by_cases h₁ : slope (values a) > 5
    · have h₂ : ¬ slope (values a) < -5 := by linarith
      simp [h₁, h₂]
    · by_cases h₂ : slope (values a) < -5 <;> simp [h₁, h₂]
  · show trend (values a) = "stable" ↔ _
    unfold trend
    by_cases h₁ : slope (values a) > 5
    · have h₃ : ¬ slope (values a) ≤ 5 := by linarith
      simp [h₁, h₃]
    · by_cases h₂ : slope (values a) < -5
      · have h₃ : ¬ -5 ≤ slope (values a) := by linarith
        simp [h₁, h₂, h₃]
      · have h₃ : -5 ≤ slope (values a) := by linarith
        have h₄ : slope (values a) ≤ 5 := by linarith
        simp [h₁, h₂, h₃, h₄]

/-- An instance of C15: 100 in January and 200 in February 2024. -/
theorem trend_by_slope_witness :
    2 ≤ (keys (monthlyData janFeb)).length ∧
      ∃ a p, analytics mar1 janFeb = some a ∧
        prediction mar1 Rat.sqrt (analytics mar1 janFeb) = some p ∧
        (p.trend = "increasing" ↔ slope (values a) > 5) ∧
        (p.trend = "decreasing" ↔ slope (values a) < -5) ∧
        (p.trend = "stable" ↔ -5 ≤ slope (values a) ∧ slope (values a) ≤ 5) :=
  ⟨by simp [monthlyData_janFeb, keys],
    trend_by_slope mar1 Rat.sqrt janFeb (by simp [monthlyData_janFeb, keys])⟩

theorem monthKey_aug15 : monthKey aug15 = "Aug 2024" := by decide

theorem monthKey_dec15 : monthKey dec15 = "Dec 2024" := by decide

theorem monthKey_feb10of2025 : monthKey feb10of2025 = "Feb 2025" := by decide

theorem monthlyData_fourMonths :
    monthlyData fourMonths =
      [("Apr 2024", 12), ("Aug 2024", 8), ("Dec 2024", 8), ("Feb 2025", 12)] := by
  simp [monthlyData, fourMonths, setProp, getProp, orZero, monthKey_apr10, monthKey_aug15,
    monthKey_dec15, monthKey_feb10of2025]

theorem values_fourMonths (a : Analytics) (h : a.monthlyData = monthlyData fourMonths) :
    values a = [12, 8, 8, 12] := by
  rw [monthlyData_fourMonths] at h
  have hm : months a = ["Apr 2024", "Aug 2024", "Dec 2024", "Feb 2025"] := by
    simp [months, sortStrings, keys, h, List.insertionSort, List.orderedInsert]
    decide
  simp [values, hm, h, getProp]

theorem meanSquaredResidual_fourMonths : meanSquaredResidual [12, 8, 8, 12] = 4 := by
  have hs : slope [12, 8, 8, 12] = 0 := by
    simp [slope, sumX, sumY, sumXY, sumX2, List.enum, List.enumFrom]
    norm_num
  have hi : intercept [12, 8, 8, 12] = 10 := by
    simp [intercept, hs, sumY]
    norm_num
  simp [meanSquaredResidual, squaredError, hs, hi, Finset.sum_range_succ]
  norm_num

theorem ratSqrt_four : Rat.sqrt 4 = 2 := by
  rw [show (4 : ℚ) = 2 * 2 by norm_num, Rat.sqrt_eq]
  norm_num

theorem keys_monthlyData_fourMonths :
    keys (monthlyData fourMonths) = ["Apr 2024", "Aug 2024", "Dec 2024", "Feb 2025"] := by
  simp [monthlyData_fourMonths, keys]

/-- C16 (amended): in the multi-month case the returned `volatility` is the square root of the
mean squared residual of the values against the fitted line, not the mean squared residual
itself. -/
theorem volatility_is_root (now : JSDate) (sqrt : ℚ → ℚ) (es : List Expense)
    (hm : 2 ≤ (keys (monthlyData es)).length) :
    ∃ a p, analytics now es = some a ∧ prediction now sqrt (analytics now es) = some p ∧
      p.volatility = sqrt (meanSquaredResidual (values a)) := by
  obtain ⟨a, ha, -, -, -, -, hp⟩ := multi_month_forecast now sqrt es hm
  refine ⟨a, _, ha, hp, ?_⟩
  show sqrt (volatility (values a)) = _
  rw [volatility_eq_meanSquaredResidual]

/-- An instance of C16 (amended): four months with totals 12, 8, 8, 12, where the mean
squared residual is 4 and its square root is 2. -/
theorem volatility_is_root_witness :
    2 ≤ (keys (monthlyData fourMonths)).length ∧
      (∃ a p, analytics mar1of2025 fourMonths = some a ∧
        prediction mar1of2025 Rat.sqrt (analytics mar1of2025 fourMonths) = some p ∧
        p.volatility = Rat.sqrt (meanSquaredResidual (values a))) ∧
      Rat.sqrt 4 = 2 :=
  ⟨by simp [keys_monthlyData_fourMonths],
    volatility_is_root mar1of2025 Rat.sqrt fourMonths (by simp [keys_monthlyData_fourMonths]),
    ratSqrt_four⟩

/-- C16 fails as stated: with 12 spent in April, 8 in August, 8 in December 2024 and 12 in
February 2025 the forecaster's values are 12, 8, 8, 12, their mean squared residual is 4, and
the returned `volatility` is 2. -/
theorem volatility_fourMonths :
    ∃ a p, analytics mar1of2025 fourMonths = some a ∧
      prediction mar1of2025 Rat.sqrt (analytics mar1of2025 fourMonths) = some p ∧
      values a = [12, 8, 8, 12] ∧ meanSquaredResidual (values a) = 4 ∧
      p.volatility = 2 ∧ p.volatility ≠ meanSquaredResidual (values a) := by
  obtain ⟨a, ha, hmd, -, -, -, hp⟩ := multi_month_forecast mar1of2025 Rat.sqrt fourMonths
    (by simp [keys_monthlyData_fourMonths])
  have hv := values_fourMonths a hmd
  have hmsr : meanSquaredResidual (values a) = 4 := by
    rw [hv]
    exact meanSquaredResidual_fourMonths
  have hvol : Rat.sqrt (volatility (values a)) = 2 := by
    rw [volatility_eq_meanSquaredResidual, hmsr]
    exact ratSqrt_four
  refine ⟨a, _, ha, hp, hv, hmsr, hvol, ?_⟩
  show Rat.sqrt (volatility (values a)) ≠ _
  rw [hvol, hmsr]
  norm_num

/-- C17: in the multi-month case the confidence is 100 minus the square root of the mean
squared residual, clamped to the interval from 50 to 95; in particular it lies between 50
and 95. -/
theorem confidence_clamped (now : JSDate) (sqrt : ℚ → ℚ) (es : List Expense)
    (hm : 2 ≤ (keys (monthlyData es)).length) :
    ∃ a p, analytics now es = some a ∧ prediction now sqrt (analytics now es) = some p ∧
      p.confidence = min 95 (max 50 (100 - sqrt (meanSquaredResidual (values a)))) ∧
      50 ≤ p.confidence ∧ p.confidence ≤ 95 := by
  obtain ⟨a, ha, -, -, -, -, hp⟩ := multi_month_forecast now sqrt es hm
  refine ⟨a, _, ha, hp, ?_, ?_, ?_⟩
  · show min 95 (max 50 (100 - sqrt (volatility (values a)))) = _
    rw [volatility_eq_meanSquaredResidual]
  · show 50 ≤ min 95 (max 50 (100 - sqrt (volatility (values a))))
    exact le_min (by norm_num) (le_max_left _ _)
  · show min 95 (max 50 (100 - sqrt (volatility (values a)))) ≤ 95
    exact min_le_left _ _

/-- An instance of C17: four months with totals 12, 8, 8, 12. -/
theorem confidence_clamped_witness :
    2 ≤ (keys (monthlyData fourMonths)).length ∧
      ∃ a p, analytics mar1of2025 fourMonths = some a ∧
        prediction mar1of2025 Rat.sqrt (analytics mar1of2025 fourMonths) = some p ∧
        p.confidence =
          min 95 (max 50 (100 - Rat.sqrt (meanSquaredResidual (values a)))) ∧
        50 ≤ p.confidence ∧ p.confidence ≤ 95 :=
  ⟨by simp [keys_monthlyData_fourMonths],
    confidence_clamped mar1of2025 Rat.sqrt fourMonths (by simp [keys_monthlyData_fourMonths])⟩

/-! ## The components of the single-month forecast -/

/-- The aggregate and the forecast of a non-empty list whose records all fall in the month
`m` of the year `y`. -/
theorem single_month_record (now : JSDate) (sqrt : ℚ → ℚ) (es : List Expense) (y : Nat)
    (m : Fin 12) (hne : es ≠ []) (hmonth : ∀ e ∈ es, e.date.year = y ∧ e.date.month = m) :
    ∃ a, analytics now es = some a ∧ a.totalSpent = totalSpent es ∧
      a.categoryData = categoryData es ∧
      a.monthlyData = [(monthShort m ++ " " ++ toString y, totalSpent es)] ∧
      prediction now sqrt (analytics now es) = some
        { nextMonth := max 0 (totalSpent es * seasonalMultiplier now.month)
          linear := totalSpent es * seasonalMultiplier now.month
          movingAverage := totalSpent es
          trend := "stable"
          confidence := 70
          volatility := 0
          categoryPredictions :=
            categoryPredictions a (totalSpent es * seasonalMultiplier now.month)
          seasonalFactor := seasonalMultiplier now.month } := by
  have hk : ∀ e ∈ es, (fun e : Expense => monthKey e.date) e =
      monthShort m ++ " " ++ toString y := by
    intro e he
    obtain ⟨h₁, h₂⟩ := hmonth e he
    simp [monthKey, h₁, h₂]
  have hmd : monthlyData es = [(monthShort m ++ " " ++ toString y, totalSpent es)] := by
    rw [monthlyData_eq_foldl, group_single_key _ _ es hne hk, totalSpent_eq_sum]
  obtain ⟨a, ha, hmda, hts, hcd⟩ : ∃ a, analytics now es = some a ∧
      a.monthlyData = monthlyData es ∧ a.totalSpent = totalSpent es ∧
      a.categoryData = categoryData es :=
    ⟨_, analytics_of_ne_nil now es hne, rfl, rfl, rfl⟩
  have hp := prediction_single_entry now sqrt a _ _ (hmda.trans hmd)
  rw [← ha] at hp
  exact ⟨a, ha, hts, hcd, hmda.trans hmd, hp⟩

theorem seasonalMultiplier_dec15 : seasonalMultiplier dec15.month = 6 / 5 := by
  have h : (dec15.month).val = 11 := rfl
  simp [seasonalMultiplier, h]

/-- C11 (amended): in the single-month case the returned linear component is the month total
times the seasonal factor, while the returned moving-average component is the month total
itself, without the seasonal factor; the two are equal exactly when the total is 0 or the
seasonal factor is 1. -/
theorem single_month_components (now : JSDate) (sqrt : ℚ → ℚ) (es : List Expense) (y : Nat)
    (m : Fin 12) (hne : es ≠ []) (hmonth : ∀ e ∈ es, e.date.year = y ∧ e.date.month = m) :
    ∃ a p, analytics now es = some a ∧ prediction now sqrt (analytics now es) = some p ∧
      a.monthlyData = [(monthShort m ++ " " ++ toString y, a.totalSpent)] ∧
      p.linear = a.totalSpent * p.seasonalFactor ∧
      p.movingAverage = a.totalSpent ∧
      (p.linear = p.movingAverage ↔ a.totalSpent = 0 ∨ p.seasonalFactor = 1) := by
  obtain ⟨a, ha, hts, -, hmd, hp⟩ := single_month_record now sqrt es y m hne hmonth
  refine ⟨a, _, ha, hp, by rw [hmd, hts], by rw [hts], by rw [hts], ?_⟩
  show totalSpent es * seasonalMultiplier now.month = totalSpent es ↔
    a.totalSpent = 0 ∨ seasonalMultiplier now.month = 1
  rw [hts]
  constructor
  · intro h
    by_cases h0 : totalSpent es = 0
    · exact Or.inl h0
    · right
      have h' : totalSpent es * seasonalMultiplier now.month = totalSpent es * 1 := by
        rw [h, mul_one]
      exact mul_left_cancel₀ h0 h'
  · rintro (h | h)
    · rw [h, zero_mul]
    · rw [h, mul_one]

/-- Scenario B instance of C11 (amended), evaluated in March where the seasonal factor
is 1. -/
theorem single_month_components_witness :
    scenarioB ≠ [] ∧ (∀ e ∈ scenarioB, e.date.year = 2024 ∧ e.date.month = 2) ∧
      ∃ a p, analytics mar1 scenarioB = some a ∧
        prediction mar1 Rat.sqrt (analytics mar1 scenarioB) = some p ∧
        a.monthlyData = [(monthShort 2 ++ " " ++ toString 2024, a.totalSpent)] ∧
        p.linear = a.totalSpent * p.seasonalFactor ∧
        p.movingAverage = a.totalSpent ∧
        (p.linear = p.movingAverage ↔ a.totalSpent = 0 ∨ p.seasonalFactor = 1) :=
  ⟨List.cons_ne_nil _ _, by simp [scenarioB, mar1],
    single_month_components mar1 Rat.sqrt scenarioB 2024 2 (List.cons_ne_nil _ _)
      (by simp [scenarioB, mar1])⟩

/-- C11 fails as stated: for a single expense of 75 dated and evaluated in December the
seasonal factor is 1.2, the linear component is 90 and the moving-average component is 75. -/
theorem single_month_components_december :
    (∀ e ∈ decBill, e.date.year = 2024 ∧ e.date.month = 11) ∧
      ∃ p, prediction dec15 Rat.sqrt (analytics dec15 decBill) = some p ∧
        p.seasonalFactor = 6 / 5 ∧ p.linear = 90 ∧ p.movingAverage = 75 ∧
        p.linear ≠ p.movingAverage ∧ p.movingAverage ≠ 75 * p.seasonalFactor := by
  obtain ⟨a, -, -, -, -, hp⟩ := single_month_record dec15 Rat.sqrt decBill 2024 11
    (List.cons_ne_nil _ _) (by simp [decBill, dec15])
  have ht : totalSpent decBill = 75 := by simp [totalSpent, decBill]
  rw [ht, seasonalMultiplier_dec15] at hp
  refine ⟨by simp [decBill, dec15], _, hp, rfl, ?_, rfl, ?_, ?_⟩ <;> norm_num

/-! ## The per-category predictions -/

/-- A non-empty expense list yields a forecast whose `nextMonth` is the prediction of its
branch floored at 0 and whose `categoryPredictions` share out that prediction unfloored. -/
theorem prediction_shares (now : JSDate) (sqrt : ℚ → ℚ) (es : List Expense) (hne : es ≠ []) :
    ∃ a p, analytics now es = some a ∧ a.totalSpent = totalSpent es ∧
      a.categoryData = categoryData es ∧
      prediction now sqrt (analytics now es) = some p ∧
      p.nextMonth = max 0 (unflooredPrediction now a) ∧
      p.categoryPredictions = categoryPredictions a (unflooredPrediction now a) := by
  have hkeys : ¬ (keys (monthlyData es)).length < 1 := by
    have h := keys_group_ne_nil (fun e => monthKey e.date) es hne
    rw [← monthlyData_eq_foldl] at h
    have := List.length_pos.mpr h
    omega
  obtain ⟨a, ha, hts, hcd, hmd⟩ : ∃ a, analytics now es = some a ∧
      a.totalSpent = totalSpent es ∧ a.categoryData = categoryData es ∧
      a.monthlyData = monthlyData es :=
    ⟨_, analytics_of_ne_nil now es hne, rfl, rfl, rfl⟩
  have hk : ¬ (keys a.monthlyData).length < 1 := by
    rw [hmd]
    exact hkeys
  rw [ha]
  by_cases h1 : (values a).length = 1
  · have hp : prediction now sqrt (some a) = some
        { nextMonth := max 0 ((values a).headD 0 * seasonalMultiplier now.month)
          linear := (values a).headD 0 * seasonalMultiplier now.month
          movingAverage := (values a).headD 0
          trend := "stable"
          confidence := 70
          volatility := 0
          categoryPredictions :=
            categoryPredictions a ((values a).headD 0 * seasonalMultiplier now.month)
          seasonalFactor := seasonalMultiplier now.month } := by
      simp [prediction, hk, h1]
    exact ⟨a, _, rfl, hts, hcd, hp, by simp [unflooredPrediction, h1],
      by simp [unflooredPrediction, h1]⟩
  · have hp := prediction_multi now sqrt a (by omega) h1
    exact ⟨a, _, rfl, hts, hcd, hp, by simp [unflooredPrediction, h1],
      by simp [unflooredPrediction, h1]⟩

theorem sum_map_share (o : Obj) (p t : ℚ) :
    (o.map (fun entry => p * (entry.2 / t))).sum = p * ((vals o).sum / t) := by
  induction o with
  | nil => simp [vals]
  | cons e rest ih =>
    simp only [vals] at ih
    simp only [List.map_cons, List.sum_cons, ih, vals]
    ring

theorem sum_predicted (a : Analytics) (p : ℚ) :
    ((categoryPredictions a p).map CategoryPrediction.predicted).sum =
      p * ((vals a.categoryData).sum / a.totalSpent) := by
  have hperm := List.perm_insertionSort
    (fun x y : CategoryPrediction => y.predicted - x.predicted ≤ 0)
    (a.categoryData.map (fun entry =>
      ({ category := entry.1
         predicted := p * (entry.2 / a.totalSpent)
         percentage := entry.2 / a.totalSpent * 100 } : CategoryPrediction)))
  have hsum := (hperm.map CategoryPrediction.predicted).sum_eq
  simp only [categoryPredictions, sortBy]
  rw [hsum, List.map_map]
  exact sum_map_share a.categoryData p a.totalSpent

theorem sum_vals_categoryData (es : List Expense) :
    (vals (categoryData es)).sum = totalSpent es := by
  rw [categoryData_eq_foldl, sum_vals_foldl_groupStep, totalSpent_eq_sum]
  simp [vals]

/-- C18 (amended): for every non-empty expense list with a non-zero total the forecast exists,
the sum of the `predicted` amounts over `categoryPredictions` is the prediction before the
floor at 0, and `nextMonth` is that sum floored at 0; the sum therefore equals `nextMonth`
whenever it is not negative. -/
theorem categoryPredictions_sum (now : JSDate) (sqrt : ℚ → ℚ) (es : List Expense)
    (hne : es ≠ []) (hts : totalSpent es ≠ 0) :
    ∃ a p, analytics now es = some a ∧ prediction now sqrt (analytics now es) = some p ∧
      (p.categoryPredictions.map CategoryPrediction.predicted).sum =
        unflooredPrediction now a ∧
      p.nextMonth = max 0 (p.categoryPredictions.map CategoryPrediction.predicted).sum ∧
      (0 ≤ (p.categoryPredictions.map CategoryPrediction.predicted).sum →
        (p.categoryPredictions.map CategoryPrediction.predicted).sum = p.nextMonth) := by
  obtain ⟨a, p, ha, hta, hcd, hp, hnext, hcp⟩ := prediction_shares now sqrt es hne
  have hsum : (p.categoryPredictions.map CategoryPrediction.predicted).sum =
      unflooredPrediction now a := by
    rw [hcp, sum_predicted, hcd, sum_vals_categoryData, hta, div_self hts, mul_one]
  refine ⟨a, p, ha, hp, hsum, by rw [hsum, hnext], ?_⟩
  intro h
  rw [hnext, ← hsum, max_eq_right h]

/-- Scenario A instance of C18 (amended), evaluated on 2024-03-01. -/
theorem categoryPredictions_sum_witness :
    scenarioA ≠ [] ∧ totalSpent scenarioA ≠ 0 ∧
      ∃ a p, analytics mar1 scenarioA = some a ∧
        prediction mar1 Rat.sqrt (analytics mar1 scenarioA) = some p ∧
        (p.categoryPredictions.map CategoryPrediction.predicted).sum =
          unflooredPrediction mar1 a ∧
        p.nextMonth = max 0 (p.categoryPredictions.map CategoryPrediction.predicted).sum ∧
        (0 ≤ (p.categoryPredictions.map CategoryPrediction.predicted).sum →
          (p.categoryPredictions.map CategoryPrediction.predicted).sum = p.nextMonth) :=
  ⟨List.cons_ne_nil _ _, by rw [totalSpent_scenarioA]; norm_num,
    categoryPredictions_sum mar1 Rat.sqrt scenarioA (List.cons_ne_nil _ _)
      (by rw [totalSpent_scenarioA]; norm_num)⟩

theorem weightedPrediction_aprMay : weightedPrediction may15 [200, 50] = -10 := by
  have hma : movingAverage [200, 50] = 125 := by
    simp [movingAverage, recentValues]
    norm_num
  simp only [weightedPrediction, nextMonthLinear, slope_two, intercept_two, hma,
    seasonalMultiplier_may15]
  norm_num

/-- C18 fails as stated: with 200 spent in April and 50 in May 2024, all on Food, the weighted
prediction is -10; `nextMonth` is floored to 0 while the single category prediction, and so
the sum of the predictions, is -10. -/
theorem categoryPredictions_sum_aprMay :
    ∃ p, prediction may15 Rat.sqrt (analytics may15 aprMay) = some p ∧
      (p.categoryPredictions.map CategoryPrediction.predicted).sum = -10 ∧
      p.nextMonth = 0 ∧
      (p.categoryPredictions.map CategoryPrediction.predicted).sum ≠ p.nextMonth := by
  obtain ⟨a, ha, hmd, hcd, hta, hlen, hp⟩ := multi_month_forecast may15 Rat.sqrt aprMay
    (by simp [keys_monthlyData_aprMay])
  have hv := values_aprMay a hmd
  have htot : totalSpent aprMay = 250 := by
    simp [totalSpent, aprMay]
    norm_num
  have hsum : ((categoryPredictions a (weightedPrediction may15 (values a))).map
      CategoryPrediction.predicted).sum = -10 := by
    rw [sum_predicted, hcd, sum_vals_categoryData, hta, htot, hv, weightedPrediction_aprMay]
    norm_num
  have hnext : max 0 (weightedPrediction may15 (values a)) = 0 := by
    rw [hv, weightedPrediction_aprMay]
    norm_num
  refine ⟨_, hp, hsum, hnext, ?_⟩
  show ((categoryPredictions a (weightedPrediction may15 (values a))).map
      CategoryPrediction.predicted).sum ≠ max 0 (weightedPrediction may15 (values a))
  rw [hsum, hnext]
  norm_num

/-- C19: for every non-empty expense list with a non-zero total, `categoryPredictions` is a
rearrangement of one entry per entry of `categoryData` (whose keys are pairwise distinct), the
entry of a category with total `t` having `predicted = P * (t / totalSpent)` and
`percentage = (t / totalSpent) * 100`, where `P` is the prediction of the branch before the
floor at 0 (`weightedPrediction`, or `basePrediction` when there is a single month); and the
entries are ordered by non-increasing `predicted`. -/
theorem categoryPredictions_entries (now : JSDate) (sqrt : ℚ → ℚ) (es : List Expense)
    (hne : es ≠ []) (hts : totalSpent es ≠ 0) :
    ∃ a p, analytics now es = some a ∧ prediction now sqrt (analytics now es) = some p ∧
      a.totalSpent ≠ 0 ∧
      p.categoryPredictions.Perm
        (a.categoryData.map (fun entry =>
          ({ category := entry.1
             predicted := unflooredPrediction now a * (entry.2 / a.totalSpent)
             percentage := entry.2 / a.totalSpent * 100 } : CategoryPrediction))) ∧
      (p.categoryPredictions.map CategoryPrediction.category).Perm (keys a.categoryData) ∧
      (keys a.categoryData).Nodup ∧
      p.categoryPredictions.Pairwise (fun x y => y.predicted ≤ x.predicted) := by
  obtain ⟨a, p, ha, hta, hcd, hp, -, hcp⟩ := prediction_shares now sqrt es hne
  let r : CategoryPrediction → CategoryPrediction → Prop :=
    fun x y => y.predicted - x.predicted ≤ 0
  have hperm : p.categoryPredictions.Perm
      (a.categoryData.map (fun entry =>
        ({ category := entry.1
           predicted := unflooredPrediction now a * (entry.2 / a.totalSpent)
           percentage := entry.2 / a.totalSpent * 100 } : CategoryPrediction))) := by
    rw [hcp]
    exact List.perm_insertionSort _ _
  haveI : IsTotal CategoryPrediction r :=
    ⟨fun x y => by
      rcases le_total y.predicted x.predicted with h | h
      · exact Or.inl (by show y.predicted - x.predicted ≤ 0; linarith)
      · exact Or.inr (by show x.predicted - y.predicted ≤ 0; linarith)⟩
  haveI : IsTrans CategoryPrediction r :=
    ⟨fun x y z hxy hyz => by
      have h₁ : y.predicted - x.predicted ≤ 0 := hxy
      have h₂ : z.predicted - y.predicted ≤ 0 := hyz
      show z.predicted - x.predicted ≤ 0
      linarith⟩
  have hsorted : (p.categoryPredictions).Pairwise r := by
    rw [hcp]
    exact List.sorted_insertionSort r _
  refine ⟨a, p, ha, hp, by rw [hta]; exact hts, hperm, ?_, ?_, ?_⟩
  · have := hperm.map CategoryPrediction.category
    simpa [List.map_map, keys, Function.comp] using this
  · rw [hcd, categoryData_eq_foldl]
    exact nodup_keys_foldl_groupStep _ es [] (by simp [keys])
  · refine hsorted.imp ?_
    intro x y hxy
    have h : y.predicted - x.predicted ≤ 0 := hxy
    linarith

/-- Scenario A instance of C19, evaluated on 2024-03-01. -/
theorem categoryPredictions_entries_witness :
    scenarioA ≠ [] ∧ totalSpent scenarioA ≠ 0 ∧
      ∃ a p, analytics mar1 scenarioA = some a ∧
        prediction mar1 Rat.sqrt (analytics mar1 scenarioA) = some p ∧
        a.totalSpent ≠ 0 ∧
        p.categoryPredictions.Perm
          (a.categoryData.map (fun entry =>
            ({ category := entry.1
               predicted := unflooredPrediction mar1 a * (entry.2 / a.totalSpent)
               percentage := entry.2 / a.totalSpent * 100 } : CategoryPrediction))) ∧
        (p.categoryPredictions.map CategoryPrediction.category).Perm (keys a.categoryData) ∧
        (keys a.categoryData).Nodup ∧
        p.categoryPredictions.Pairwise (fun x y => y.predicted ≤ x.predicted) :=
  ⟨List.cons_ne_nil _ _, by rw [totalSpent_scenarioA]; norm_num,
    categoryPredictions_entries mar1 Rat.sqrt scenarioA (List.cons_ne_nil _ _)
      (by rw [totalSpent_scenarioA]; norm_num)⟩

/-! ## The suggested budgets -/

/-- The number of keys of `monthlyData` is the number of distinct calendar months among the
records. -/
theorem length_keys_monthlyData (es : List Expense) :
    (keys (monthlyData es)).length =
      ((es.map (fun e => (e.date.year, e.date.month))).toFinset).card := by
  have hnd : (keys (monthlyData es)).Nodup := by
    rw [monthlyData_eq_foldl]
    exact nodup_keys_foldl_groupStep _ es [] (by simp [keys])
  have hinj : Function.Injective
      (fun ym : ℕ × Fin 12 => monthShort ym.2 ++ " " ++ toString ym.1) := by
    intro x y hxy
    have h := (monthKey_eq_iff ⟨0, x.1, x.2, 0, 0⟩ ⟨0, y.1, y.2, 0, 0⟩).mp hxy
    exact Prod.ext h.1 h.2
  rw [← List.toFinset_card_of_nodup hnd, ← Finset.card_image_of_injective _ hinj]
  congr 1
  ext k
  simp only [List.mem_toFinset, Finset.mem_image, List.mem_map]
  rw [monthlyData_eq_foldl, mem_keys_foldl_groupStep]
  constructor
  · rintro (h | ⟨e, he, hk⟩)
    · simp [keys] at h
    · exact ⟨(e.date.year, e.date.month), ⟨e, he, rfl⟩, hk⟩
  · rintro ⟨ym, ⟨e, he, hym⟩, hk⟩
    refine Or.inr ⟨e, he, ?_⟩
    rw [← hk, ← hym]
    rfl

theorem budgetAnalysis_of_ne_nil (now : JSDate) (es : List Expense) (hne : es ≠ []) :
    ∃ a, analytics now es = some a ∧ a.totalSpent = totalSpent es ∧
      a.categoryData = categoryData es ∧ a.monthlyData = monthlyData es ∧
      budgetAnalysis now (analytics now es) es = some
        { totalSuggested := a.totalSpent / ((keys a.monthlyData).length : ℚ) * (11 / 10)
          totalCurrent := orZero (getProp a.monthlyData (monthKey now))
          totalPercentage :=
            orZero (getProp a.monthlyData (monthKey now)) /
              (a.totalSpent / ((keys a.monthlyData).length : ℚ) * (11 / 10)) * 100
          categoryBudgets := categoryBudgets now a es
          daysInMonth := daysInMonth now.year now.month
          currentDay := now.day } := by
  refine ⟨_, analytics_of_ne_nil now es hne, rfl, rfl, rfl, ?_⟩
  rw [analytics_of_ne_nil now es hne]
  rfl

/-- C20: for every non-empty expense list the budget report exists, the suggested overall
budget is `(totalSpent / number of distinct months) * 1.1`, and the entries of
`categoryBudgets` are, in the order of `categoryData`, one per category with suggested budget
`(category total / number of distinct months) * 1.1`; the number of distinct months is the
number of keys of `monthlyData`, which is the number of distinct calendar months among the
records. -/
theorem suggested_budgets (now : JSDate) (es : List Expense) (hne : es ≠ []) :
    ∃ a b, analytics now es = some a ∧ budgetAnalysis now (analytics now es) es = some b ∧
      (keys a.monthlyData).length =
        ((es.map (fun e => (e.date.year, e.date.month))).toFinset).card ∧
      0 < (keys a.monthlyData).length ∧
      b.totalSuggested = a.totalSpent / ((keys a.monthlyData).length : ℚ) * (11 / 10) ∧
      b.categoryBudgets.map (fun c => (c.category, c.suggested)) =
        a.categoryData.map (fun entry =>
          (entry.1, entry.2 / ((keys a.monthlyData).length : ℚ) * (11 / 10))) := by
  obtain ⟨a, ha, -, -, hmd, hb⟩ := budgetAnalysis_of_ne_nil now es hne
  refine ⟨a, _, ha, hb, ?_, ?_, rfl, ?_⟩
  · rw [hmd]
    exact length_keys_monthlyData es
  · rw [hmd]
    have h := keys_group_ne_nil (fun e => monthKey e.date) es hne
    rw [← monthlyData_eq_foldl] at h
    exact List.length_pos.mpr h
  · show (categoryBudgets now a es).map (fun c => (c.category, c.suggested)) = _
    simp [categoryBudgets, List.map_map, Function.comp]

/-- Scenario A instance of C20: two distinct months, so the suggested overall budget is
`350 / 2 * 1.1`. -/
theorem suggested_budgets_witness :
    scenarioA ≠ [] ∧
      (∃ a b, analytics mar1 scenarioA = some a ∧
        budgetAnalysis mar1 (analytics mar1 scenarioA) scenarioA = some b ∧
        (keys a.monthlyData).length =
          ((scenarioA.map (fun e => (e.date.year, e.date.month))).toFinset).card ∧
        0 < (keys a.monthlyData).length ∧
        b.totalSuggested = a.totalSpent / ((keys a.monthlyData).length : ℚ) * (11 / 10) ∧
        b.categoryBudgets.map (fun c => (c.category, c.suggested)) =
          a.categoryData.map (fun entry =>
            (entry.1, entry.2 / ((keys a.monthlyData).length : ℚ) * (11 / 10)))) ∧
      totalSpent scenarioA = 350 ∧ (keys (monthlyData scenarioA)).length = 2 :=
  ⟨List.cons_ne_nil _ _, suggested_budgets mar1 scenarioA (List.cons_ne_nil _ _),
    totalSpent_scenarioA, by simp [monthlyData_scenarioA, keys]⟩

/-! ## The budget report -/

theorem getProp_of_mem_nodup (o : Obj) (k : String) (v : ℚ) (hnd : (keys o).Nodup)
    (hmem : (k, v) ∈ o) : getProp o k = some v := by
  induction o with
  | nil => simp at hmem
  | cons p t ih =>
    obtain ⟨k₀, v₀⟩ := p
    simp only [keys, List.map_cons, List.nodup_cons, List.mem_map, not_exists, not_and] at hnd
    rcases List.mem_cons.mp hmem with h | h
    · rw [Prod.mk.injEq] at h
      simp [getProp, h.1, h.2]
    · have hne : k₀ ≠ k := by
        intro heq
        exact hnd.1 (k, v) h heq.symm
      simp only [getProp, hne, if_false]
      exact ih hnd.2 h

/-- An entry of `categoryData` holds the sum of the amounts of its category, and some record
has that category. -/
theorem entry_categoryData (es : List Expense) (c : String) (t : ℚ)
    (hmem : (c, t) ∈ categoryData es) :
    t = ((es.filter (fun e => decide (e.category = c))).map Expense.amount).sum ∧
      ∃ e ∈ es, e.category = c := by
  have hnd : (keys (categoryData es)).Nodup := by
    rw [categoryData_eq_foldl]
    exact nodup_keys_foldl_groupStep _ es [] (by simp [keys])
  have hk : c ∈ keys (es.foldl (groupStep Expense.category) []) := by
    rw [← categoryData_eq_foldl]
    exact List.mem_map.mpr ⟨(c, t), hmem, rfl⟩
  have h₁ := getProp_of_mem_nodup _ c t hnd hmem
  have h₂ := getProp_group_eq_some Expense.category es c hk
  rw [← categoryData_eq_foldl, h₁] at h₂
  refine ⟨Option.some.inj h₂, ?_⟩
  rcases (mem_keys_foldl_groupStep Expense.category es [] c).mp hk with h | h
  · simp [keys] at h
  · exact h

theorem currentCategorySpending_eq (cur : String) (es : List Expense) (c : String) :
    currentCategorySpending cur es c =
      ((es.filter (fun e => decide (e.category = c) && decide (monthKey e.date = cur))).map
        Expense.amount).sum := by
  simp [currentCategorySpending, foldl_add_eq_sum]

theorem sum_filter_nonneg (es : List Expense) (p : Expense → Bool)
    (hpos : ∀ e ∈ es, 0 ≤ e.amount) : 0 ≤ ((es.filter p).map Expense.amount).sum := by
  apply List.sum_nonneg
  intro x hx
  obtain ⟨e, he, rfl⟩ := List.mem_map.mp hx
  exact hpos e (List.mem_of_mem_filter he)

theorem sum_filter_and_le (es : List Expense) (p q : Expense → Bool)
    (hpos : ∀ e ∈ es, 0 ≤ e.amount) :
    ((es.filter (fun e => p e && q e)).map Expense.amount).sum ≤
      ((es.filter p).map Expense.amount).sum := by
  induction es with
  | nil => simp
  | cons e t ih =>
    have ht : ∀ x ∈ t, 0 ≤ x.amount := fun x hx => hpos x (List.mem_cons_of_mem _ hx)
    have he : 0 ≤ e.amount := hpos e (List.mem_cons_self _ _)
    have := ih ht
    by_cases hp : p e <;> by_cases hq : q e <;> simp [List.filter_cons, hp, hq] <;> linarith

/-- The shape of an entry of `categoryBudgets`. -/
theorem mem_categoryBudgets (now : JSDate) (a : Analytics) (es : List Expense)
    (c : CategoryBudget) (hc : c ∈ categoryBudgets now a es) :
    ∃ entry ∈ a.categoryData,
      c.category = entry.1 ∧
      c.suggested = entry.2 / ((keys a.monthlyData).length : ℚ) * (11 / 10) ∧
      c.current = currentCategorySpending (monthKey now) es entry.1 ∧
      c.percentage = c.current / c.suggested * 100 ∧
      c.status =
        (if c.current > c.suggested then "over"
        else if c.current > c.suggested * (4 / 5) then "warning"
        else "good") := by
  simp only [categoryBudgets, List.mem_map] at hc
  obtain ⟨entry, hentry, rfl⟩ := hc
  exact ⟨entry, hentry, rfl, rfl, rfl, rfl, rfl⟩

/-- The status conditional against the usage percentage, for a budget that is not negative and
is 0 only when nothing was spent. -/
theorem status_by_percentage (cur s : ℚ) (hs : 0 ≤ s) (h0 : s = 0 → cur = 0) :
    ((if cur > s then "over" else if cur > s * (4 / 5) then "warning" else "good") = "over" ↔
        cur / s * 100 > 100) ∧
      ((if cur > s then "over" else if cur > s * (4 / 5) then "warning" else "good") =
          "warning" ↔ 80 < cur / s * 100 ∧ cur / s * 100 ≤ 100) ∧
      ((if cur > s then "over" else if cur > s * (4 / 5) then "warning" else "good") = "good" ↔
        ¬ cur / s * 100 > 100 ∧ ¬ (80 < cur / s * 100 ∧ cur / s * 100 ≤ 100)) := by
  rcases eq_or_lt_of_le hs with hz | hpos
  · have hs0 : s = 0 := hz.symm
    have hc0 : cur = 0 := h0 hs0
    subst hs0
    subst hc0
    norm_num
    exact ⟨by decide, by decide⟩
  · have hover : cur > s ↔ cur / s * 100 > 100 := by
      rw [gt_iff_lt, gt_iff_lt, div_mul_eq_mul_div, lt_div_iff₀ hpos]
      constructor <;> intro h <;> linarith
    have hwarn : cur > s * (4 / 5) ↔ 80 < cur / s * 100 := by
      rw [gt_iff_lt, div_mul_eq_mul_div, lt_div_iff₀ hpos]
      constructor <;> intro h <;> linarith
    by_cases h₁ : cur > s
    · have h₁' := hover.mp h₁
      have h₂ : ¬ cur / s * 100 ≤ 100 := by linarith
      simp [h₁, h₁', h₂]
    · have h₁' : ¬ cur / s * 100 > 100 := fun h => h₁ (hover.mpr h)
      have h₃ : cur / s * 100 ≤ 100 := by linarith
      by_cases h₂ : cur > s * (4 / 5)
      · have h₂' := hwarn.mp h₂
        simp [h₁, h₂, h₁', h₂', h₃]
      · have h₂' : ¬ 80 < cur / s * 100 := fun h => h₂ (hwarn.mpr h)
        simp [h₁, h₂, h₁', h₂']

/-- C21 (amended): with amounts and arithmetic taken as exact numbers, for every non-empty
expense list with non-negative amounts the budget report exists, and for every entry of
`categoryBudgets`, with its usage percentage `current / suggested * 100`: the status is `over` exactly when the percentage exceeds 100,
`warning` exactly when the percentage is above 80 and at most 100, and `good` exactly when
neither holds; a category whose current spend exceeds its suggested budget has status `over`.
The suggested budget is never negative, and where it is 0 the current spend is 0 as well (the
status is then `good`). -/
theorem status_thresholds (now : JSDate) (es : List Expense) (hne : es ≠ [])
    (hpos : ∀ e ∈ es, 0 ≤ e.amount) :
    ∃ b, budgetAnalysis now (analytics now es) es = some b ∧
      ∀ c ∈ b.categoryBudgets,
        c.percentage = c.current / c.suggested * 100 ∧
        0 ≤ c.suggested ∧ (c.suggested = 0 → c.current = 0) ∧
        (c.status = "over" ↔ c.percentage > 100) ∧
        (c.status = "warning" ↔ 80 < c.percentage ∧ c.percentage ≤ 100) ∧
        (c.status = "good" ↔
          ¬ c.percentage > 100 ∧ ¬ (80 < c.percentage ∧ c.percentage ≤ 100)) ∧
        (c.current > c.suggested → c.status = "over") := by
  obtain ⟨a, -, -, hcd, hmd, hb⟩ := budgetAnalysis_of_ne_nil now es hne
  refine ⟨_, hb, ?_⟩
  intro c hc
  obtain ⟨entry, hentry, -, hsug, hcur, hpct, hstatus⟩ := mem_categoryBudgets now a es c hc
  rw [hcd] at hentry
  obtain ⟨ht, -⟩ := entry_categoryData es entry.1 entry.2 hentry
  have hn : (0 : ℚ) < ((keys a.monthlyData).length : ℚ) := by
    have h := keys_group_ne_nil (fun e => monthKey e.date) es hne
    rw [← monthlyData_eq_foldl, ← hmd] at h
    exact_mod_cast List.length_pos.mpr h
  have htnn : 0 ≤ entry.2 := by
    rw [ht]
    exact sum_filter_nonneg es _ hpos
  have hcurnn : 0 ≤ c.current := by
    rw [hcur, currentCategorySpending_eq]
    exact sum_filter_nonneg es _ hpos
  have hcurle : c.current ≤ entry.2 := by
    rw [hcur, currentCategorySpending_eq, ht]
    exact sum_filter_and_le es _ _ hpos
  have hsnn : 0 ≤ c.suggested := by
    rw [hsug]
    positivity
  have hzero : c.suggested = 0 → c.current = 0 := by
    intro h
    rw [hsug] at h
    have h' : entry.2 = 0 := by
      rcases mul_eq_zero.mp h with h | h
      · rcases div_eq_zero_iff.mp h with h | h
        · exact h
        · exact absurd h (ne_of_gt hn)
      · norm_num at h
    linarith
  obtain ⟨h₁, h₂, h₃⟩ := status_by_percentage c.current c.suggested hsnn hzero
  rw [← hstatus, ← hpct] at h₁ h₂ h₃
  refine ⟨hpct, hsnn, hzero, h₁, h₂, h₃, ?_⟩
  intro h
  rw [hstatus]
  simp [h]

/-- Scenario A evaluated on 2024-03-01, an instance of C21 (amended). -/
theorem status_thresholds_witness :
    scenarioA ≠ [] ∧ (∀ e ∈ scenarioA, 0 ≤ e.amount) ∧
      ∃ b, budgetAnalysis mar1 (analytics mar1 scenarioA) scenarioA = some b ∧
        ∀ c ∈ b.categoryBudgets,
          c.percentage = c.current / c.suggested * 100 ∧
          0 ≤ c.suggested ∧ (c.suggested = 0 → c.current = 0) ∧
          (c.status = "over" ↔ c.percentage > 100) ∧
          (c.status = "warning" ↔ 80 < c.percentage ∧ c.percentage ≤ 100) ∧
          (c.status = "good" ↔
            ¬ c.percentage > 100 ∧ ¬ (80 < c.percentage ∧ c.percentage ≤ 100)) ∧
          (c.current > c.suggested → c.status = "over") :=
  ⟨List.cons_ne_nil _ _, by simp [scenarioA],
    status_thresholds mar1 scenarioA (List.cons_ne_nil _ _) (by simp [scenarioA])⟩

theorem categoryBudgets_eightyPercent :
    ∃ b, budgetAnalysis may15 (analytics may15 eightyPercent) eightyPercent = some b ∧
      b.categoryBudgets =
        [{ category := "Food", suggested := 55, current := 44, percentage := 80,
           status := "good" }] := by
  obtain ⟨a, -, -, hcd, hmd, hb⟩ :=
    budgetAnalysis_of_ne_nil may15 eightyPercent (List.cons_ne_nil _ _)
  refine ⟨_, hb, ?_⟩
  have hc : categoryData eightyPercent = [("Food", 100)] := by
    simp [categoryData, eightyPercent, setProp, getProp, orZero]
    norm_num
  have hm : monthlyData eightyPercent = [("Apr 2024", 56), ("May 2024", 44)] := by
    simp [monthlyData, eightyPercent, setProp, getProp, orZero, monthKey_apr10, monthKey_may15]
  have hcur : currentCategorySpending "May 2024" eightyPercent "Food" = 44 := by
    simp [currentCategorySpending, eightyPercent, List.filter, monthKey_apr10, monthKey_may15]
  show categoryBudgets may15 a eightyPercent = _
  simp only [categoryBudgets, hcd, hmd, hc, hm, keys, monthKey_may15, hcur, List.map_cons,
    List.map_nil, List.length_cons, List.length_nil]
  norm_num

/-- C22 (amended): for every entry of `categoryBudgets` whose current spend is exactly 80% of
its positive suggested budget, the usage percentage is 80 and the status is `good`: the test
`current > suggested * 0.8` is strict. -/
theorem status_at_eighty_percent (now : JSDate) (es : List Expense) (hne : es ≠ []) :
    ∃ b, budgetAnalysis now (analytics now es) es = some b ∧
      ∀ c ∈ b.categoryBudgets, 0 < c.suggested → c.current = c.suggested * (4 / 5) →
        c.percentage = 80 ∧ c.status = "good" := by
  obtain ⟨a, -, -, -, -, hb⟩ := budgetAnalysis_of_ne_nil now es hne
  refine ⟨_, hb, ?_⟩
  intro c hc hs hcur
  obtain ⟨entry, -, -, -, -, hpct, hstatus⟩ := mem_categoryBudgets now a es c hc
  constructor
  · rw [hpct, hcur]
    field_simp
    ring
  · rw [hstatus, hcur]
    have h₁ : ¬ c.suggested * (4 / 5) > c.suggested := by linarith
    simp [h₁]

/-- An instance of C22 (amended): 56 spent on Food in April and 44 in May 2024, evaluated in
May; the only entry has suggested budget 55, current spend 44, percentage 80 and status
`good`. -/
theorem status_at_eighty_percent_witness :
    eightyPercent ≠ [] ∧
      (∃ b, budgetAnalysis may15 (analytics may15 eightyPercent) eightyPercent = some b ∧
        ∀ c ∈ b.categoryBudgets, 0 < c.suggested → c.current = c.suggested * (4 / 5) →
          c.percentage = 80 ∧ c.status = "good") ∧
      (0 : ℚ) < 55 ∧ (44 : ℚ) = 55 * (4 / 5) :=
  ⟨List.cons_ne_nil _ _, status_at_eighty_percent may15 eightyPercent (List.cons_ne_nil _ _),
    by norm_num, by norm_num⟩

/-- C22 fails as stated: with 56 spent on Food in April and 44 in May 2024, evaluated in May,
the suggested Food budget is 55 and the current spend 44 is exactly 80% of it, yet the status
is `good`, not `warning`. -/
theorem status_eightyPercent_good :
    ∃ b, budgetAnalysis may15 (analytics may15 eightyPercent) eightyPercent = some b ∧
      ∃ c ∈ b.categoryBudgets, 0 < c.suggested ∧ c.current = c.suggested * (4 / 5) ∧
        c.status = "good" ∧ c.status ≠ "warning" := by
  obtain ⟨b, hb, hcb⟩ := categoryBudgets_eightyPercent
  refine ⟨b, hb, _, by rw [hcb]; exact List.mem_singleton_self _, ?_, ?_, rfl, by decide⟩
  · norm_num
  · norm_num

/-! ## Sums over the budget entries -/

theorem sum_map_suggested (o : Obj) (n : ℚ) :
    (o.map (fun entry => entry.2 / n * (11 / 10))).sum = (vals o).sum / n * (11 / 10) := by
  induction o with
  | nil => simp [vals]
  | cons e rest ih =>
    simp only [vals] at ih
    simp only [List.map_cons, List.sum_cons, ih, vals]
    ring

/-- C27 (amended): with amounts and arithmetic taken as exact numbers, for every non-empty
expense list the sum of the suggested budgets over all entries of `categoryBudgets` equals the
suggested overall budget `totalSuggested`. -/
theorem suggested_sum (now : JSDate) (es : List Expense) (hne : es ≠ []) :
    ∃ b, budgetAnalysis now (analytics now es) es = some b ∧
      (b.categoryBudgets.map CategoryBudget.suggested).sum = b.totalSuggested := by
  obtain ⟨a, -, hts, hcd, -, hb⟩ := budgetAnalysis_of_ne_nil now es hne
  refine ⟨_, hb, ?_⟩
  show ((categoryBudgets now a es).map CategoryBudget.suggested).sum =
    a.totalSpent / ((keys a.monthlyData).length : ℚ) * (11 / 10)
  have h : (categoryBudgets now a es).map CategoryBudget.suggested =
      a.categoryData.map (fun entry => entry.2 / ((keys a.monthlyData).length : ℚ) * (11 / 10)) := by
    simp [categoryBudgets, List.map_map, Function.comp]
  rw [h, sum_map_suggested, hcd, sum_vals_categoryData, hts]

/-- Scenario A instance of C27 (amended), evaluated on 2024-03-01. -/
theorem suggested_sum_witness :
    scenarioA ≠ [] ∧
      ∃ b, budgetAnalysis mar1 (analytics mar1 scenarioA) scenarioA = some b ∧
        (b.categoryBudgets.map CategoryBudget.suggested).sum = b.totalSuggested :=
  ⟨List.cons_ne_nil _ _, suggested_sum mar1 scenarioA (List.cons_ne_nil _ _)⟩

theorem sum_map_ite_eq_of_mem (ks : List String) (x : String) (c : ℚ) (hnd : ks.Nodup)
    (hx : x ∈ ks) : (ks.map (fun k => if x = k then c else 0)).sum = c := by
  induction ks with
  | nil => simp at hx
  | cons k t ih =>
    rw [List.nodup_cons] at hnd
    by_cases h : x = k
    · subst h
      have hzero : ∀ k' ∈ t, (if x = k' then c else 0) = 0 := by
        intro k' hk'
        have : x ≠ k' := fun heq => hnd.1 (heq ▸ hk')
        simp [this]
      simp [List.map_congr_left hzero]
    · have hx' : x ∈ t := by
        rcases List.mem_cons.mp hx with h' | h'
        · exact absurd h' h
        · exact h'
      simp [h, ih hnd.2 hx']

/-- Splitting a filtered sum by key: summing, over a duplicate-free list of keys that covers
the records, the amounts of the records with that key that pass `q` gives the amounts of all
records that pass `q`. -/
theorem sum_over_keys (key : Expense → String) (q : Expense → Bool) (ks : List String)
    (hnd : ks.Nodup) (es : List Expense) (hcover : ∀ e ∈ es, key e ∈ ks) :
    (ks.map (fun k =>
      ((es.filter (fun e => decide (key e = k) && q e)).map Expense.amount).sum)).sum =
      ((es.filter q).map Expense.amount).sum := by
  induction es with
  | nil => simp
  | cons e t ih =>
    have ht : ∀ x ∈ t, key x ∈ ks := fun x hx => hcover x (List.mem_cons_of_mem _ hx)
    have he : key e ∈ ks := hcover e (List.mem_cons_self _ _)
    have hsplit : ∀ k ∈ ks,
        ((List.filter (fun e => decide (key e = k) && q e) (e :: t)).map Expense.amount).sum =
          (if key e = k then (if q e = true then e.amount else 0) else 0) +
            ((t.filter (fun e => decide (key e = k) && q e)).map Expense.amount).sum := by
      intro k _
      by_cases h₁ : key e = k <;> by_cases h₂ : q e = true <;>
        simp [List.filter_cons, h₁, h₂]
    rw [List.map_congr_left hsplit, List.sum_map_add, ih ht,
      sum_map_ite_eq_of_mem ks (key e) _ hnd he]
    by_cases h₂ : q e = true <;> simp [List.filter_cons, h₂]

/-- C28 (amended): with amounts and arithmetic taken as exact numbers, for every non-empty
expense list and every evaluation instant the sum of the current-month spend `current` over
all entries of `categoryBudgets` equals `totalCurrent`,
which is the sum of the amounts of the records dated in the evaluation month, and so is 0
when no record falls in the evaluation month. -/
theorem current_sum (now : JSDate) (es : List Expense) (hne : es ≠ []) :
    ∃ b, budgetAnalysis now (analytics now es) es = some b ∧
      (b.categoryBudgets.map CategoryBudget.current).sum = b.totalCurrent ∧
      b.totalCurrent =
        ((es.filter (fun e =>
          decide (e.date.year = now.year ∧ e.date.month = now.month))).map
            Expense.amount).sum ∧
      ((∀ e ∈ es, ¬ (e.date.year = now.year ∧ e.date.month = now.month)) →
        b.totalCurrent = 0) := by
  obtain ⟨a, -, -, hcd, hmd, hb⟩ := budgetAnalysis_of_ne_nil now es hne
  have hfilter : es.filter (fun e => decide (monthKey e.date = monthKey now)) =
      es.filter (fun e => decide (e.date.year = now.year ∧ e.date.month = now.month)) :=
    List.filter_congr (fun x _ => decide_eq_decide.mpr (monthKey_eq_iff x.date now))
  have htotal : orZero (getProp a.monthlyData (monthKey now)) =
      ((es.filter (fun e =>
        decide (e.date.year = now.year ∧ e.date.month = now.month))).map
          Expense.amount).sum := by
    rw [hmd, monthlyData_eq_foldl, orZero_eq,
      getProp_foldl_groupStep (fun e => monthKey e.date) es [] (monthKey now), ← hfilter]
    simp [getProp]
  have hsum : ((categoryBudgets now a es).map CategoryBudget.current).sum =
      ((es.filter (fun e =>
        decide (e.date.year = now.year ∧ e.date.month = now.month))).map
          Expense.amount).sum := by
    have hmap : (categoryBudgets now a es).map CategoryBudget.current =
        (keys (categoryData es)).map (fun k =>
          ((es.filter (fun e => decide (e.category = k) &&
            decide (monthKey e.date = monthKey now))).map Expense.amount).sum) := by
      simp [categoryBudgets, hcd, keys, List.map_map, Function.comp,
        currentCategorySpending_eq]
    have hnd : (keys (categoryData es)).Nodup := by
      rw [categoryData_eq_foldl]
      exact nodup_keys_foldl_groupStep _ es [] (by simp [keys])
    have hcover : ∀ e ∈ es, e.category ∈ keys (categoryData es) := by
      intro e he
      rw [categoryData_eq_foldl]
      exact (mem_keys_foldl_groupStep Expense.category es [] _).mpr (Or.inr ⟨e, he, rfl⟩)
    rw [hmap, sum_over_keys Expense.category
      (fun e => decide (monthKey e.date = monthKey now)) _ hnd es hcover, hfilter]
  refine ⟨_, hb, ?_, htotal, ?_⟩
  · show ((categoryBudgets now a es).map CategoryBudget.current).sum =
      orZero (getProp a.monthlyData (monthKey now))
    rw [hsum, htotal]
  · intro hnone
    show orZero (getProp a.monthlyData (monthKey now)) = 0
    rw [htotal]
    have : es.filter (fun e =>
        decide (e.date.year = now.year ∧ e.date.month = now.month)) = [] := by
      rw [List.filter_eq_nil_iff]
      intro e he
      simpa using hnone e he
    rw [this]
    rfl

/-- Scenario A instance of C28 (amended), evaluated on 2024-03-01, a month without records. -/
theorem current_sum_witness :
    scenarioA ≠ [] ∧
      ∃ b, budgetAnalysis mar1 (analytics mar1 scenarioA) scenarioA = some b ∧
        (b.categoryBudgets.map CategoryBudget.current).sum = b.totalCurrent ∧
        b.totalCurrent =
          ((scenarioA.filter (fun e =>
            decide (e.date.year = mar1.year ∧ e.date.month = mar1.month))).map
              Expense.amount).sum ∧
        ((∀ e ∈ scenarioA, ¬ (e.date.year = mar1.year ∧ e.date.month = mar1.month)) →
          b.totalCurrent = 0) :=
  ⟨List.cons_ne_nil _ _, current_sum mar1 scenarioA (List.cons_ne_nil _ _)⟩

/-- C29: for every non-empty expense list with positive amounts whose records all fall in the
evaluation month, every category's usage percentage is `100 / 1.1`, every category's status is
`warning` (neither `good` nor `over`), and the overall usage percentage is `100 / 1.1` as
well. -/
theorem one_month_budget_usage (now : JSDate) (es : List Expense) (hne : es ≠ [])
    (hpos : ∀ e ∈ es, 0 < e.amount)
    (hmonth : ∀ e ∈ es, e.date.year = now.year ∧ e.date.month = now.month) :
    ∃ b, budgetAnalysis now (analytics now es) es = some b ∧
      b.totalPercentage = 100 / (11 / 10) ∧
      ∀ c ∈ b.categoryBudgets,
        c.percentage = 100 / (11 / 10) ∧ c.status = "warning" ∧
          c.status ≠ "good" ∧ c.status ≠ "over" := by
  obtain ⟨a, -, hts, hcd, hmd, hb⟩ := budgetAnalysis_of_ne_nil now es hne
  have hk : ∀ e ∈ es, (fun e : Expense => monthKey e.date) e = monthKey now := by
    intro e he
    exact (monthKey_eq_iff e.date now).mpr (hmonth e he)
  have hmd' : a.monthlyData = [(monthKey now, totalSpent es)] := by
    rw [hmd, monthlyData_eq_foldl, group_single_key _ _ es hne hk, totalSpent_eq_sum]
  have hn : ((keys a.monthlyData).length : ℚ) = 1 := by
    simp [hmd', keys]
  have htotal : 0 < totalSpent es := by
    rw [totalSpent_eq_sum]
    apply List.sum_pos
    · intro x hx
      obtain ⟨e, he, rfl⟩ := List.mem_map.mp hx
      exact hpos e he
    · simpa using hne
  refine ⟨_, hb, ?_, ?_⟩
  · show orZero (getProp a.monthlyData (monthKey now)) /
      (a.totalSpent / ((keys a.monthlyData).length : ℚ) * (11 / 10)) * 100 = _
    rw [hn, hts]
    have hcurrent : orZero (getProp a.monthlyData (monthKey now)) = totalSpent es := by
      simp [hmd', getProp, orZero_eq]
    rw [hcurrent]
    field_simp
    ring
  · intro c hc
    obtain ⟨entry, hentry, -, hsug, hcur, hpct, hstatus⟩ := mem_categoryBudgets now a es c hc
    rw [hcd] at hentry
    obtain ⟨ht, e₀, he₀, hcat⟩ := entry_categoryData es entry.1 entry.2 hentry
    have hfilter : es.filter (fun e => decide (e.category = entry.1) &&
        decide (monthKey e.date = monthKey now)) =
        es.filter (fun e => decide (e.category = entry.1)) := by
      apply List.filter_congr
      intro x hx
      simp [hk x hx]
    have hcur' : c.current = entry.2 := by
      rw [hcur, currentCategorySpending_eq, hfilter, ht]
    have htpos : 0 < entry.2 := by
      rw [ht]
      apply List.sum_pos
      · intro x hx
        obtain ⟨e, he, rfl⟩ := List.mem_map.mp hx
        exact hpos e (List.mem_of_mem_filter he)
      · intro hnil
        have hmem : e₀ ∈ es.filter (fun e => decide (e.category = entry.1)) :=
          List.mem_filter.mpr ⟨he₀, by simp [hcat]⟩
        have : e₀.amount ∈ (es.filter (fun e => decide (e.category = entry.1))).map
            Expense.amount := List.mem_map.mpr ⟨e₀, hmem, rfl⟩
        rw [hnil] at this
        simp at this
    have hsug' : c.suggested = entry.2 * (11 / 10) := by
      rw [hsug, hn, div_one]
    have hst : c.status = "warning" := by
      rw [hstatus, hcur', hsug']
      have h₁ : ¬ entry.2 > entry.2 * (11 / 10) := by linarith
      have h₂ : entry.2 > entry.2 * (11 / 10) * (4 / 5) := by linarith
      simp [h₁, h₂]
    refine ⟨?_, hst, ?_, ?_⟩
    · rw [hpct, hcur', hsug']
      field_simp
      ring
    · rw [hst]
      decide
    · rw [hst]
      decide

/-- Scenario B instance of C29: a single expense of 75 dated in the evaluation month. -/
theorem one_month_budget_usage_witness :
    scenarioB ≠ [] ∧ (∀ e ∈ scenarioB, 0 < e.amount) ∧
      (∀ e ∈ scenarioB, e.date.year = mar1.year ∧ e.date.month = mar1.month) ∧
      ∃ b, budgetAnalysis mar1 (analytics mar1 scenarioB) scenarioB = some b ∧
        b.totalPercentage = 100 / (11 / 10) ∧
        ∀ c ∈ b.categoryBudgets,
          c.percentage = 100 / (11 / 10) ∧ c.status = "warning" ∧
            c.status ≠ "good" ∧ c.status ≠ "over" :=
  ⟨List.cons_ne_nil _ _, by simp [scenarioB], by simp [scenarioB],
    one_month_budget_usage mar1 scenarioB (List.cons_ne_nil _ _) (by simp [scenarioB])
      (by simp [scenarioB])⟩

/-! ## Presence of the three results -/

/-- C24: for every non-empty expense list the aggregate, the forecast and the budget report
are all present and `monthlyData` has at least one key; for every expense list `prediction`
is `null` only when `analytics` is `null`, and on no tab does `renderTabContent` return the
`Need More Data` block. -/
theorem results_present (now : JSDate) (sqrt : ℚ → ℚ) (es : List Expense) (hne : es ≠ []) :
    (∃ a p b, analytics now es = some a ∧ prediction now sqrt (analytics now es) = some p ∧
      budgetAnalysis now (analytics now es) es = some b ∧
      1 ≤ (keys a.monthlyData).length) ∧
    ∀ es' : List Expense,
      (prediction now sqrt (analytics now es') = none ↔ analytics now es' = none) ∧
      ∀ activeTab : String,
        renderTabContent activeTab (analytics now es')
          (prediction now sqrt (analytics now es'))
          (budgetAnalysis now (analytics now es') es') ≠ some View.needMoreData := by
  constructor
  · obtain ⟨p, hp, -⟩ := prediction_seasonalFactor now sqrt es hne
    obtain ⟨a, ha, -, -, hmd, hb⟩ := budgetAnalysis_of_ne_nil now es hne
    refine ⟨a, p, _, ha, hp, hb, ?_⟩
    rw [hmd]
    have h := keys_group_ne_nil (fun e => monthKey e.date) es hne
    rw [← monthlyData_eq_foldl] at h
    exact List.length_pos.mpr h
  · intro es'
    by_cases h : es' = []
    · subst h
      refine ⟨by simp [analytics, prediction], ?_⟩
      intro activeTab
      simp [analytics, renderTabContent]
    · obtain ⟨p, hp, -⟩ := prediction_seasonalFactor now sqrt es' h
      obtain ⟨a, ha, -, -, -, hb⟩ := budgetAnalysis_of_ne_nil now es' h
      constructor
      · constructor
        · intro h'
          rw [hp] at h'
          cases h'
        · intro h'
          rw [ha] at h'
          cases h'
      · intro activeTab
        rw [hp, hb, ha]
        simp only [renderTabContent]
        split_ifs <;> simp

/-- Scenario A instance of C24, evaluated on 2024-03-01. -/
theorem results_present_witness :
    scenarioA ≠ [] ∧
      (∃ a p b, analytics mar1 scenarioA = some a ∧
        prediction mar1 Rat.sqrt (analytics mar1 scenarioA) = some p ∧
        budgetAnalysis mar1 (analytics mar1 scenarioA) scenarioA = some b ∧
        1 ≤ (keys a.monthlyData).length) ∧
      ∀ es' : List Expense,
        (prediction mar1 Rat.sqrt (analytics mar1 es') = none ↔ analytics mar1 es' = none) ∧
        ∀ activeTab : String,
          renderTabContent activeTab (analytics mar1 es')
            (prediction mar1 Rat.sqrt (analytics mar1 es'))
            (budgetAnalysis mar1 (analytics mar1 es') es') ≠ some View.needMoreData :=
  ⟨List.cons_ne_nil _ _, results_present mar1 Rat.sqrt scenarioA (List.cons_ne_nil _ _)⟩

/-! ## Divisors -/

/-- C25 (amended): for every non-empty expense list the month count dividing in the budget
analyzer is at least 1, `recentValues` is not empty, and outside the single-month branch
`n ≥ 2` and the regression denominator `n * sumX2 - sumX * sumX` equals `n² (n² - 1) / 12` and
is strictly positive.  The remaining divisors are not always non-zero: the suggested overall
budget is 0 exactly when `totalSpent`, the divisor of the category shares, is 0. -/
theorem divisors_nonzero (now : JSDate) (es : List Expense) (hne : es ≠ []) :
    ∃ a b, analytics now es = some a ∧ budgetAnalysis now (analytics now es) es = some b ∧
      1 ≤ (keys a.monthlyData).length ∧
      1 ≤ (recentValues (values a)).length ∧
      ((values a).length ≠ 1 →
        2 ≤ (values a).length ∧
        ((values a).length : ℚ) * sumX2 (values a) - sumX (values a) * sumX (values a) =
          ((values a).length : ℚ) ^ 2 * (((values a).length : ℚ) ^ 2 - 1) / 12 ∧
        0 < ((values a).length : ℚ) * sumX2 (values a) - sumX (values a) * sumX (values a)) ∧
      (b.totalSuggested = 0 ↔ a.totalSpent = 0) := by
  obtain ⟨a, ha, -, -, hmd, hb⟩ := budgetAnalysis_of_ne_nil now es hne
  have hk : 1 ≤ (keys a.monthlyData).length := by
    rw [hmd]
    have h := keys_group_ne_nil (fun e => monthKey e.date) es hne
    rw [← monthlyData_eq_foldl] at h
    exact List.length_pos.mpr h
  have hlen := length_values a
  refine ⟨a, _, ha, hb, hk, ?_, ?_, ?_⟩
  · rw [length_recentValues]
    omega
  · intro h1
    have h2 : 2 ≤ (values a).length := by omega
    exact ⟨h2, regression_denominator _, regression_denominator_pos _ h2⟩
  · show a.totalSpent / ((keys a.monthlyData).length : ℚ) * (11 / 10) = 0 ↔ _
    have hn : ((keys a.monthlyData).length : ℚ) ≠ 0 := by
      have : (1 : ℚ) ≤ ((keys a.monthlyData).length : ℚ) := by exact_mod_cast hk
      linarith
    constructor
    · intro h
      rcases mul_eq_zero.mp h with h | h
      · rcases div_eq_zero_iff.mp h with h | h
        · exact h
        · exact absurd h hn
      · norm_num at h
    · intro h
      rw [h]
      simp

/-- Scenario A instance of C25 (amended), evaluated on 2024-03-01. -/
theorem divisors_nonzero_witness :
    scenarioA ≠ [] ∧
      ∃ a b, analytics mar1 scenarioA = some a ∧
        budgetAnalysis mar1 (analytics mar1 scenarioA) scenarioA = some b ∧
        1 ≤ (keys a.monthlyData).length ∧
        1 ≤ (recentValues (values a)).length ∧
        ((values a).length ≠ 1 →
          2 ≤ (values a).length ∧
          ((values a).length : ℚ) * sumX2 (values a) - sumX (values a) * sumX (values a) =
            ((values a).length : ℚ) ^ 2 * (((values a).length : ℚ) ^ 2 - 1) / 12 ∧
          0 < ((values a).length : ℚ) * sumX2 (values a) -
            sumX (values a) * sumX (values a)) ∧
        (b.totalSuggested = 0 ↔ a.totalSpent = 0) :=
  ⟨List.cons_ne_nil _ _, divisors_nonzero mar1 scenarioA (List.cons_ne_nil _ _)⟩

/-- C25 fails as stated: for the non-empty list holding one record of amount 0, `totalSpent`
(the divisor in `amount / analytics.totalSpent`), the suggested overall budget (the divisor
of `totalPercentage`) and the suggested budget of the only category (the divisor of its
`percentage`) are all 0. -/
theorem divisors_zeroOnly :
    zeroOnly ≠ [] ∧
      ∃ a b, analytics mar1 zeroOnly = some a ∧
        budgetAnalysis mar1 (analytics mar1 zeroOnly) zeroOnly = some b ∧
        a.totalSpent = 0 ∧ b.totalSuggested = 0 ∧
        (b.categoryBudgets.map CategoryBudget.suggested) = [0] := by
  obtain ⟨a, ha, hts, hcd, hmd, hb⟩ :=
    budgetAnalysis_of_ne_nil mar1 zeroOnly (List.cons_ne_nil _ _)
  have ht : totalSpent zeroOnly = 0 := by simp [totalSpent, zeroOnly]
  have hc : categoryData zeroOnly = [("Food", 0)] := by
    simp [categoryData, zeroOnly, setProp, getProp, orZero]
  refine ⟨List.cons_ne_nil _ _, a, _, ha, hb, by rw [hts, ht], ?_, ?_⟩
  · show a.totalSpent / ((keys a.monthlyData).length : ℚ) * (11 / 10) = 0
    rw [hts, ht]
    simp
  · show (categoryBudgets mar1 a zeroOnly).map CategoryBudget.suggested = [0]
    simp [categoryBudgets, hcd, hc]

/-! ## Two months of data -/

theorem meanSquaredResidual_two (v₀ v₁ : ℚ) : meanSquaredResidual [v₀, v₁] = 0 := by
  simp [meanSquaredResidual, squaredError, slope_two, intercept_two, Finset.sum_range_succ]

/-- C26: for every expense list with exactly two months, with totals `v₀` then `v₁` in the
forecaster's order, `slope = v₁ - v₀`, `intercept = v₀`, the extrapolation
`slope * n + intercept` is `2 * v₁ - v₀`, the mean squared residual is 0 and, the square root
of 0 being 0, the confidence is exactly 95. -/
theorem two_month_fit (now : JSDate) (sqrt : ℚ → ℚ) (es : List Expense)
    (hm : (keys (monthlyData es)).length = 2) (hsqrt : sqrt 0 = 0) :
    ∃ a p v₀ v₁, analytics now es = some a ∧
      prediction now sqrt (analytics now es) = some p ∧
      values a = [v₀, v₁] ∧
      slope (values a) = v₁ - v₀ ∧ intercept (values a) = v₀ ∧
      slope (values a) * ((values a).length : ℚ) + intercept (values a) = 2 * v₁ - v₀ ∧
      meanSquaredResidual (values a) = 0 ∧ p.confidence = 95 := by
  obtain ⟨a, ha, hmd, -, -, -, hp⟩ := multi_month_forecast now sqrt es (by omega)
  have hlen : (values a).length = 2 := by
    rw [length_values, hmd, hm]
  obtain ⟨v₀, v₁, hv⟩ := List.length_eq_two.mp hlen
  refine ⟨a, _, v₀, v₁, ha, hp, hv, ?_, ?_, ?_, ?_, ?_⟩
  · rw [hv, slope_two]
  · rw [hv, intercept_two]
  · rw [hv, slope_two, intercept_two]
    simp
    ring
  · rw [hv, meanSquaredResidual_two]
  · show min 95 (max 50 (100 - sqrt (volatility (values a)))) = 95
    rw [volatility_eq_meanSquaredResidual, hv, meanSquaredResidual_two, hsqrt]
    norm_num

theorem ratSqrt_zero : Rat.sqrt 0 = 0 := by
  rw [show (0 : ℚ) = 0 * 0 by norm_num, Rat.sqrt_eq]
  norm_num

/-- An instance of C26: 100 in January and 200 in February 2024. -/
theorem two_month_fit_witness :
    (keys (monthlyData janFeb)).length = 2 ∧ Rat.sqrt 0 = 0 ∧
      ∃ a p v₀ v₁, analytics mar1 janFeb = some a ∧
        prediction mar1 Rat.sqrt (analytics mar1 janFeb) = some p ∧
        values a = [v₀, v₁] ∧
        slope (values a) = v₁ - v₀ ∧ intercept (values a) = v₀ ∧
        slope (values a) * ((values a).length : ℚ) + intercept (values a) = 2 * v₁ - v₀ ∧
        meanSquaredResidual (values a) = 0 ∧ p.confidence = 95 :=
  ⟨by simp [monthlyData_janFeb, keys], ratSqrt_zero,
    two_month_fit mar1 Rat.sqrt janFeb (by simp [monthlyData_janFeb, keys]) ratSqrt_zero⟩

/-! ## Independence of the order of the expense list -/

theorem getProp_group (key : Expense → String) (es : List Expense) (k : String) :
    getProp (es.foldl (groupStep key) []) k =
      if k ∈ es.map key then
        some ((es.filter (fun e => decide (key e = k))).map Expense.amount).sum
      else none := by
  have hmem : k ∈ keys (es.foldl (groupStep key) []) ↔ k ∈ es.map key := by
    simpa [keys] using mem_keys_foldl_groupStep key es [] k
  by_cases h : k ∈ es.map key
  · rw [if_pos h]
    exact getProp_group_eq_some key es k (hmem.mpr h)
  · rw [if_neg h]
    have hnot : ¬ (getProp (es.foldl (groupStep key) []) k).isSome := by
      rw [getProp_isSome_iff]
      exact fun h' => h (hmem.mp h')
    simpa using hnot

theorem getProp_group_perm (key : Expense → String) (es es' : List Expense)
    (hperm : es.Perm es') (k : String) :
    getProp (es.foldl (groupStep key) []) k = getProp (es'.foldl (groupStep key) []) k := by
  rw [getProp_group, getProp_group]
  have hmem : k ∈ es.map key ↔ k ∈ es'.map key := (hperm.map key).mem_iff
  have hsum : ((es.filter (fun e => decide (key e = k))).map Expense.amount).sum =
      ((es'.filter (fun e => decide (key e = k))).map Expense.amount).sum :=
    ((hperm.filter _).map _).sum_eq
  simp only [hmem, hsum]

theorem keys_group_perm (key : Expense → String) (es es' : List Expense)
    (hperm : es.Perm es') :
    (keys (es.foldl (groupStep key) [])).Perm (keys (es'.foldl (groupStep key) [])) := by
  have hnd := nodup_keys_foldl_groupStep key es [] (by simp [keys])
  have hnd' := nodup_keys_foldl_groupStep key es' [] (by simp [keys])
  rw [List.perm_ext_iff_of_nodup hnd hnd']
  intro k
  rw [mem_keys_foldl_groupStep, mem_keys_foldl_groupStep]
  constructor
  · rintro (h | ⟨e, he, hk⟩)
    · exact Or.inl h
    · exact Or.inr ⟨e, hperm.mem_iff.mp he, hk⟩
  · rintro (h | ⟨e, he, hk⟩)
    · exact Or.inl h
    · exact Or.inr ⟨e, hperm.mem_iff.mpr he, hk⟩

theorem sortStrings_perm (xs ys : List String) (hperm : xs.Perm ys) :
    sortStrings xs = sortStrings ys := by
  unfold sortStrings
  apply List.eq_of_perm_of_sorted (r := fun a b : String => a ≤ b)
  · exact ((List.perm_insertionSort _ xs).trans hperm).trans (List.perm_insertionSort _ ys).symm
  · exact List.sorted_insertionSort _ xs
  · exact List.sorted_insertionSort _ ys

/-- The values the forecaster works on do not depend on the order of the expense list. -/
theorem values_perm (a a' : Analytics) (es es' : List Expense) (hperm : es.Perm es')
    (ha : a.monthlyData = monthlyData es) (ha' : a'.monthlyData = monthlyData es') :
    values a = values a' := by
  have hm : months a = months a' := by
    simp only [months, ha, ha', monthlyData_eq_foldl]
    exact sortStrings_perm _ _ (keys_group_perm _ es es' hperm)
  simp only [values, hm, ha, ha', monthlyData_eq_foldl]
  apply List.map_congr_left
  intro k _
  rw [getProp_group_perm (fun e => monthKey e.date) es es' hperm k]

/-- The `nextMonth`, `trend` and `confidence` of the forecast as functions of `values`. -/
theorem prediction_fields (now : JSDate) (sqrt : ℚ → ℚ) (a : Analytics)
    (hk : 1 ≤ (keys a.monthlyData).length) :
    ∃ p, prediction now sqrt (some a) = some p ∧
      p.nextMonth = max 0 (unflooredPrediction now a) ∧
      p.trend = (if (values a).length = 1 then "stable" else trend (values a)) ∧
      p.confidence =
        (if (values a).length = 1 then 70
        else min 95 (max 50 (100 - sqrt (volatility (values a))))) := by
  have hk' : ¬ (keys a.monthlyData).length < 1 := by omega
  by_cases h1 : (values a).length = 1
  · have hp : prediction now sqrt (some a) = some
        { nextMonth := max 0 ((values a).headD 0 * seasonalMultiplier now.month)
          linear := (values a).headD 0 * seasonalMultiplier now.month
          movingAverage := (values a).headD 0
          trend := "stable"
          confidence := 70
          volatility := 0
          categoryPredictions :=
            categoryPredictions a ((values a).headD 0 * seasonalMultiplier now.month)
          seasonalFactor := seasonalMultiplier now.month } := by
      simp [prediction, hk', h1]
    exact ⟨_, hp, by simp [unflooredPrediction, h1], by simp [h1], by simp [h1]⟩
  · have hp := prediction_multi now sqrt a hk h1
    exact ⟨_, hp, by simp [unflooredPrediction, h1], by simp [h1], by simp [h1]⟩

/-- C30 (amended): with amounts and arithmetic taken as exact numbers, the aggregate totals do
not depend on the order of the expense list: for a non-empty list and any permutation of it, `totalSpent`, `transactionCount` and `avgTransaction` are
equal, `categoryData` and `monthlyData` hold the same total (or none) under every key, and the
forecasts have the same `nextMonth`, `trend` and `confidence`. -/
theorem aggregate_order_independent (now : JSDate) (sqrt : ℚ → ℚ) (es es' : List Expense)
    (hne : es ≠ []) (hperm : es.Perm es') :
    ∃ a a' p p', analytics now es = some a ∧ analytics now es' = some a' ∧
      prediction now sqrt (analytics now es) = some p ∧
      prediction now sqrt (analytics now es') = some p' ∧
      a.totalSpent = a'.totalSpent ∧ a.transactionCount = a'.transactionCount ∧
      a.avgTransaction = a'.avgTransaction ∧
      (∀ k, getProp a.categoryData k = getProp a'.categoryData k) ∧
      (∀ k, getProp a.monthlyData k = getProp a'.monthlyData k) ∧
      p.nextMonth = p'.nextMonth ∧ p.trend = p'.trend ∧ p.confidence = p'.confidence := by
  have hne' : es' ≠ [] := by
    intro h
    rw [h] at hperm
    exact hne hperm.eq_nil
  obtain ⟨a, ha, hts, hcd, hmd, hcount, havg⟩ : ∃ a, analytics now es = some a ∧
      a.totalSpent = totalSpent es ∧ a.categoryData = categoryData es ∧
      a.monthlyData = monthlyData es ∧ a.transactionCount = es.length ∧
      a.avgTransaction = totalSpent es / es.length :=
    ⟨_, analytics_of_ne_nil now es hne, rfl, rfl, rfl, rfl, rfl⟩
  obtain ⟨a', ha', hts', hcd', hmd', hcount', havg'⟩ : ∃ a', analytics now es' = some a' ∧
      a'.totalSpent = totalSpent es' ∧ a'.categoryData = categoryData es' ∧
      a'.monthlyData = monthlyData es' ∧ a'.transactionCount = es'.length ∧
      a'.avgTransaction = totalSpent es' / es'.length :=
    ⟨_, analytics_of_ne_nil now es' hne', rfl, rfl, rfl, rfl, rfl⟩
  have htotal : totalSpent es = totalSpent es' := by
    rw [totalSpent_eq_sum, totalSpent_eq_sum]
    exact (hperm.map _).sum_eq
  have hlen : es.length = es'.length := hperm.length_eq
  have hkeys : ∀ (x : Analytics) (l : List Expense), l ≠ [] → x.monthlyData = monthlyData l →
      1 ≤ (keys x.monthlyData).length := by
    intro x l hl hx
    rw [hx]
    have h := keys_group_ne_nil (fun e => monthKey e.date) l hl
    rw [← monthlyData_eq_foldl] at h
    exact List.length_pos.mpr h
  obtain ⟨p, hp, hnext, htrend, hconf⟩ := prediction_fields now sqrt a (hkeys a es hne hmd)
  obtain ⟨p', hp', hnext', htrend', hconf'⟩ :=
    prediction_fields now sqrt a' (hkeys a' es' hne' hmd')
  have hvalues : values a = values a' := values_perm a a' es es' hperm hmd hmd'
  have hunfloored : unflooredPrediction now a = unflooredPrediction now a' := by
    simp only [unflooredPrediction, hvalues]
  rw [← ha] at hp
  rw [← ha'] at hp'
  refine ⟨a, a', p, p', ha, ha', hp, hp', ?_, ?_, ?_, ?_, ?_, ?_, ?_, ?_⟩
  · rw [hts, hts', htotal]
  · rw [hcount, hcount', hlen]
  · rw [havg, havg', htotal, hlen]
  · intro k
    rw [hcd, hcd', categoryData_eq_foldl, categoryData_eq_foldl]
    exact getProp_group_perm Expense.category es es' hperm k
  · intro k
    rw [hmd, hmd', monthlyData_eq_foldl, monthlyData_eq_foldl]
    exact getProp_group_perm (fun e => monthKey e.date) es es' hperm k
  · rw [hnext, hnext', hunfloored]
  · rw [htrend, htrend', hvalues]
  · rw [hconf, hconf', hvalues]

/-- Scenario A and its reversal, an instance of C30 (amended). -/
theorem aggregate_order_independent_witness :
    scenarioA ≠ [] ∧ scenarioA.Perm scenarioA.reverse ∧
      ∃ a a' p p', analytics mar1 scenarioA = some a ∧
        analytics mar1 scenarioA.reverse = some a' ∧
        prediction mar1 Rat.sqrt (analytics mar1 scenarioA) = some p ∧
        prediction mar1 Rat.sqrt (analytics mar1 scenarioA.reverse) = some p' ∧
        a.totalSpent = a'.totalSpent ∧ a.transactionCount = a'.transactionCount ∧
        a.avgTransaction = a'.avgTransaction ∧
        (∀ k, getProp a.categoryData k = getProp a'.categoryData k) ∧
        (∀ k, getProp a.monthlyData k = getProp a'.monthlyData k) ∧
        p.nextMonth = p'.nextMonth ∧ p.trend = p'.trend ∧ p.confidence = p'.confidence :=
  ⟨List.cons_ne_nil _ _, (List.reverse_perm scenarioA).symm,
    aggregate_order_independent mar1 Rat.sqrt scenarioA scenarioA.reverse
      (List.cons_ne_nil _ _) (List.reverse_perm scenarioA).symm⟩

/-! ## Amounts that do not parse -/

theorem foldl_jsAdd_none (es : List RawExpense) :
    es.foldl (fun sum exp => jsAdd sum exp.amount) none = none := by
  induction es with
  | nil => rfl
  | cons e t ih => simpa [jsAdd] using ih

theorem foldl_jsAdd_of_nan (es : List RawExpense) (init : JSNumber)
    (h : ∃ e ∈ es, e.amount = none) :
    es.foldl (fun sum exp => jsAdd sum exp.amount) init = none := by
  induction es generalizing init with
  | nil => simp at h
  | cons e t ih =>
    obtain ⟨x, hx, hnan⟩ := h
    rcases List.mem_cons.mp hx with hxe | hxt
    · subst hxe
      have : jsAdd init x.amount = none := by
        rw [hnan]
        cases init <;> rfl
      simp only [List.foldl_cons, this]
      exact foldl_jsAdd_none t
    · simp only [List.foldl_cons]
      exact ih _ ⟨x, hxt, hnan⟩

theorem foldl_jsAdd_toRaw (es : List Expense) (init : ℚ) :
    (es.map Expense.toRaw).foldl (fun sum exp => jsAdd sum exp.amount) (some init) =
      some (es.foldl (fun sum exp => sum + exp.amount) init) := by
  induction es generalizing init with
  | nil => rfl
  | cons e t ih =>
    simp only [List.map_cons, List.foldl_cons]
    exact ih _

theorem getNumProp_liftObj (o : Obj) (k : String) :
    getNumProp (liftObj o) k = (getProp o k).map some := by
  induction o with
  | nil => rfl
  | cons p t ih =>
    obtain ⟨k', v⟩ := p
    simp only [liftObj] at ih
    by_cases h : k' = k <;> simp [liftObj, getNumProp, getProp, h, ih]

theorem setNumProp_liftObj (o : Obj) (k : String) (v : ℚ) :
    setNumProp (liftObj o) k (some v) = liftObj (setProp o k v) := by
  induction o with
  | nil => rfl
  | cons p t ih =>
    obtain ⟨k', v'⟩ := p
    simp only [liftObj] at ih
    by_cases h : k' = k <;> simp [liftObj, setNumProp, setProp, h, ih]

theorem orZeroNum_map_some (o : Option ℚ) : orZeroNum (o.map some) = some (orZero o) := by
  cases o with
  | none => rfl
  | some v => by_cases h : v = 0 <;> simp [orZeroNum, orZero, h]

theorem foldl_groupStepNaN_toRaw (key : Expense → String) (keyRaw : RawExpense → String)
    (hkey : ∀ e, keyRaw e.toRaw = key e) (es : List Expense) (acc : Obj) :
    (es.map Expense.toRaw).foldl (groupStepNaN keyRaw) (liftObj acc) =
      liftObj (es.foldl (groupStep key) acc) := by
  induction es generalizing acc with
  | nil => rfl
  | cons e t ih =>
    simp only [List.map_cons, List.foldl_cons]
    have hstep : groupStepNaN keyRaw (liftObj acc) e.toRaw = liftObj (groupStep key acc e) := by
      simp only [groupStepNaN, groupStep, hkey, getNumProp_liftObj, orZeroNum_map_some]
      simp only [Expense.toRaw, jsAdd]
      exact setNumProp_liftObj _ _ _
    rw [hstep]
    exact ih _

/-- On amounts that all parse, the embedding with `NaN` gives the aggregate of `analytics`. -/
theorem analyticsNaN_toRaw (now : JSDate) (es : List Expense) :
    analyticsNaN now (es.map Expense.toRaw) =
      (analytics now es).map (fun a =>
        { totalSpent := some a.totalSpent
          categoryData := liftObj a.categoryData
          monthlyData := liftObj a.monthlyData
          recentTotal := some a.recentTotal
          avgTransaction := some a.avgTransaction
          transactionCount := a.transactionCount }) := by
  by_cases h : es = []
  · subst h
    rfl
  · have hlen : es.length ≠ 0 := fun h' => h (List.length_eq_zero.mp h')
    have htotal : totalSpentNaN (es.map Expense.toRaw) = some (totalSpent es) :=
      foldl_jsAdd_toRaw es 0
    have hcat : categoryDataNaN (es.map Expense.toRaw) = liftObj (categoryData es) :=
      foldl_groupStepNaN_toRaw Expense.category RawExpense.category (fun _ => rfl) es []
    have hmonth : monthlyDataNaN (es.map Expense.toRaw) = liftObj (monthlyData es) :=
      foldl_groupStepNaN_toRaw (fun e => monthKey e.date) (fun e => monthKey e.date)
        (fun _ => rfl) es []
    have hrecent : recentTotalNaN now (es.map Expense.toRaw) = some (recentTotal now es) := by
      simp only [recentTotalNaN, recentTotal, recentExpenses, List.filter_map]
      exact foldl_jsAdd_toRaw _ 0
    rw [analytics_of_ne_nil now es h]
    simp [analyticsNaN, hlen, htotal, hcat, hmonth, hrecent]

theorem analyticsNaN_of_ne_nil (now : JSDate) (es : List RawExpense) (hne : es ≠ []) :
    analyticsNaN now es = some
      { totalSpent := totalSpentNaN es
        categoryData := categoryDataNaN es
        monthlyData := monthlyDataNaN es
        recentTotal := recentTotalNaN now es
        avgTransaction := (totalSpentNaN es).map (fun t => t / (es.length : ℚ))
        transactionCount := es.length } := by
  have hlen : es.length ≠ 0 := fun h' => hne (List.length_eq_zero.mp h')
  simp only [analyticsNaN, hlen, if_false]

/-- C23 (amended): for every non-empty expense list, also one with records whose amount does
not parse, the aggregation returns an aggregate and has no failing outcome; every record is
counted in `transactionCount`, and as soon as one amount does not parse `totalSpent` and
`avgTransaction` are `NaN`. -/
theorem aggregation_never_fails (now : JSDate) (es : List RawExpense) (hne : es ≠ []) :
    ∃ r, analyticsNaN now es = some r ∧ r.transactionCount = es.length ∧
      ((∃ e ∈ es, e.amount = none) → r.totalSpent = none ∧ r.avgTransaction = none) := by
  refine ⟨_, analyticsNaN_of_ne_nil now es hne, rfl, ?_⟩
  intro hbad
  have h : totalSpentNaN es = none := foldl_jsAdd_of_nan es (some 0) hbad
  exact ⟨h, by simp [h]⟩

/-- An instance of C23 (amended): three Food records, the second with an amount that does not
parse. -/
theorem aggregation_never_fails_witness :
    badAmount ≠ [] ∧ (∃ e ∈ badAmount, e.amount = none) ∧
      ∃ r, analyticsNaN mar1 badAmount = some r ∧ r.transactionCount = badAmount.length ∧
        ((∃ e ∈ badAmount, e.amount = none) →
          r.totalSpent = none ∧ r.avgTransaction = none) :=
  ⟨List.cons_ne_nil _ _, ⟨⟨none, "Food", mar1⟩, by simp [badAmount], rfl⟩,
    aggregation_never_fails mar1 badAmount (List.cons_ne_nil _ _)⟩

/-- C23 fails as stated: for three Food records with amounts 10, an unparseable text and 5,
the aggregation does not fail but returns an aggregate: `totalSpent` is `NaN`, all three
records are counted, and the Food total is 5, the bad record and the 10 before it having been
replaced by 0 when the third record was added. -/
theorem unparsed_amount_absorbed :
    (∃ e ∈ badAmount, e.amount = none) ∧
      ∃ r, analyticsNaN mar1 badAmount = some r ∧
        r.totalSpent = none ∧ r.transactionCount = 3 ∧
        r.categoryData = [("Food", some 5)] ∧
        r.monthlyData = [("Mar 2024", some 5)] := by
  have hk : monthKey mar1 = "Mar 2024" := by decide
  refine ⟨⟨⟨none, "Food", mar1⟩, by simp [badAmount], rfl⟩, _,
    analyticsNaN_of_ne_nil mar1 badAmount (List.cons_ne_nil _ _), ?_, rfl, ?_, ?_⟩
  · simp [totalSpentNaN, badAmount, jsAdd]
  · simp [categoryDataNaN, badAmount, groupStepNaN, setNumProp, getNumProp, orZeroNum, jsAdd]
  · simp [monthlyDataNaN, badAmount, groupStepNaN, setNumProp, getNumProp, orZeroNum, jsAdd,
      hk]

/-! ## Rounding in binary64 arithmetic -/

set_option maxRecDepth 100000 in
theorem scenarioA_toF64 : scenarioA.map Expense.toF64 = scenarioAF64 := by
  decide

set_option maxRecDepth 100000 in
theorem budgetAnalysisF64_scenarioA :
    budgetAnalysisF64 mar1 scenarioAF64 =
      some
        { totalSuggested := ⟨6772991627100161, -45⟩
          totalCurrent := ⟨0, 0⟩
          totalPercentage := ⟨0, 0⟩
          categoryBudgets :=
            [⟨"Food", ⟨165, -1⟩, ⟨0, 0⟩, ⟨0, 0⟩, "good"⟩,
              ⟨"Transportation", ⟨7740561859543041, -46⟩, ⟨0, 0⟩, ⟨0, 0⟩, "good"⟩] } := by
  decide

set_option maxRecDepth 100000 in
theorem budgetAnalysisF64_marchCents :
    budgetAnalysisF64 mar1 marchCentsF64 =
      some
        { totalSuggested := ⟨4688458318325219, -46⟩
          totalCurrent := ⟨1065558708710277, -44⟩
          totalPercentage := ⟨3198579280802909, -45⟩
          categoryBudgets :=
            [⟨"Food", ⟨7951105142122611, -48⟩, ⟨3614138700964823, -47⟩,
                ⟨3198579280802909, -45⟩, "warning"⟩,
              ⟨"Bills", ⟨2700682032794567, -46⟩, ⟨2455165484358697, -46⟩,
                ⟨6397158561605817, -46⟩, "warning"⟩] } := by
  decide

set_option maxRecDepth 100000 in
theorem budgetAnalysisF64_elevenMonths :
    budgetAnalysisF64 nov15 elevenMonthsF64 =
      some
        { totalSuggested := ⟨6178375738798899, -49⟩
          totalCurrent := ⟨4537376624575775, -49⟩
          totalPercentage := ⟨2583927462742469, -45⟩
          categoryBudgets :=
            [⟨"Food", ⟨2835860390359859, -48⟩, ⟨4537376624575775, -49⟩,
                ⟨5629499534213121, -46⟩, "good"⟩,
              ⟨"Bills", ⟨4053239664633447, -52⟩, ⟨0, 0⟩, ⟨0, 0⟩, "good"⟩] } := by
  decide

set_option maxRecDepth 100000 in
theorem totalSpentF64_tenths :
    totalSpentF64 tenthsF64 = ⟨1351079888211149, -51⟩ ∧
      totalSpentF64 tenthsF64.reverse = ⟨5404319552844595, -53⟩ := by
  decide

set_option maxRecDepth 100000 in
theorem add_suggested_scenarioA :
    F64.add (F64.add F64.zero ⟨165, -1⟩) ⟨7740561859543041, -46⟩ = ⟨385, -1⟩ := by
  decide

set_option maxRecDepth 100000 in
theorem add_current_marchCents :
    F64.add (F64.add F64.zero ⟨3614138700964823, -47⟩) ⟨2455165484358697, -46⟩ =
      ⟨8524469669682217, -47⟩ := by
  decide

set_option maxRecDepth 100000 in
theorem percentage_elevenMonths :
    F64.mul (F64.div ⟨4537376624575775, -49⟩ ⟨2835860390359859, -48⟩) (F64.ofNat 100) =
        ⟨5629499534213121, -46⟩ ∧
      F64.gt ⟨5629499534213121, -46⟩ (F64.ofNat 80) = true ∧
      F64.gt ⟨5629499534213121, -46⟩ (F64.ofNat 100) = false ∧
      (∀ e ∈ elevenMonthsF64, F64.gt F64.zero e.amount = false) := by
  decide

/-- C27 fails as stated in the binary64 arithmetic of JS: on Scenario A, evaluated on
2024-03-01, `totalSuggested` is `350 / 2 * 1.1 = 192.50000000000003`, which is
`192.5 + 2^-45`, while the suggested budgets of the two categories are `82.5` and
`110.00000000000001`, which is `110 + 2^-46`; their sum is `192.5 + 2^-46`, and `192.5` when
added in binary64. -/
theorem suggested_sum_rounding :
    ∃ b, budgetAnalysisF64 mar1 (scenarioA.map Expense.toF64) = some b ∧
      b.totalSuggested.toRat = 385 / 2 + 1 / 2 ^ 45 ∧
      b.categoryBudgets.map (fun c => c.suggested.toRat) = [165 / 2, 110 + 1 / 2 ^ 46] ∧
      (b.categoryBudgets.map (fun c => c.suggested.toRat)).sum ≠ b.totalSuggested.toRat ∧
      b.categoryBudgets.foldl (fun sum c => F64.add sum c.suggested) F64.zero ≠
        b.totalSuggested := by
  refine ⟨_, by rw [scenarioA_toF64]; exact budgetAnalysisF64_scenarioA, ?_, ?_, ?_, ?_⟩
  · norm_num [F64.toRat]
  · norm_num [F64.toRat]
  · norm_num [F64.toRat]
  · simp only [List.foldl_cons, List.foldl_nil, add_suggested_scenarioA]
    decide

/-- C28 fails as stated in the binary64 arithmetic of JS: with 14.87 and 10.81 for Food and
15.65 and 19.24 for Bills, all dated in the evaluation month, `totalCurrent` is
`60.56999999999999` (the four amounts added in list order) while the current spends of the two
categories are `25.68` and `34.89`; their sum is larger by `2^-47`, and `60.57` when added in
binary64. -/
theorem current_sum_rounding :
    ∃ b, budgetAnalysisF64 mar1 marchCentsF64 = some b ∧
      b.totalCurrent = ⟨1065558708710277, -44⟩ ∧
      b.categoryBudgets.map (fun c => c.current) =
        [F64.ofDecimal 2568 100, F64.ofDecimal 3489 100] ∧
      (b.categoryBudgets.map (fun c => c.current.toRat)).sum =
        b.totalCurrent.toRat + 1 / 2 ^ 47 ∧
      b.categoryBudgets.foldl (fun sum c => F64.add sum c.current) F64.zero ≠
        b.totalCurrent := by
  refine ⟨_, budgetAnalysisF64_marchCents, rfl, ?_, ?_, ?_⟩
  · decide
  · norm_num [F64.toRat]
  · simp only [List.foldl_cons, List.foldl_nil, add_current_marchCents]
    decide

/-- C30 fails as stated in the binary64 arithmetic of JS: the amounts 0.1, 0.2 and 0.3 add up
to `0.6000000000000001` in this order and to `0.6` in the reverse order, so `totalSpent`
depends on the order of the list; the two results differ by `2^-53`. -/
theorem totalSpent_order_rounding :
    tenthsF64.reverse.Perm tenthsF64 ∧
      (totalSpentF64 tenthsF64).toRat = 1351079888211149 / 2 ^ 51 ∧
      (totalSpentF64 tenthsF64.reverse).toRat = 1351079888211149 / 2 ^ 51 - 1 / 2 ^ 53 ∧
      totalSpentF64 tenthsF64.reverse ≠ totalSpentF64 tenthsF64 := by
  refine ⟨List.reverse_perm _, ?_, ?_, ?_⟩
  · rw [totalSpentF64_tenths.1]
    norm_num [F64.toRat]
  · rw [totalSpentF64_tenths.2]
    norm_num [F64.toRat]
  · rw [totalSpentF64_tenths.1, totalSpentF64_tenths.2]
    decide

/-- C21 fails as stated in the binary64 arithmetic of JS: with eleven months of records, 92.69
for Food in January and 8.06 for Food in November (and 1 for Bills in each month between),
evaluated in November, the Food entry has the suggested budget `100.75 / 11 * 1.1`, the
current spend 8.06 and the percentage `80.00000000000001`, which is `80 + 2^-46` and so above
80 and not above 100, and yet its status is `good`: `suggested * 0.8` rounds to 8.06. -/
theorem status_thresholds_rounding :
    (∀ e ∈ elevenMonthsF64, F64.gt F64.zero e.amount = false) ∧
      ∃ b c, budgetAnalysisF64 nov15 elevenMonthsF64 = some b ∧ c ∈ b.categoryBudgets ∧
        c.category = "Food" ∧ c.status = "good" ∧
        c.percentage = F64.mul (F64.div c.current c.suggested) (F64.ofNat 100) ∧
        c.percentage.toRat = 80 + 1 / 2 ^ 46 ∧
        F64.gt c.percentage (F64.ofNat 80) = true ∧
        F64.gt c.percentage (F64.ofNat 100) = false := by
  refine ⟨percentage_elevenMonths.2.2.2, _,
    ⟨"Food", ⟨2835860390359859, -48⟩, ⟨4537376624575775, -49⟩, ⟨5629499534213121, -46⟩, "good"⟩,
    budgetAnalysisF64_elevenMonths, by simp, rfl, rfl, percentage_elevenMonths.1.symm, ?_,
    percentage_elevenMonths.2.1, percentage_elevenMonths.2.2.1⟩
  norm_num [F64.toRat]

end Dashboard
